import Mathlib

/-!
# lestpng: a shallow embedding of the PNG decoder

The definitions below follow `src/png.cpp`, `src/png.hpp` and `src/common.hpp`.

* Bytes (`uint8_t`) and the 32-bit integers of the source are natural numbers or
  integers; every place where the source converts or wraps (`uint32_t` arithmetic,
  the `int32_t` reading of an unsigned difference, the `(int)` cast of a vector size,
  the implicit conversion to `uint8_t` on `push_back`) is written out with an explicit
  reduction modulo a power of two.
* `std::vector<uint8_t>` is `List Nat`; `v[i]` is a lookup that can fail, so that an access
  outside the vector (undefined behaviour in the source) is visible as
  `Stuck.undefinedBehaviour`.
* `exit(-1)` is an `Outcome.exited` that names the fatal error and keeps the state of the
  object at the point of the exit.
* The two loops run on fuel; `rgbBitDepth8_fuel` and `readPng_fuel` show that the fuel they
  are given never runs out, so every result below is a result of the source.
-/

namespace Lestpng

/-! ## Machine integers -/

/-- The value of a `uint32_t` expression whose mathematical value is `n`. -/
def u32 (n : Nat) : Nat := n % 4294967296

/-- The `uint32_t` difference `a - b` (wrapping below zero). -/
def u32sub (a b : Nat) : Nat := (u32 a + 4294967296 - u32 b) % 4294967296

/-- The `int32_t` (two's complement) reading of the low 32 bits of `n`: what
`(int) v.size()` and `int32_t x = <uint32_t value>` produce. -/
def toInt32 (n : Nat) : Int :=
  if u32 n < 2147483648 then (u32 n : Int) else (u32 n : Int) - 4294967296

/-- The `int32_t` holding the mathematical integer `x` (two's complement wrap). -/
def wrapInt32 (x : Int) : Int := (x + 2147483648) % 4294967296 - 2147483648

/-! ## `Png::calcPaethByte` (png.cpp 69-90) -/

/-- Source `uint8_t Png::calcPaethByte(const uint8_t cA, const uint8_t cB, const uint8_t cC)`:
the three bytes are widened to `int32_t`, and `p`, `pa`, `pb`, `pc` are `int32_t`. -/
def calcPaethByte (cA cB cC : Nat) : Nat :=
  let p : Int := wrapInt32 (wrapInt32 ((cA : Int) + (cB : Int)) - (cC : Int))
  let pa : Int := wrapInt32 ((wrapInt32 (p - (cA : Int))).natAbs : Int)
  let pb : Int := wrapInt32 ((wrapInt32 (p - (cB : Int))).natAbs : Int)
  let pc : Int := wrapInt32 ((wrapInt32 (p - (cC : Int))).natAbs : Int)
  if pa ≤ pb ∧ pa ≤ pc then cA
  else if pb ≤ pc then cB
  else cC

/-- The reference Paeth predictor in the words of the specification (section 4.3):
`p = a + b - c` over the integers, `pa = |p - a|`, `pb = |p - b|`, `pc = |p - c|`;
`a` if `pa <= pb && pa <= pc`, else `b` if `pb <= pc`, else `c`. -/
def paethReference (a b c : Nat) : Nat :=
  let p : Int := (a : Int) + (b : Int) - (c : Int)
  let pa : Nat := (p - (a : Int)).natAbs
  let pb : Nat := (p - (b : Int)).natAbs
  let pc : Nat := (p - (c : Int)).natAbs
  if pa ≤ pb ∧ pa ≤ pc then a
  else if pb ≤ pc then b
  else c

/-! ## Data model (png.hpp, common.hpp) -/

/-- Source `enum Status` of common.hpp. -/
inductive Status where
  | FAIL
  | SUCCESS
deriving DecidableEq

/-- Source `struct Png::IHDR` (png.hpp 32-40). -/
structure IHDR where
  width : Nat
  height : Nat
  bitDepth : Nat
  colorType : Nat
  compressionMethod : Nat
  filterMethod : Nat
  interfaceMethod : Nat
deriving DecidableEq

/-- Source `struct Png::RGB` (png.hpp 42-47). -/
structure RGB where
  Red : Nat
  Green : Nat
  Blue : Nat
  Alpha : Nat
deriving DecidableEq

/-- Source `Png::ColorType::RGBTRIP`. -/
def RGBTRIP : Nat := 2
/-- Source `Png::ColorType::RGBTRIPA`. -/
def RGBTRIPA : Nat := 6
/-- Source `#define RGBSIZE 3`. -/
def RGBSIZE : Nat := 3
/-- Source `#define RGBASIZE 4`. -/
def RGBASIZE : Nat := 4
/-- Source `Png::FilterMethods::NONE`. -/
def NONE : Nat := 0
/-- Source `Png::FilterMethods::SUB`. -/
def SUB : Nat := 1
/-- Source `Png::FilterMethods::UP`. -/
def UP : Nat := 2
/-- Source `Png::FilterMethods::AVERAGE`. -/
def AVERAGE : Nat := 3
/-- Source `Png::FilterMethods::PAETH`. -/
def PAETH : Nat := 4
/-- Source `#define IHDR_MASK 0x01`. -/
def IHDR_MASK : Nat := 1
/-- Source `#define IDAT_MASK 0x02`. -/
def IDAT_MASK : Nat := 2
/-- Source `#define IEND_MASK 0x04`. -/
def IEND_MASK : Nat := 4
/-- Source `#define IDAT_CHAIN 0x08`. -/
def IDAT_CHAIN : Nat := 8

/-- Why an evaluation of the byte-level engine stops without a result. -/
inductive Stuck where
  /-- The source has undefined behaviour here: a vector read outside its bounds, a
  division by zero, a signed overflow. -/
  | undefinedBehaviour
  /-- The fuel of the embedding ran out (`rgbLoop_fuel` shows it never does). -/
  | outOfFuel
deriving DecidableEq

deriving instance DecidableEq for Except

/-- Source `v[n]` for a `size_t` or `uint32_t` index `n`. -/
def atIdx (v : List Nat) (n : Nat) : Except Stuck Nat :=
  match v[n]? with
  | some x => .ok x
  | none => .error .undefinedBehaviour

/-- Source `v[e]` for an `int` expression `e` of non-negative mathematical value `n`:
the expression overflows from `2^31` on. -/
def atInt (v : List Nat) (n : Nat) : Except Stuck Nat :=
  if n < 2147483648 then atIdx v n else .error .undefinedBehaviour

/-! ## The scanline reconstruction engine (png.cpp 92-255) -/

/-- The left neighbour of channel `k` of the pixel at `currByte`:
`(leftBound != 0) ? mImgData[currByte - (rgbSize - k)] : 0`
(png.cpp 120-125, 210-215, 227-235; for `k = 0` the source writes `currByte - rgbSize`). -/
def leftByte (mImgData : List Nat) (rgbSize currByte leftBound k : Nat) : Except Stuck Nat :=
  if leftBound ≠ 0 then atIdx mImgData (u32sub currByte (rgbSize - k)) else .ok 0

/-- The upper neighbour of channel `k`: `(upperBound >= 0) ? mImgData[upperBound + k] : 0`
(png.cpp 127-132, 218-223, 226-234). -/
def upByte (mImgData : List Nat) (upperBound : Int) (k : Nat) : Except Stuck Nat :=
  if 0 ≤ upperBound then atInt mImgData (upperBound.toNat + k) else .ok 0

/-- The upper-left neighbour of channel `k`:
`(leftBound != 0) && (upperBound >= 0) ? mImgData[ULPix + k] : 0` (png.cpp 134-139). -/
def upLeftByte (mImgData : List Nat) (ULPix leftBound : Nat) (upperBound : Int) (k : Nat) :
    Except Stuck Nat :=
  if leftBound ≠ 0 ∧ 0 ≤ upperBound then atIdx mImgData (u32 (ULPix + k)) else .ok 0

/-- Source `struct RGB Png::paethRGBBitDepth8(cScanlineSize, cRgbSize, cCurrByte)` (png.cpp 100-149).
The `Alpha` member of the result is left uninitialised by the source when the colour type
is not `RGBTRIPA`; it is `0` here, and no caller reads it in that case. -/
def paethRGBBitDepth8 (mIhdr : IHDR) (mImgData : List Nat)
    (cScanlineSize cRgbSize cCurrByte : Nat) : Except Stuck RGB :=
  if cScanlineSize = 0 then .error .undefinedBehaviour
  else do
    let ULPix := u32sub cCurrByte (u32 (cScanlineSize + cRgbSize))
    let leftBound := cCurrByte % cScanlineSize
    let upperBound := toInt32 (u32sub cCurrByte cScanlineSize)
    let aRed ← leftByte mImgData cRgbSize cCurrByte leftBound 0
    let aGreen ← leftByte mImgData cRgbSize cCurrByte leftBound 1
    let aBlue ← leftByte mImgData cRgbSize cCurrByte leftBound 2
    let aAlpha ← if mIhdr.colorType = RGBTRIPA
      then leftByte mImgData cRgbSize cCurrByte leftBound 3 else pure 0
    let bRed ← upByte mImgData upperBound 0
    let bGreen ← upByte mImgData upperBound 1
    let bBlue ← upByte mImgData upperBound 2
    let bAlpha ← if mIhdr.colorType = RGBTRIPA then upByte mImgData upperBound 3 else pure 0
    let cRed ← upLeftByte mImgData ULPix leftBound upperBound 0
    let cGreen ← upLeftByte mImgData ULPix leftBound upperBound 1
    let cBlue ← upLeftByte mImgData ULPix leftBound upperBound 2
    let cAlpha ← if mIhdr.colorType = RGBTRIPA
      then upLeftByte mImgData ULPix leftBound upperBound 3 else pure 0
    pure { Red := calcPaethByte aRed bRed cRed
           Green := calcPaethByte aGreen bGreen cGreen
           Blue := calcPaethByte aBlue bBlue cBlue
           Alpha := if mIhdr.colorType = RGBTRIPA then calcPaethByte aAlpha bAlpha cAlpha else 0 }

/-- One channel of the `AVERAGE` case: `(uint32_t) floor((up + left) / 2) % mod`, stored
in a `uint8_t` (png.cpp 226-235). The division is the integer division of the source. -/
def averageByte (up left : Nat) : Nat := (u32 ((up + left) / 2) % 256) % 256

/-- The `switch (filterValue)` of `rgbBitDepth8` (png.cpp 200-242): the new `filterPix`. -/
def filterSwitch (mIhdr : IHDR) (mImgData : List Nat) (scanlineSize rgbSize currByte
    leftBound : Nat) (upperBound : Int) (filterValue : Nat) (filterPix : RGB) :
    Except Stuck RGB :=
  if filterValue = NONE then
    pure { Red := 0, Green := 0, Blue := 0, Alpha := 0 }
  else if filterValue = SUB then do
    let r ← leftByte mImgData rgbSize currByte leftBound 0
    let g ← leftByte mImgData rgbSize currByte leftBound 1
    let b ← leftByte mImgData rgbSize currByte leftBound 2
    let a ← if mIhdr.colorType = RGBTRIPA
      then leftByte mImgData rgbSize currByte leftBound 3 else pure filterPix.Alpha
    pure { Red := r, Green := g, Blue := b, Alpha := a }
  else if filterValue = UP then do
    let r ← upByte mImgData upperBound 0
    let g ← upByte mImgData upperBound 1
    let b ← upByte mImgData upperBound 2
    let a ← if mIhdr.colorType = RGBTRIPA
      then upByte mImgData upperBound 3 else pure filterPix.Alpha
    pure { Red := r, Green := g, Blue := b, Alpha := a }
  else if filterValue = AVERAGE then do
    let ur ← upByte mImgData upperBound 0
    let lr ← leftByte mImgData rgbSize currByte leftBound 0
    let ug ← upByte mImgData upperBound 1
    let lg ← leftByte mImgData rgbSize currByte leftBound 1
    let ub ← upByte mImgData upperBound 2
    let lb ← leftByte mImgData rgbSize currByte leftBound 2
    let a ← if mIhdr.colorType = RGBTRIPA then do
        let ua ← upByte mImgData upperBound 3
        let la ← leftByte mImgData rgbSize currByte leftBound 3
        pure (averageByte ua la)
      else pure filterPix.Alpha
    pure { Red := averageByte ur lr, Green := averageByte ug lg, Blue := averageByte ub lb,
           Alpha := a }
  else if filterValue = PAETH then
    paethRGBBitDepth8 mIhdr mImgData scanlineSize rgbSize currByte
  else
    pure filterPix

/-- The four `push_back` statements (png.cpp 244-249): the `int` sums are reduced
`% mod` (`mod = 256`) for Red, Green and Blue and converted to `uint8_t` for Alpha. -/
def pushPixel (mIhdr : IHDR) (crRgbData : List Nat) (i : Nat) (filterPix : RGB)
    (mImgData : List Nat) : Except Stuck (List Nat) := do
  let d0 ← atInt crRgbData i
  let d1 ← atInt crRgbData (i + 1)
  let d2 ← atInt crRgbData (i + 2)
  let img := mImgData ++ [(d0 + filterPix.Red) % 256, (d1 + filterPix.Green) % 256,
    (d2 + filterPix.Blue) % 256]
  if mIhdr.colorType = RGBTRIPA then do
    let d3 ← atInt crRgbData (i + 3)
    pure (img ++ [(d3 + filterPix.Alpha) % 256])
  else
    pure img

/-- The `for` loop of `rgbBitDepth8` (png.cpp 188-254). The loop variables are `i`
(an `int`, never negative), `currByte`, `filterValue`, `filterPix` and the member
`mImgData`; `leftBound` and `upperBound` are recomputed at the top of every iteration.
Every iteration advances `i`, so `crRgbData.length` iterations always suffice. -/
def rgbLoop (mIhdr : IHDR) (crRgbData : List Nat) (rgbSize scanlineSize : Nat) :
    Nat → Nat → Nat → Nat → RGB → List Nat → Except Stuck (List Nat)
  | 0, i, _, _, _, mImgData =>
    if (i : Int) < toInt32 crRgbData.length then .error .outOfFuel else .ok mImgData
  | fuel + 1, i, currByte, filterValue, filterPix, mImgData =>
    if (i : Int) < toInt32 crRgbData.length then
      if scanlineSize = 0 then .error .undefinedBehaviour
      else
        let leftBound := currByte % scanlineSize
        let upperBound := toInt32 (u32sub currByte scanlineSize)
        if u32 (scanlineSize + 1) = 0 then .error .undefinedBehaviour
        else if i % u32 (scanlineSize + 1) = 0 then
          match atIdx crRgbData i with
          | .ok b => rgbLoop mIhdr crRgbData rgbSize scanlineSize fuel (i + 1) currByte b
              filterPix mImgData
          | .error e => .error e
        else
          match filterSwitch mIhdr mImgData scanlineSize rgbSize currByte leftBound
              upperBound filterValue filterPix with
          | .error e => .error e
          | .ok filterPix' =>
            match pushPixel mIhdr crRgbData i filterPix' mImgData with
            | .error e => .error e
            | .ok mImgData' =>
              if i + rgbSize < 2147483648 then
                rgbLoop mIhdr crRgbData rgbSize scanlineSize fuel (i + rgbSize)
                  (u32 (currByte + rgbSize)) filterValue filterPix' mImgData'
              else .error .undefinedBehaviour
    else .ok mImgData

/-- Source `void Png::rgbBitDepth8(const std::vector<uint8_t> &crRgbData)` (png.cpp 156-255):
the new contents of `mImgData`. `currByte` starts at `0` whatever `mImgData` holds. -/
def rgbBitDepth8 (mIhdr : IHDR) (mImgData : List Nat) (crRgbData : List Nat) :
    Except Stuck (List Nat) :=
  let rgbSize := if mIhdr.colorType = RGBTRIP then RGBSIZE else RGBASIZE
  let scanlineSize := u32 (mIhdr.width * rgbSize)
  rgbLoop mIhdr crRgbData rgbSize scanlineSize crRgbData.length 0 0 0
    { Red := 0, Green := 0, Blue := 0, Alpha := 0 } mImgData

/-! ## The decoded-image object and the input stream -/

/-- The `std::ifstream` member: the bytes not read yet and whether `good()` holds. The
only state flags the program can reach are "no flag" and "failbit set" (an open that
failed, or a `read` that came up short, which sets `eofbit | failbit`), so `operator!`
is the negation of `good`. -/
structure IStream where
  bytes : List Nat
  good : Bool
deriving DecidableEq

/-- Source `mPngFile.read(dest, n)`: `dest` is the present content of the destination, of
which the first `n` bytes are overwritten. A stream that is not good extracts nothing;
a stream with fewer than `n` bytes left stores what it has and is no longer good.
The result is the new content of the destination and the new stream. -/
def IStream.read (f : IStream) (dest : List Nat) (n : Nat) : List Nat × IStream :=
  if f.good then
    if n ≤ f.bytes.length then
      (f.bytes.take n ++ dest.drop n, { bytes := f.bytes.drop n, good := true })
    else
      (f.bytes ++ dest.drop f.bytes.length, { bytes := [], good := false })
  else (dest, f)

/-- A bound on the number of loop iterations of `readPng` that can still start: none on a
stream that is not good, otherwise one more than the number of unread bytes. -/
def IStream.left (f : IStream) : Nat := if f.good = true then f.bytes.length + 1 else 0

/-- The members of `class Png` (png.hpp 76-78). -/
structure Png where
  mIhdr : IHDR
  mImgData : List Nat
  mPngFile : IStream
deriving DecidableEq

/-- The fatal errors of the decoder, named as in section 7 of the specification; in the
source each is a message on `std::cout` followed by `exit(-1)`. -/
inductive Fatal where
  /-- Message "Png file descriptor is not good." (png.cpp 360-364). -/
  | IOError
  /-- Message "Not a PNG format" (png.cpp 370-374). -/
  | InvalidSignature
  /-- Message "Error! Invalid PNG file, IHDR chunk did not follow PNG signature." (png.cpp 399-403). -/
  | MissingHeader
  /-- Message "Error! Invalid image dimensions." (png.cpp 31-35). -/
  | InvalidDimensions
  /-- Message "BitDepth not implemented", "ColorType not implemented" (png.cpp 271-279). -/
  | UnsupportedFormat
  /-- Message "Error! iCCP chunk must appear before first IDAT chunk" (png.cpp 428-432). -/
  | ChunkOrderingViolation
  /-- Message "ZLIB decompression returned error: ..." (png.cpp 318-322). -/
  | DecompressionError
deriving DecidableEq

/-- How a member function ends: it returns, it calls `exit(-1)` (the state is the one
at the exit), it runs into undefined behaviour, or the embedding's fuel runs out (`readPng_fuel` and
`handlePngColorType_fuel` show it never does). -/
inductive Outcome (σ : Type) where
  | returned (s : σ)
  | exited (e : Fatal) (s : σ)
  | undefinedBehaviour
  | outOfFuel
deriving DecidableEq

/-- The state in which a run ended, when there is one. -/
def Outcome.state {σ : Type} : Outcome σ → Option σ
  | .returned s => some s
  | .exited _ s => some s
  | .undefinedBehaviour => none
  | .outOfFuel => none

/-- Sequencing: continue with `k` after a return, stop otherwise. -/
def Outcome.andThen {σ : Type} (o : Outcome σ) (k : σ → Outcome σ) : Outcome σ :=
  match o with
  | .returned s => k s
  | .exited e s => .exited e s
  | .undefinedBehaviour => .undefinedBehaviour
  | .outOfFuel => .outOfFuel

/-- Source `void Png::handlePngColorType(const std::vector<uint8_t> &crRgbData)`
(png.cpp 262-281). -/
def handlePngColorType (self : Png) (crRgbData : List Nat) : Outcome Png :=
  if self.mIhdr.colorType = 2 ∨ self.mIhdr.colorType = 6 then
    if self.mIhdr.bitDepth = 8 then
      match rgbBitDepth8 self.mIhdr self.mImgData crRgbData with
      | .ok img => .returned { self with mImgData := img }
      | .error .undefinedBehaviour => .undefinedBehaviour
      | .error .outOfFuel => .outOfFuel
    else .exited .UnsupportedFormat self
  else .exited .UnsupportedFormat self

/-- The four bytes of a `uint32_t` in memory (little-endian host). -/
def toBytesLE (n : Nat) : List Nat :=
  [n % 256, n / 256 % 256, n / 65536 % 256, n / 16777216 % 256]

/-- The `uint32_t` stored in four bytes of memory (little-endian host). -/
def ofBytesLE (m : List Nat) : Nat :=
  m.getD 0 0 + 256 * m.getD 1 0 + 65536 * m.getD 2 0 + 16777216 * m.getD 3 0

/-- Source `htonl` on a little-endian host: the four bytes in reverse order. -/
def htonl (n : Nat) : Nat := ofBytesLE (toBytesLE n).reverse

/-- The object representation of `struct IHDR`: 13 bytes of members and 3 bytes of
padding (taken as `0`; they are never read). -/
def IHDR.toBytes (h : IHDR) : List Nat :=
  toBytesLE h.width ++ toBytesLE h.height ++
    [h.bitDepth, h.colorType, h.compressionMethod, h.filterMethod, h.interfaceMethod, 0, 0, 0]

/-- The `struct IHDR` whose object representation is `m`. -/
def IHDR.ofBytes (m : List Nat) : IHDR :=
  { width := ofBytesLE (m.take 4)
    height := ofBytesLE ((m.drop 4).take 4)
    bitDepth := m.getD 8 0
    colorType := m.getD 9 0
    compressionMethod := m.getD 10 0
    filterMethod := m.getD 11 0
    interfaceMethod := m.getD 12 0 }

/-- Source `void Png::parseIHDR(const uint32_t cChunkLength)` (png.cpp 24-36). The `read`
writes `cChunkLength` bytes over the object representation of `mIhdr`; more than
`sizeof(struct IHDR) = 16` of them would be written past the member. -/
def parseIHDR (self : Png) (cChunkLength : Nat) : Outcome Png :=
  if 16 < cChunkLength then .undefinedBehaviour
  else
    let r := self.mPngFile.read self.mIhdr.toBytes cChunkLength
    let raw := IHDR.ofBytes r.1
    let hdr : IHDR := { raw with width := htonl raw.width, height := htonl raw.height }
    let self' : Png := { self with mIhdr := hdr, mPngFile := r.2 }
    if hdr.width = 0 ∨ hdr.height = 0 then .exited .InvalidDimensions self'
    else .returned self'

/-- Source `Status Png::compareSize(const uint32_t cWidth, const uint32_t cHeight)`
(png.cpp 469-475): the status and the object after the call. -/
def compareSize (self : Png) (cWidth cHeight : Nat) : Status × Png :=
  if self.mIhdr.width ≠ cWidth ∨ self.mIhdr.height ≠ cHeight then (.FAIL, self)
  else (.SUCCESS, self)

/-! ## The container parser (png.cpp 283-461) -/

/-- Source `strcmp` on NUL-terminated buffers: `0` when the strings are equal, otherwise the
difference of the first two bytes that differ. Every buffer compared by the program
holds a NUL, so the comparison never runs past the end of a buffer. -/
def strcmp : List Nat → List Nat → Int
  | a :: as, b :: bs =>
    if a = b then (if a = 0 then 0 else strcmp as bs) else (a : Int) - (b : Int)
  | _, _ => 0

/-- Source `const std::vector<uint8_t> pngSignature` (png.cpp 15). -/
def pngSignature : List Nat := [0x89, 0x50, 0x4E, 0x47, 0x0D, 0x0A, 0x1A, 0x0A, 0]

/-- The string literal `"IHDR\0"`. -/
def strIHDR : List Nat := [73, 72, 68, 82, 0, 0]
/-- The string literal `"IDAT\0"`. -/
def strIDAT : List Nat := [73, 68, 65, 84, 0, 0]
/-- The string literal `"IEND\0"`. -/
def strIEND : List Nat := [73, 69, 78, 68, 0, 0]
/-- The string literal `"iCCP\0"`. -/
def striCCP : List Nat := [105, 67, 67, 80, 0, 0]

/-- The decompression adapter `uncompressIDAT` (png.cpp 289-330) is a loop around
zlib's `inflate`, which is not part of the repository: `Inflate` is what that loop
delivers for a compressed buffer, `none` when zlib reports `Z_DATA_ERROR` or
`Z_MEM_ERROR` and the adapter exits. -/
abbrev Inflate := List Nat → Option (List Nat)

/-- The object together with the local variables of `Png::readPng` (png.cpp 351-357).
`inflateCalls` is not a variable of the source: it records the argument of every call of
`uncompressIDAT`, in order. -/
structure ReadState where
  self : Png
  decompressedData : List Nat
  validPngMask : Nat
  chunkLength : Nat
  chunkType : List Nat
  idatBuffer : List Nat
  inflateCalls : List (List Nat)
deriving DecidableEq

/-- Lifts the outcome of a member function to the state of `readPng`. -/
def liftSelf (s : ReadState) : Outcome Png → Outcome ReadState
  | .returned p => .returned { s with self := p }
  | .exited e p => .exited e { s with self := p }
  | .undefinedBehaviour => .undefinedBehaviour
  | .outOfFuel => .outOfFuel

/-- Lines 383-386: the chunk length (read into the memory of `chunkLength`, then
`htonl`) and the chunk type (read into `chunkType`, then `chunkType[4] = 0`). -/
def readChunkHeader (s : ReadState) : ReadState :=
  let r1 := s.self.mPngFile.read (toBytesLE s.chunkLength) 4
  let r2 := r1.2.read s.chunkType 4
  { s with
    self := { s.self with mPngFile := r2.2 }
    chunkLength := htonl (ofBytesLE r1.1)
    chunkType := r2.1.set 4 0 }

/-- Lines 389-397: the end of an IDAT run. `uncompressIDAT` appends the inflated bytes
to `decompressedData`. -/
def flushIdat (inflate : Inflate) (s : ReadState) : Outcome ReadState :=
  if (s.validPngMask &&& IDAT_CHAIN) >>> 3 = 1 ∧ strcmp s.chunkType strIDAT ≠ 0 then
    let s1 : ReadState := { s with
      validPngMask := s.validPngMask &&& 0xF7
      inflateCalls := s.inflateCalls ++ [s.idatBuffer] }
    match inflate s.idatBuffer with
    | none => .exited .DecompressionError s1
    | some out =>
      let s2 : ReadState := { s1 with decompressedData := s1.decompressedData ++ out }
      (liftSelf s2 (handlePngColorType s2.self s2.decompressedData)).andThen fun s3 =>
        .returned { s3 with idatBuffer := [], decompressedData := [] }
  else .returned s

/-- Source `void Png::parseICCP(const uint32_t cChunkLength)` (png.cpp 338-343): the payload is
read into a local buffer and dropped. -/
def parseICCP (self : Png) (cChunkLength : Nat) : Png :=
  { self with mPngFile := (self.mPngFile.read (List.replicate cChunkLength 0) cChunkLength).2 }

/-- Lines 399-440: the chain of tests on the chunk type. -/
def dispatchChunk (s : ReadState) : Outcome ReadState :=
  if s.validPngMask &&& IHDR_MASK = 0 ∧ strcmp s.chunkType strIHDR ≠ 0 then
    .exited .MissingHeader s
  else if s.validPngMask &&& IHDR_MASK = 0 ∧ strcmp s.chunkType strIHDR = 0 then
    let s1 : ReadState := { s with validPngMask := s.validPngMask ||| IHDR_MASK }
    liftSelf s1 (parseIHDR s1.self s1.chunkLength)
  else if strcmp s.chunkType strIDAT = 0 then
    let r := s.self.mPngFile.read (List.replicate s.chunkLength 0) s.chunkLength
    let s1 : ReadState := { s with
      self := { s.self with mPngFile := r.2 }
      idatBuffer := s.idatBuffer ++ r.1 }
    let s2 : ReadState :=
      if s1.validPngMask &&& IDAT_MASK = 0
      then { s1 with validPngMask := s1.validPngMask ||| IDAT_MASK } else s1
    let s3 : ReadState :=
      if s2.validPngMask &&& IDAT_CHAIN = 0
      then { s2 with validPngMask := s2.validPngMask ||| IDAT_CHAIN } else s2
    .returned s3
  else if strcmp s.chunkType striCCP = 0 then
    if s.validPngMask &&& IDAT_MASK ≠ 0 then .exited .ChunkOrderingViolation s
    else .returned { s with self := parseICCP s.self s.chunkLength }
  else
    .returned { s with self := parseICCP s.self s.chunkLength }

/-- Line 442: the four CRC bytes are read into the local `crc` and never looked at. -/
def readCrc (s : ReadState) : ReadState :=
  { s with self := { s.self with mPngFile := (s.self.mPngFile.read [0, 0, 0, 0] 4).2 } }

/-- Lines 388-442: what the loop body does once the chunk header is read. -/
def processChunk (inflate : Inflate) (s : ReadState) : Outcome ReadState :=
  ((flushIdat inflate s).andThen dispatchChunk).andThen fun s' => .returned (readCrc s')

/-- The body of the `while` loop of `readPng` (png.cpp 377-443). -/
def readChunk (inflate : Inflate) (s : ReadState) : Outcome ReadState :=
  processChunk inflate (readChunkHeader s)

/-- The `while` loop of `readPng` (png.cpp 376-443). An iteration starts only on a
good stream and either reads the eight bytes of a chunk header or leaves the stream not
good, so the number of bytes left bounds the number of iterations. -/
def readLoop (inflate : Inflate) : Nat → ReadState → Outcome ReadState
  | 0, _ => .outOfFuel
  | fuel + 1, s =>
    if strcmp s.chunkType strIEND ≠ 0 ∧ s.self.mPngFile.good = true then
      (readChunk inflate s).andThen (readLoop inflate fuel)
    else .returned s

/-- Lines 445-448, after the loop: `IEND_MASK` is set when the last type read is `IEND`. -/
def markIEND (s : ReadState) : Outcome ReadState :=
  if strcmp s.chunkType strIEND = 0
  then .returned { s with validPngMask := s.validPngMask ||| IEND_MASK }
  else .returned s

/-- Source `void Png::readPng()` (png.cpp 350-450). `chunkLength0` is the indeterminate initial
value of the local `chunkLength`. The result keeps the local variables for inspection. -/
def readPng (inflate : Inflate) (chunkLength0 : Nat) (self : Png) : Outcome ReadState :=
  let s0 : ReadState :=
    { self := self, decompressedData := [], validPngMask := 0, chunkLength := chunkLength0,
      chunkType := [0, 0, 0, 0, 0], idatBuffer := [], inflateCalls := [] }
  if self.mPngFile.good = false then .exited .IOError s0
  else
    let r := self.mPngFile.read (List.replicate pngSignature.length 0) 8
    let signature := r.1.set 8 0
    let s1 : ReadState := { s0 with self := { self with mPngFile := r.2 } }
    if strcmp signature pngSignature ≠ 0 then .exited .InvalidSignature s1
    else
      (readLoop inflate (self.mPngFile.bytes.length + 1) s1).andThen markIEND

/-- Source `Png::Png(const std::string &crPngPath)` (png.cpp 457-461) on a file that opened
with content `file`: `mImgData` starts empty, `mIhdr` starts with the indeterminate
value `ihdr0`. -/
def Png.construct (inflate : Inflate) (chunkLength0 : Nat) (ihdr0 : IHDR) (file : List Nat) :
    Outcome ReadState :=
  readPng inflate chunkLength0 { mIhdr := ihdr0, mImgData := [], mPngFile := ⟨file, true⟩ }

/-! ## `Png::reverseImg` (png.cpp 508-540) -/

/-- Source `v[n] = x` for a `size_t` index `n`. -/
def setIdx (v : List Nat) (n x : Nat) : Except Stuck (List Nat) :=
  if n < v.length then .ok (v.set n x) else .error .undefinedBehaviour

/-- The body of the inner loop of `reverseImg` (png.cpp 524-537), for the loop variables `i`
and `j`. `earlyIndex` and `lateIndex` are `uint32_t`: the `size_t` products (64 bits, no
overflow for 32-bit factors) are truncated to 32 bits. The sums `earlyIndex + j + k` are
`size_t` values. The twelve vector accesses follow in the order of the source. -/
def swapUnit (mIhdr : IHDR) (scanlineSize i j : Nat) (mImgData : List Nat) :
    Except Stuck (List Nat) := do
  let earlyIndex := u32 (scanlineSize * (mIhdr.height - i))
  let lateIndex := u32 (scanlineSize * (i - 1))
  let r ← atIdx mImgData (earlyIndex + j)
  let g ← atIdx mImgData (earlyIndex + j + 1)
  let b ← atIdx mImgData (earlyIndex + j + 2)
  let a ← atIdx mImgData (earlyIndex + j + 3)
  let x0 ← atIdx mImgData (lateIndex + j)
  let v0 ← setIdx mImgData (earlyIndex + j) x0
  let x1 ← atIdx v0 (lateIndex + j + 1)
  let v1 ← setIdx v0 (earlyIndex + j + 1) x1
  let x2 ← atIdx v1 (lateIndex + j + 2)
  let v2 ← setIdx v1 (earlyIndex + j + 2) x2
  let x3 ← atIdx v2 (lateIndex + j + 3)
  let v3 ← setIdx v2 (earlyIndex + j + 3) x3
  let v4 ← setIdx v3 (lateIndex + j) r
  let v5 ← setIdx v4 (lateIndex + j + 1) g
  let v6 ← setIdx v5 (lateIndex + j + 2) b
  setIdx v6 (lateIndex + j + 3) a

/-- The inner loop `for (size_t j = 0; j < scanlineSize; j += 4)` of `reverseImg`
(png.cpp 522-538), from `j` on. Every iteration advances `j`, so `scanlineSize` iterations
always suffice. -/
def reverseUnits (mIhdr : IHDR) (scanlineSize i : Nat) :
    Nat → Nat → List Nat → Except Stuck (List Nat)
  | 0, j, mImgData => if j < scanlineSize then .error .outOfFuel else .ok mImgData
  | fuel + 1, j, mImgData =>
    if j < scanlineSize then
      match swapUnit mIhdr scanlineSize i j mImgData with
      | .ok mImgData' => reverseUnits mIhdr scanlineSize i fuel (j + 4) mImgData'
      | .error e => .error e
    else .ok mImgData

/-- The outer loop `for (size_t i = mIhdr.height; i > midPoint; i--)` of `reverseImg`
(png.cpp 520-539), from `i` on. Every iteration decrements `i`, so `mIhdr.height`
iterations always suffice. -/
def reverseRows (mIhdr : IHDR) (scanlineSize midPoint : Nat) :
    Nat → Nat → List Nat → Except Stuck (List Nat)
  | 0, i, mImgData => if midPoint < i then .error .outOfFuel else .ok mImgData
  | fuel + 1, i, mImgData =>
    if midPoint < i then
      match reverseUnits mIhdr scanlineSize i scanlineSize 0 mImgData with
      | .ok mImgData' => reverseRows mIhdr scanlineSize midPoint fuel (i - 1) mImgData'
      | .error e => .error e
    else .ok mImgData

/-- Source `void Png::reverseImg()` (png.cpp 508-540). -/
def reverseImg (self : Png) : Outcome Png :=
  let rgbSize := if self.mIhdr.colorType = RGBTRIP then RGBSIZE else RGBASIZE
  let scanlineSize := u32 (self.mIhdr.width * rgbSize)
  let midPoint := self.mIhdr.height / 2
  match reverseRows self.mIhdr scanlineSize midPoint self.mIhdr.height self.mIhdr.height
      self.mImgData with
  | .ok img => .returned { self with mImgData := img }
  | .error .undefinedBehaviour => .undefinedBehaviour
  | .error .outOfFuel => .outOfFuel

/-! ## The reconstruction rule of the specification (section 4.3) -/

/-- Bytes per pixel: 3 for TrueColor, 4 for TrueColorAlpha. -/
def bytesPerPixel (h : IHDR) : Nat := if h.colorType = 2 then 3 else 4

/-- The filtered byte of output index `j` in a stream of scanlines of `1 + stride` bytes. -/
def filteredByte (stream : List Nat) (stride j : Nat) : Nat :=
  stream.getD (j / stride * (stride + 1) + 1 + j % stride) 0

/-- The filter-type byte of the scanline that output index `j` belongs to. -/
def filterTypeOf (stream : List Nat) (stride j : Nat) : Nat :=
  stream.getD (j / stride * (stride + 1)) 0

/-- The neighbour `left`: the output byte `bpp` positions back, or 0 in the first pixel of a
row. -/
def leftOf (out : List Nat) (bpp stride j : Nat) : Nat :=
  if j % stride < bpp then 0 else out.getD (j - bpp) 0

/-- The neighbour `up`: the output byte one scanline stride back, or 0 in the first row. -/
def upOf (out : List Nat) (stride j : Nat) : Nat :=
  if j < stride then 0 else out.getD (j - stride) 0

/-- The neighbour `upLeft`: the output byte one stride and `bpp` back, or 0 at the left edge
or in the first row. -/
def upLeftOf (out : List Nat) (bpp stride j : Nat) : Nat :=
  if j % stride < bpp ∨ j < stride then 0 else out.getD (j - stride - bpp) 0

/-- The predictor of the filter type `ft` (0 None, 1 Sub, 2 Up, 3 Average, 4 Paeth) for output
index `j`. -/
def predictorOf (ft : Nat) (out : List Nat) (bpp stride j : Nat) : Nat :=
  if ft = 0 then 0
  else if ft = 1 then leftOf out bpp stride j
  else if ft = 2 then upOf out stride j
  else if ft = 3 then (leftOf out bpp stride j + upOf out stride j) / 2
  else calcPaethByte (leftOf out bpp stride j) (upOf out stride j) (upLeftOf out bpp stride j)

/-- Output byte `j` obeys the reconstruction rule: it is `(filteredByte + predictor) mod 256`. -/
def ReconstructedAt (stream out : List Nat) (bpp stride j : Nat) : Prop :=
  out.getD j 0 =
    (filteredByte stream stride j + predictorOf (filterTypeOf stream stride j) out bpp stride j)
      % 256

/-- The facts that hold when the loop of `rgbBitDepth8` is about to reconstruct the pixel at
output index `cur`, which lies `cb` bytes into its scanline: the buffer holds `cur` bytes, the
pixel fits into the scanline, it is in the first row or at least one stride in, and nothing
reaches `2^31`. -/
structure AtPixel (img : List Nat) (bpp S cur cb : Nat) : Prop where
  hlen : img.length = cur
  hcur : cur + bpp < 2147483648
  hS : S < 2147483648
  hbpp3 : 3 ≤ bpp
  hbpp4 : bpp ≤ 4
  hcbS : cb + bpp ≤ S
  hedge : cb = 0 ∨ bpp ≤ cb
  hmod : cur % S = cb
  hrow : cur = cb ∨ cb + S ≤ cur
  hbytes : ∀ x ∈ img, x < 256

/-- Every byte of the buffer obeys the reconstruction rule. -/
def Reconstructed (stream out : List Nat) (bpp stride : Nat) : Prop :=
  ∀ j, j < out.length → ReconstructedAt stream out bpp stride j

/-- The stream with the leading filter-type byte of every scanline removed. -/
def stripFilterBytes (stride : Nat) : Nat → List Nat → List Nat
  | 0, _ => []
  | rows + 1, stream => (stream.drop 1).take stride ++
      stripFilterBytes stride rows (stream.drop (stride + 1))

/-! ## The wire format (specification section 6), used to state the theorems -/

/-- The first 8 bytes of a PNG file: `89 50 4E 47 0D 0A 1A 0A`. -/
def pngMagic : List Nat := [0x89, 0x50, 0x4E, 0x47, 0x0D, 0x0A, 0x1A, 0x0A]

/-- A 32-bit number in big-endian wire order. -/
def be32 (n : Nat) : List Nat :=
  [n / 16777216 % 256, n / 65536 % 256, n / 256 % 256, n % 256]

/-- The type tag `IHDR`. -/
def tagIHDR : List Nat := [73, 72, 68, 82]
/-- The type tag `IDAT`. -/
def tagIDAT : List Nat := [73, 68, 65, 84]
/-- The type tag `IEND`. -/
def tagIEND : List Nat := [73, 69, 78, 68]
/-- The type tag `iCCP`. -/
def tagiCCP : List Nat := [105, 67, 67, 80]

/-- A chunk on the wire: length (big-endian), type tag, payload, 4-byte trailer. -/
def chunk (tag payload crc : List Nat) : List Nat :=
  be32 payload.length ++ tag ++ payload ++ crc

/-- The 13-byte `IHDR` payload of a header. -/
def ihdrPayload (h : IHDR) : List Nat :=
  be32 h.width ++ be32 h.height ++
    [h.bitDepth, h.colorType, h.compressionMethod, h.filterMethod, h.interfaceMethod]

/-- A run of `IDAT` chunks, given as (payload, trailer) pairs. -/
def idatChunks : List (List Nat × List Nat) → List Nat
  | [] => []
  | (payload, crc) :: ps => chunk tagIDAT payload crc ++ idatChunks ps

/-- The payloads of a run of `IDAT` chunks, concatenated in file order. -/
def idatPayload : List (List Nat × List Nat) → List Nat
  | [] => []
  | (payload, _) :: ps => payload ++ idatPayload ps

/-- The state of `readPng` right after it has read the header (length `lenX`, type `tagX`) of
the chunk that follows `IHDR` (header `h`) and a run `ps` of `IDAT` chunks, with `rest` still
unread: both IDAT flags are set, the IDAT buffer holds the payloads of the run, and the adapter
has not been called. -/
def stateAtRunEnd (h : IHDR) (ps : List (List Nat × List Nat)) (lenX : Nat)
    (tagX rest : List Nat) : ReadState :=
  { self := { mIhdr := h, mImgData := [], mPngFile := ⟨rest, true⟩ }
    decompressedData := []
    validPngMask := 11
    chunkLength := lenX
    chunkType := tagX ++ [0]
    idatBuffer := idatPayload ps
    inflateCalls := [] }

/-- A 1x1 grayscale file with the chunk sequence `IHDR`, `IDAT`, `iCCP`, `IEND`; the `IDAT`
payload is the zlib stream of the scanline `[0, 0]`, the trailers are the CRC-32 values. -/
def grayIccpFile : List Nat :=
  pngMagic ++ chunk tagIHDR (ihdrPayload ⟨1, 1, 8, 0, 0, 0, 0⟩) [58, 126, 155, 85] ++
    chunk tagIDAT [120, 156, 99, 96, 0, 0, 0, 2, 0, 1] [72, 175, 164, 113] ++
    chunk tagiCCP [] [165, 137, 25, 62] ++ chunk tagIEND [] [174, 66, 96, 130]

/-- What zlib delivers for the `IDAT` payload of `grayIccpFile`. -/
def grayInflate : Inflate :=
  fun b => if b = [120, 156, 99, 96, 0, 0, 0, 2, 0, 1] then some [0, 0] else none

/-- What zlib delivers for the stream `78 9C 63 E0 12 91 03 00 00 68 00 3D`: the scanline
`[0, 10, 20, 30]` of a 1x1 TrueColor image. -/
def rgbInflate : Inflate :=
  fun b => if b = [120, 156, 99, 224, 18, 145, 3, 0, 0, 104, 0, 61] then some [0, 10, 20, 30]
    else none

/-- Member `k` of a `struct RGB`: 0 Red, 1 Green, 2 Blue, otherwise Alpha. -/
def RGB.channel (p : RGB) (k : Nat) : Nat :=
  if k = 0 then p.Red else if k = 1 then p.Green else if k = 2 then p.Blue else p.Alpha

/-- Every element is a byte. -/
def Bytes (l : List Nat) : Prop := ∀ b ∈ l, b < 256

instance (l : List Nat) : Decidable (Bytes l) := by
  unfold Bytes
  infer_instance

/-- Byte `x` of the buffer `img` after the first `n` bytes of the rows that start at `e` and at
`l` have changed places. -/
def exchanged (img : List Nat) (e l n x : Nat) : Nat :=
  if e ≤ x ∧ x < e + n then img.getD (x - e + l) 0
  else if l ≤ x ∧ x < l + n then img.getD (x - l + e) 0
  else img.getD x 0


/-- A 2x1 TrueColor file with the chunk sequence `IHDR`, `IDAT`, `tEXt`, `IDAT`, `IEND`: two
IDAT runs. The payloads are the zlib streams of `[0,1,2,3,4,5,6]` and of
`[1,10,20,30,40,50,60]`, the trailers are the CRC-32 values. -/
def twoRunFile : List Nat :=
  pngMagic ++ chunk tagIHDR (ihdrPayload ⟨2, 1, 8, 2, 0, 0, 0⟩) [123, 64, 232, 221] ++
    chunk tagIDAT [120, 156, 99, 96, 100, 98, 102, 97, 101, 3, 0, 0, 63, 0, 22]
      [33, 186, 212, 84] ++
    chunk [116, 69, 88, 116] [97, 0, 98] [220, 73, 162, 59] ++
    chunk tagIDAT [120, 156, 99, 228, 18, 145, 211, 48, 178, 1, 0, 2, 62, 0, 212]
      [201, 229, 196, 139] ++
    chunk tagIEND [] [174, 66, 96, 130]

/-- What zlib delivers for the two `IDAT` payloads of `twoRunFile`. -/
def twoRunInflate : Inflate :=
  fun b =>
    if b = [120, 156, 99, 96, 100, 98, 102, 97, 101, 3, 0, 0, 63, 0, 22]
    then some [0, 1, 2, 3, 4, 5, 6]
    else if b = [120, 156, 99, 228, 18, 145, 211, 48, 178, 1, 0, 2, 62, 0, 212]
    then some [1, 10, 20, 30, 40, 50, 60]
    else none

/-- A 1x1 TrueColor file whose `IHDR` declares interlace method 1 (Adam7), with the chunk
sequence `IHDR`, `IDAT`, `IEND`; the `IDAT` payload is the zlib stream of `[0,10,20,30]`. -/
def interlacedFile : List Nat :=
  pngMagic ++ chunk tagIHDR (ihdrPayload ⟨1, 1, 8, 2, 0, 0, 1⟩) [231, 112, 99, 72] ++
    chunk tagIDAT [120, 156, 99, 224, 18, 145, 3, 0, 0, 104, 0, 61] [84, 8, 163, 247] ++
    chunk tagIEND [] [174, 66, 96, 130]

/-- A 1x1 TrueColor file without any `IDAT` chunk: `IHDR`, `IEND`. -/
def noIdatFile : List Nat :=
  pngMagic ++ chunk tagIHDR (ihdrPayload ⟨1, 1, 8, 2, 0, 0, 0⟩) [144, 119, 83, 222] ++
    chunk tagIEND [] [174, 66, 96, 130]


/-- What holds of the state of `readPng` at the top of every loop iteration: before `IHDR` is
seen no flag is set and the adapter has not been called; as long as the adapter has not been
called the pixel buffer is empty; when it was called exactly once, on `c`, the pixel buffer is
what `rgbBitDepth8` made of the inflated `c` from an empty buffer, for a supported colour type;
`decompressedData` is empty; once `IHDR` is seen, width and height are not 0. -/
structure LoopInv (inflate : Inflate) (s : ReadState) : Prop where
  noHeader : s.validPngMask &&& IHDR_MASK = 0 → s.validPngMask = 0 ∧ s.inflateCalls = []
  noRun : s.inflateCalls = [] → s.self.mImgData = []
  oneRun : ∀ c, s.inflateCalls = [c] → ∃ d, inflate c = some d ∧
    (s.self.mIhdr.colorType = 2 ∨ s.self.mIhdr.colorType = 6) ∧
    rgbBitDepth8 s.self.mIhdr [] d = .ok s.self.mImgData
  clean : s.decompressedData = []
  dims : s.validPngMask &&& IHDR_MASK ≠ 0 → s.self.mIhdr.width ≠ 0 ∧ s.self.mIhdr.height ≠ 0

/-- A 1x1 TrueColor file with the chunk sequence `IHDR`, `IDAT`, `IEND`; the `IDAT` payload is
the zlib stream of `[0,10,20,30]`. -/
def rgbFile : List Nat :=
  pngMagic ++ chunk tagIHDR (ihdrPayload ⟨1, 1, 8, 2, 0, 0, 0⟩) [144, 119, 83, 222] ++
    chunk tagIDAT [120, 156, 99, 224, 18, 145, 3, 0, 0, 104, 0, 61] [84, 8, 163, 247] ++
    chunk tagIEND [] [174, 66, 96, 130]

/-- A 2x2 TrueColor file with the chunk sequence `IHDR`, `IDAT`, `IEND` whose `IDAT` payload is
the zlib stream of `[0,10,20,30]`: one pixel instead of two scanlines. -/
def shortStreamFile : List Nat :=
  pngMagic ++ chunk tagIHDR (ihdrPayload ⟨2, 2, 8, 2, 0, 0, 0⟩) [253, 212, 154, 115] ++
    chunk tagIDAT [120, 156, 99, 224, 18, 145, 3, 0, 0, 104, 0, 61] [84, 8, 163, 247] ++
    chunk tagIEND [] [174, 66, 96, 130]


/-- The object with the interlace method of its header replaced by `x`. -/
def Png.setInterlace (x : Nat) (p : Png) : Png :=
  { p with mIhdr := { p.mIhdr with interfaceMethod := x } }

/-- The state of `readPng` with the interlace method of the header replaced by `x`. -/
def ReadState.setInterlace (x : Nat) (s : ReadState) : ReadState :=
  { s with self := s.self.setInterlace x }

/-- The outcome with `f` applied to the state it ended in. -/
def Outcome.map {σ τ : Type} (f : σ → τ) : Outcome σ → Outcome τ
  | .returned s => .returned (f s)
  | .exited e s => .exited e (f s)
  | .undefinedBehaviour => .undefinedBehaviour
  | .outOfFuel => .outOfFuel


/-- The predictor that `filterPix` still holds for channel `k` when the loop enters scanline
`r`: 0 before the first scanline; after a scanline with a filter type in 0..4 the predictor of
channel `k` of its last pixel; after a scanline with any other filter-type byte what was left
over before that scanline. -/
def leftoverOf (stream out : List Nat) (bpp stride : Nat) : Nat → Nat → Nat
  | 0, _ => 0
  | r + 1, k =>
    if stream.getD (r * (stride + 1)) 0 ≤ 4 then
      predictorOf (stream.getD (r * (stride + 1)) 0) out bpp stride ((r + 1) * stride - bpp + k)
    else leftoverOf stream out bpp stride r k

/-- Output byte `j` obeys the reconstruction rule extended to arbitrary filter-type bytes: in
a scanline with a filter type in 0..4 it is `(filteredByte + predictor) mod 256`, in any other
scanline `(filteredByte + leftover) mod 256` for the channel of `j`. -/
def ReconstructedAnyAt (stream out : List Nat) (bpp stride j : Nat) : Prop :=
  out.getD j 0 =
    (filteredByte stream stride j +
      (if filterTypeOf stream stride j ≤ 4
        then predictorOf (filterTypeOf stream stride j) out bpp stride j
        else leftoverOf stream out bpp stride (j / stride) (j % stride % bpp))) % 256


/-- A TrueColor file whose `IHDR` declares width 0 and height 1, with the chunk sequence
`IHDR`, `IDAT`, `IEND`; the `IDAT` payload is the zlib stream of `[0,10,20,30]`, the trailers
are the CRC-32 values. -/
def zeroWidthFile : List Nat :=
  pngMagic ++ chunk tagIHDR (ihdrPayload ⟨0, 1, 8, 2, 0, 0, 0⟩) [127, 181, 56, 224] ++
    chunk tagIDAT [120, 156, 99, 224, 18, 145, 3, 0, 0, 104, 0, 61] [84, 8, 163, 247] ++
    chunk tagIEND [] [174, 66, 96, 130]


example : rgbBitDepth8 ⟨2, 2, 8, 2, 0, 0, 0⟩ [] [0,10,20,30,40,50,60,0,70,80,90,100,110,120]
    = .ok [10,20,30,40,50,60,70,80,90,100,110,120] := by decide

theorem wrapInt32_of_small (x : Int) (h1 : -2147483648 ≤ x) (h2 : x < 2147483648) :
    wrapInt32 x = x := by
  unfold wrapInt32
  omega

theorem calcPaethByte_eq_reference (a b c : Nat) (ha : a < 256) (hb : b < 256)
    (hc : c < 256) : calcPaethByte a b c = paethReference a b c := by
  simp only [calcPaethByte, paethReference]
  have e1 : wrapInt32 ((a : Int) + (b : Int)) = (a : Int) + (b : Int) :=
    wrapInt32_of_small _ (by omega) (by omega)
  rw [e1]
  have e2 : wrapInt32 ((a : Int) + (b : Int) - (c : Int)) = (a : Int) + (b : Int) - (c : Int) :=
    wrapInt32_of_small _ (by omega) (by omega)
  rw [e2]
  have e3 : wrapInt32 ((a : Int) + (b : Int) - (c : Int) - (a : Int))
      = (a : Int) + (b : Int) - (c : Int) - (a : Int) :=
    wrapInt32_of_small _ (by omega) (by omega)
  have e4 : wrapInt32 ((a : Int) + (b : Int) - (c : Int) - (b : Int))
      = (a : Int) + (b : Int) - (c : Int) - (b : Int) :=
    wrapInt32_of_small _ (by omega) (by omega)
  have e5 : wrapInt32 ((a : Int) + (b : Int) - (c : Int) - (c : Int))
      = (a : Int) + (b : Int) - (c : Int) - (c : Int) :=
    wrapInt32_of_small _ (by omega) (by omega)
  rw [e3, e4, e5]
  have e6 : wrapInt32 (((a : Int) + (b : Int) - (c : Int) - (a : Int)).natAbs : Int)
      = (((a : Int) + (b : Int) - (c : Int) - (a : Int)).natAbs : Int) :=
    wrapInt32_of_small _ (by omega) (by omega)
  have e7 : wrapInt32 (((a : Int) + (b : Int) - (c : Int) - (b : Int)).natAbs : Int)
      = (((a : Int) + (b : Int) - (c : Int) - (b : Int)).natAbs : Int) :=
    wrapInt32_of_small _ (by omega) (by omega)
  have e8 : wrapInt32 (((a : Int) + (b : Int) - (c : Int) - (c : Int)).natAbs : Int)
      = (((a : Int) + (b : Int) - (c : Int) - (c : Int)).natAbs : Int) :=
    wrapInt32_of_small _ (by omega) (by omega)
  rw [e6, e7, e8]
  simp only [Nat.cast_le]

/-! ### `strcmp`, the signature and the kinds of exit -/

theorem strcmp_cons (a b : Nat) (as bs : List Nat) :
    strcmp (a :: as) (b :: bs) =
      if a = b then (if a = 0 then 0 else strcmp as bs) else (a : Int) - (b : Int) := by
  simp [strcmp]

/-- Against a string `u` without NUL, a string of the same length compares equal exactly when
it is `u`. -/
theorem strcmp_same_length (u : List Nat) (hu : ∀ x ∈ u, x ≠ 0) :
    ∀ (t tl ul : List Nat), t.length = u.length →
      (strcmp (t ++ 0 :: tl) (u ++ 0 :: ul) = 0 ↔ t = u) := by
  induction u with
  | nil =>
    intro t tl ul ht
    have : t = [] := List.length_eq_zero.mp ht
    subst this
    simp [strcmp_cons]
  | cons x u ih =>
    intro t tl ul ht
    cases t with
    | nil => simp at ht
    | cons a t =>
      have hx : x ≠ 0 := hu x (by simp)
      have hu' : ∀ y ∈ u, y ≠ 0 := fun y hy => hu y (by simp [hy])
      have ht' : t.length = u.length := by simpa using ht
      simp only [List.cons_append, strcmp_cons]
      by_cases e : a = x
      · subst e
        simp [hx, ih hu' t tl ul ht']
      · simp only [e, if_false, List.cons.injEq, false_and, iff_false]
        omega

/-- Against a string `u` without NUL, a shorter string never compares equal. -/
theorem strcmp_shorter (t : List Nat) :
    ∀ (u tl ul : List Nat), (∀ x ∈ u, x ≠ 0) → t.length < u.length →
      strcmp (t ++ 0 :: tl) (u ++ 0 :: ul) ≠ 0 := by
  induction t with
  | nil =>
    intro u tl ul hu ht
    cases u with
    | nil => simp at ht
    | cons x u =>
      have hx : x ≠ 0 := hu x (by simp)
      simp only [List.nil_append, List.cons_append, strcmp_cons]
      rw [if_neg (fun h => hx h.symm)]
      omega
  | cons a t ih =>
    intro u tl ul hu ht
    cases u with
    | nil => simp at ht
    | cons x u =>
      have hx : x ≠ 0 := hu x (by simp)
      have hu' : ∀ y ∈ u, y ≠ 0 := fun y hy => hu y (by simp [hy])
      have ht' : t.length < u.length := by simpa using ht
      simp only [List.cons_append, strcmp_cons]
      by_cases e : a = x
      · subst e
        simp only [if_true, hx, if_false]
        exact ih u tl ul hu' ht'
      · simp only [e, if_false]
        omega

theorem set_replicate_self (n i a : Nat) :
    (List.replicate n a).set i a = List.replicate n a := by
  induction n generalizing i with
  | zero => simp
  | succ n ih =>
    cases i with
    | zero => simp [List.replicate_succ]
    | succ i => simp [List.replicate_succ, ih]

theorem pngSignature_eq : pngSignature = pngMagic ++ 0 :: [] := rfl

theorem pngMagic_ne_zero : ∀ x ∈ pngMagic, x ≠ 0 := by decide

/-- The buffer `signature` after the `read` of 8 bytes and `signature[8] = 0`. -/
theorem signature_buffer (file : List Nat) :
    ((IStream.read ⟨file, true⟩ (List.replicate pngSignature.length 0) 8).1).set 8 0
      = file.take 8 ++ 0 :: List.replicate (8 - file.length) 0 := by
  by_cases h : 8 ≤ file.length
  · have h8 : 8 - file.length = 0 := by omega
    have hl : (List.take 8 file).length = 8 := by simp [h]
    simp only [IStream.read, h, if_true, h8, List.replicate_zero]
    rw [List.set_append_right _ _ (by omega)]
    simp [hl, pngSignature]
  · have hlt : file.length < 8 := by omega
    simp only [IStream.read, h, if_true, if_false]
    rw [List.take_of_length_le (by omega)]
    rw [List.set_append_right _ _ (by omega)]
    congr 1
    simp only [pngSignature, List.length_cons, List.length_nil, List.drop_replicate]
    rw [set_replicate_self]
    have : 0 + 1 + 1 + 1 + 1 + 1 + 1 + 1 + 1 + 1 - file.length = (8 - file.length) + 1 := by omega
    rw [this, List.replicate_succ]

theorem signature_check (file : List Nat) :
    strcmp (((IStream.read ⟨file, true⟩ (List.replicate pngSignature.length 0) 8).1).set 8 0)
      pngSignature = 0 ↔ file.take 8 = pngMagic := by
  rw [signature_buffer, pngSignature_eq]
  by_cases h : 8 ≤ file.length
  · exact strcmp_same_length pngMagic pngMagic_ne_zero _ _ _ (by simp [h, pngMagic])
  · have hne := strcmp_shorter (file.take 8) pngMagic (List.replicate (8 - file.length) 0) []
      pngMagic_ne_zero (by simp [pngMagic]; omega)
    constructor
    · intro h0
      exact absurd h0 hne
    · intro h0
      have := congrArg List.length h0
      simp [pngMagic] at this
      omega

theorem handlePngColorType_exit (self : Png) (d : List Nat) (e : Fatal) (p : Png)
    (h : handlePngColorType self d = .exited e p) : e = .UnsupportedFormat ∧ p = self := by
  unfold handlePngColorType at h
  split_ifs at h
  · split at h <;> simp at h
  · simp at h
    exact ⟨h.1.symm, h.2.symm⟩
  · simp at h
    exact ⟨h.1.symm, h.2.symm⟩

theorem parseIHDR_exit (self : Png) (n : Nat) (e : Fatal) (p : Png)
    (h : parseIHDR self n = .exited e p) : e = .InvalidDimensions := by
  unfold parseIHDR at h
  split at h
  · simp at h
  · dsimp only at h
    split at h
    · simp at h
      exact h.1.symm
    · simp at h

theorem flushIdat_exit (inflate : Inflate) (s s' : ReadState) (e : Fatal)
    (h : flushIdat inflate s = .exited e s') :
    e = .DecompressionError ∨ e = .UnsupportedFormat := by
  unfold flushIdat at h
  split_ifs at h
  · split at h
    · simp at h
      exact Or.inl h.1.symm
    · cases hh : handlePngColorType s.self (s.decompressedData ++ ‹List Nat›) with
      | returned p => simp [hh, liftSelf, Outcome.andThen] at h
      | exited e' p =>
        simp [hh, liftSelf, Outcome.andThen] at h
        have := (handlePngColorType_exit _ _ _ _ hh).1
        exact Or.inr (h.1 ▸ this)
      | undefinedBehaviour => simp [hh, liftSelf, Outcome.andThen] at h
      | outOfFuel => simp [hh, liftSelf, Outcome.andThen] at h

theorem dispatchChunk_exit (s s' : ReadState) (e : Fatal)
    (h : dispatchChunk s = .exited e s') :
    e = .MissingHeader ∨ e = .InvalidDimensions ∨ e = .ChunkOrderingViolation := by
  unfold dispatchChunk at h
  split_ifs at h
  · simp at h; exact Or.inl h.1.symm
  · cases hh : parseIHDR s.self s.chunkLength with
    | returned p => simp [hh, liftSelf] at h
    | exited e' p =>
      simp [hh, liftSelf] at h
      exact Or.inr (Or.inl (h.1 ▸ parseIHDR_exit _ _ _ _ hh))
    | undefinedBehaviour => simp [hh, liftSelf] at h
    | outOfFuel => simp [hh, liftSelf] at h
  · simp at h; exact Or.inr (Or.inr h.1.symm)

theorem readChunk_exit (inflate : Inflate) (s s' : ReadState) (e : Fatal)
    (h : readChunk inflate s = .exited e s') :
    e ≠ .InvalidSignature ∧ e ≠ .IOError := by
  unfold readChunk processChunk at h
  cases h1 : flushIdat inflate (readChunkHeader s) with
  | returned s1 =>
    cases h2 : dispatchChunk s1 with
    | returned s2 => simp [h1, h2, Outcome.andThen] at h
    | exited e2 s2 =>
      simp [h1, h2, Outcome.andThen] at h
      rcases dispatchChunk_exit _ _ _ h2 with h3 | h3 | h3 <;> rw [← h.1, h3] <;> simp
    | undefinedBehaviour => simp [h1, h2, Outcome.andThen] at h
    | outOfFuel => simp [h1, h2, Outcome.andThen] at h
  | exited e1 s1 =>
    simp [h1, Outcome.andThen] at h
    rcases flushIdat_exit _ _ _ _ h1 with h3 | h3 <;> rw [← h.1, h3] <;> simp
  | undefinedBehaviour => simp [h1, Outcome.andThen] at h
  | outOfFuel => simp [h1, Outcome.andThen] at h

theorem readLoop_exit (inflate : Inflate) (fuel : Nat) :
    ∀ (s s' : ReadState) (e : Fatal), readLoop inflate fuel s = .exited e s' →
      e ≠ .InvalidSignature ∧ e ≠ .IOError := by
  induction fuel with
  | zero => intro s s' e h; simp [readLoop] at h
  | succ fuel ih =>
    intro s s' e h
    unfold readLoop at h
    split_ifs at h
    · cases h1 : readChunk inflate s with
      | returned s1 =>
        simp only [h1, Outcome.andThen] at h
        exact ih _ _ _ h
      | exited e1 s1 =>
        simp only [h1, Outcome.andThen] at h
        simp at h
        exact h.1 ▸ readChunk_exit _ _ _ _ h1
      | undefinedBehaviour => simp [h1, Outcome.andThen] at h
      | outOfFuel => simp [h1, Outcome.andThen] at h

/-! ### Chunk headers -/

theorem htonl_ofBytesLE (b0 b1 b2 b3 : Nat) (h0 : b0 < 256) (h1 : b1 < 256) (h2 : b2 < 256)
    (h3 : b3 < 256) :
    htonl (ofBytesLE [b0, b1, b2, b3]) = b0 * 16777216 + b1 * 65536 + b2 * 256 + b3 := by
  simp only [htonl, ofBytesLE, toBytesLE, List.reverse_cons, List.reverse_nil, List.nil_append,
    List.cons_append, List.getD_cons_zero, List.getD_cons_succ]
  omega

theorem htonl_be32 (n : Nat) (h : n < 4294967296) : htonl (ofBytesLE (be32 n)) = n := by
  unfold be32
  rw [htonl_ofBytesLE _ _ _ _ (Nat.mod_lt _ (by decide)) (Nat.mod_lt _ (by decide))
    (Nat.mod_lt _ (by decide)) (Nat.mod_lt _ (by decide))]
  omega

theorem be32_length (n : Nat) : (be32 n).length = 4 := rfl

/-- The chunk header is read whole when the stream holds it. -/
theorem readChunkHeader_full (s : ReadState) (n : Nat) (tag rest : List Nat)
    (hn : n < 4294967296) (htag : tag.length = 4) (hty : s.chunkType.length = 5)
    (hf : s.self.mPngFile = ⟨be32 n ++ tag ++ rest, true⟩) :
    readChunkHeader s = { s with
      self := { s.self with mPngFile := ⟨rest, true⟩ }
      chunkLength := n
      chunkType := tag ++ [0] } := by
  obtain ⟨t0, t1, t2, t3, rfl⟩ : ∃ t0 t1 t2 t3, tag = [t0, t1, t2, t3] := by
    match tag, htag with
    | [t0, t1, t2, t3], _ => exact ⟨t0, t1, t2, t3, rfl⟩
  obtain ⟨c0, c1, c2, c3, c4, hc⟩ : ∃ c0 c1 c2 c3 c4, s.chunkType = [c0, c1, c2, c3, c4] := by
    match s.chunkType, hty with
    | [c0, c1, c2, c3, c4], _ => exact ⟨c0, c1, c2, c3, c4, rfl⟩
  have e := htonl_be32 n hn
  simp only [be32] at e
  simp only [readChunkHeader, hf, IStream.read, hc, be32, toBytesLE]
  simp [e]

/-- The type buffer after the first chunk header was read from a stream holding `rest`:
the bytes 4..8 of `rest` as far as they exist, then NUL. -/
theorem readChunkHeader_first_type (s : ReadState) (rest : List Nat)
    (hty : s.chunkType = [0, 0, 0, 0, 0]) (hf : s.self.mPngFile = ⟨rest, true⟩) :
    (readChunkHeader s).chunkType = (rest.drop 4).take 4 ++
      0 :: List.replicate (4 - ((rest.drop 4).take 4).length) 0 := by
  simp only [readChunkHeader, hf, hty, IStream.read, toBytesLE]
  rcases rest with _ | ⟨r0, _ | ⟨r1, _ | ⟨r2, _ | ⟨r3, _ | ⟨r4, _ | ⟨r5, _ | ⟨r6, _ | ⟨r7, rest⟩⟩⟩⟩⟩⟩⟩⟩ <;>
    simp

theorem tagIHDR_ne_zero : ∀ x ∈ tagIHDR, x ≠ 0 := by decide

theorem strIHDR_eq : strIHDR = tagIHDR ++ 0 :: [0] := rfl

/-- In the first iteration a type tag other than `IHDR` ends the decode. -/
theorem readChunk_missing_header (inflate : Inflate) (s : ReadState) (rest : List Nat)
    (hty : s.chunkType = [0, 0, 0, 0, 0]) (hf : s.self.mPngFile = ⟨rest, true⟩)
    (hmask : s.validPngMask = 0) (htag : (rest.drop 4).take 4 ≠ tagIHDR) :
    readChunk inflate s = .exited .MissingHeader (readChunkHeader s) := by
  have hm : (readChunkHeader s).validPngMask = 0 := by simp [readChunkHeader, hmask]
  have hct := readChunkHeader_first_type s rest hty hf
  have hne : strcmp (readChunkHeader s).chunkType strIHDR ≠ 0 := by
    rw [hct, strIHDR_eq]
    by_cases hl : ((rest.drop 4).take 4).length = 4
    · intro h0
      exact htag ((strcmp_same_length tagIHDR tagIHDR_ne_zero _ _ _ (by simp [hl, tagIHDR])).1 h0)
    · have hle : ((rest.drop 4).take 4).length ≤ 4 := by simp
      exact strcmp_shorter _ tagIHDR _ _ tagIHDR_ne_zero (by simp only [tagIHDR, List.length_cons, List.length_nil]; omega)
  have hflush : flushIdat inflate (readChunkHeader s) = .returned (readChunkHeader s) := by
    unfold flushIdat
    rw [if_neg]
    rw [hm]
    intro h
    exact absurd h.1 (by decide)
  have hdisp : dispatchChunk (readChunkHeader s) = .exited .MissingHeader (readChunkHeader s) := by
    unfold dispatchChunk
    rw [if_pos]
    rw [hm]
    exact ⟨by decide, hne⟩
  simp [readChunk, processChunk, hflush, hdisp, Outcome.andThen]


/-- The effect of `parseIHDR` on a 13-byte payload. -/
theorem parseIHDR_payload13 (self : Png) (b0 b1 b2 b3 b4 b5 b6 b7 b8 b9 b10 b11 b12 : Nat)
    (rest : List Nat)
    (h0 : b0 < 256) (h1 : b1 < 256) (h2 : b2 < 256) (h3 : b3 < 256)
    (h4 : b4 < 256) (h5 : b5 < 256) (h6 : b6 < 256) (h7 : b7 < 256)
    (hf : self.mPngFile =
      ⟨[b0, b1, b2, b3, b4, b5, b6, b7, b8, b9, b10, b11, b12] ++ rest, true⟩) :
    parseIHDR self 13 =
      (if b0 * 16777216 + b1 * 65536 + b2 * 256 + b3 = 0 ∨
          b4 * 16777216 + b5 * 65536 + b6 * 256 + b7 = 0
       then Outcome.exited Fatal.InvalidDimensions
         { mIhdr := ⟨b0 * 16777216 + b1 * 65536 + b2 * 256 + b3,
                     b4 * 16777216 + b5 * 65536 + b6 * 256 + b7, b8, b9, b10, b11, b12⟩,
           mImgData := self.mImgData, mPngFile := ⟨rest, true⟩ }
       else Outcome.returned
         { mIhdr := ⟨b0 * 16777216 + b1 * 65536 + b2 * 256 + b3,
                     b4 * 16777216 + b5 * 65536 + b6 * 256 + b7, b8, b9, b10, b11, b12⟩,
           mImgData := self.mImgData, mPngFile := ⟨rest, true⟩ }) := by
  have e1 := htonl_ofBytesLE b0 b1 b2 b3 h0 h1 h2 h3
  have e2 := htonl_ofBytesLE b4 b5 b6 b7 h4 h5 h6 h7
  simp only [parseIHDR, hf, IStream.read, IHDR.toBytes, IHDR.ofBytes]
  simp [toBytesLE, e1, e2]

/-! ### Whole chunks -/

theorem IStream.read_exact (a rest dest : List Nat) :
    IStream.read ⟨a ++ rest, true⟩ dest a.length = (a ++ dest.drop a.length, ⟨rest, true⟩) := by
  simp [IStream.read]

theorem parseIHDR_ihdrPayload (self : Png) (h : IHDR) (rest : List Nat)
    (hw : h.width < 4294967296) (hh : h.height < 4294967296)
    (hf : self.mPngFile = ⟨ihdrPayload h ++ rest, true⟩) :
    parseIHDR self 13 =
      (if h.width = 0 ∨ h.height = 0
       then Outcome.exited Fatal.InvalidDimensions
         { mIhdr := h, mImgData := self.mImgData, mPngFile := ⟨rest, true⟩ }
       else Outcome.returned
         { mIhdr := h, mImgData := self.mImgData, mPngFile := ⟨rest, true⟩ }) := by
  have key := parseIHDR_payload13 self (h.width / 16777216 % 256) (h.width / 65536 % 256)
    (h.width / 256 % 256) (h.width % 256) (h.height / 16777216 % 256) (h.height / 65536 % 256)
    (h.height / 256 % 256) (h.height % 256) h.bitDepth h.colorType h.compressionMethod
    h.filterMethod h.interfaceMethod rest
    (Nat.mod_lt _ (by decide)) (Nat.mod_lt _ (by decide)) (Nat.mod_lt _ (by decide))
    (Nat.mod_lt _ (by decide)) (Nat.mod_lt _ (by decide)) (Nat.mod_lt _ (by decide))
    (Nat.mod_lt _ (by decide)) (Nat.mod_lt _ (by decide))
    (by rw [hf]; simp [ihdrPayload, be32])
  have ew : h.width / 16777216 % 256 * 16777216 + h.width / 65536 % 256 * 65536 +
      h.width / 256 % 256 * 256 + h.width % 256 = h.width := by omega
  have eh : h.height / 16777216 % 256 * 16777216 + h.height / 65536 % 256 * 65536 +
      h.height / 256 % 256 * 256 + h.height % 256 = h.height := by omega
  rw [ew, eh] at key
  exact key

theorem readCrc_exact (s : ReadState) (crc rest : List Nat) (hcrc : crc.length = 4)
    (hf : s.self.mPngFile = ⟨crc ++ rest, true⟩) :
    readCrc s = { s with self := { s.self with mPngFile := ⟨rest, true⟩ } } := by
  have := IStream.read_exact crc rest [0, 0, 0, 0]
  rw [hcrc] at this
  simp [readCrc, hf, this]

theorem ihdrPayload_length (h : IHDR) : (ihdrPayload h).length = 13 := rfl

theorem strcmp_IHDR_self : strcmp (tagIHDR ++ [0]) strIHDR = 0 := by decide
theorem strcmp_IDAT_self : strcmp (tagIDAT ++ [0]) strIDAT = 0 := by decide
theorem strcmp_IDAT_IEND : strcmp (tagIDAT ++ [0]) strIEND ≠ 0 := by decide
theorem strcmp_IHDR_IEND : strcmp (tagIHDR ++ [0]) strIEND ≠ 0 := by decide
theorem strcmp_IDAT_IHDR : strcmp (tagIDAT ++ [0]) strIHDR ≠ 0 := by decide

theorem flushIdat_not_in_run (inflate : Inflate) (t : ReadState)
    (h : ¬ ((t.validPngMask &&& IDAT_CHAIN) >>> 3 = 1 ∧ strcmp t.chunkType strIDAT ≠ 0)) :
    flushIdat inflate t = .returned t := by
  unfold flushIdat
  rw [if_neg h]

/-- The loop body after the header of a well-formed first `IHDR` chunk. -/
theorem processChunk_IHDR (inflate : Inflate) (t : ReadState) (h : IHDR) (crc rest : List Nat)
    (hw0 : h.width ≠ 0) (hh0 : h.height ≠ 0)
    (hw : h.width < 4294967296) (hh : h.height < 4294967296)
    (hcrc : crc.length = 4) (hmask : t.validPngMask = 0)
    (hty : t.chunkType = tagIHDR ++ [0]) (hlen : t.chunkLength = 13)
    (hf : t.self.mPngFile = ⟨ihdrPayload h ++ (crc ++ rest), true⟩) :
    processChunk inflate t = .returned { t with
      self := { mIhdr := h, mImgData := t.self.mImgData, mPngFile := ⟨rest, true⟩ }
      validPngMask := 1 } := by
  unfold processChunk
  rw [flushIdat_not_in_run inflate t (by rw [hmask]; intro h; exact absurd h.1 (by decide))]
  simp only [Outcome.andThen]
  unfold dispatchChunk
  simp only [hmask, hty, hlen, strcmp_IHDR_self]
  rw [if_neg (by decide), if_pos (by decide)]
  rw [parseIHDR_ihdrPayload _ h (crc ++ rest) hw hh hf]
  rw [if_neg (by simp [hw0, hh0])]
  simp only [liftSelf]
  rw [readCrc_exact _ crc rest hcrc rfl]
  rfl

/-- The iteration that reads a well-formed `IHDR` chunk as first chunk. -/
theorem readChunk_IHDR (inflate : Inflate) (s : ReadState) (h : IHDR) (crc rest : List Nat)
    (hw0 : h.width ≠ 0) (hh0 : h.height ≠ 0)
    (hw : h.width < 4294967296) (hh : h.height < 4294967296)
    (hcrc : crc.length = 4) (hty : s.chunkType.length = 5) (hmask : s.validPngMask = 0)
    (hf : s.self.mPngFile = ⟨chunk tagIHDR (ihdrPayload h) crc ++ rest, true⟩) :
    readChunk inflate s = .returned { s with
      self := { mIhdr := h, mImgData := s.self.mImgData, mPngFile := ⟨rest, true⟩ }
      validPngMask := 1
      chunkLength := 13
      chunkType := tagIHDR ++ [0] } := by
  have hhead := readChunkHeader_full s 13 tagIHDR (ihdrPayload h ++ (crc ++ rest)) (by decide)
    rfl hty (by rw [hf]; simp [chunk, ihdrPayload_length])
  have hp := processChunk_IHDR inflate (readChunkHeader s) h crc rest hw0 hh0 hw hh hcrc
    (by rw [hhead]; exact hmask) (by rw [hhead]) (by rw [hhead]) (by rw [hhead])
  unfold readChunk
  rw [hp, hhead]

/-- The loop body after the header of a well-formed `IDAT` chunk, once `IHDR` was seen. -/
theorem processChunk_IDAT (inflate : Inflate) (t : ReadState) (p crc rest : List Nat)
    (hcrc : crc.length = 4) (hmask : t.validPngMask = 1 ∨ t.validPngMask = 11)
    (hty : t.chunkType = tagIDAT ++ [0]) (hlen : t.chunkLength = p.length)
    (hf : t.self.mPngFile = ⟨p ++ (crc ++ rest), true⟩) :
    processChunk inflate t = .returned { t with
      self := { t.self with mPngFile := ⟨rest, true⟩ }
      validPngMask := 11
      idatBuffer := t.idatBuffer ++ p } := by
  unfold processChunk
  rw [flushIdat_not_in_run inflate t
    (by rw [hty]; intro h; exact absurd strcmp_IDAT_self h.2)]
  simp only [Outcome.andThen]
  have hread := IStream.read_exact p (crc ++ rest) (List.replicate p.length 0)
  unfold dispatchChunk
  simp only [hty, hlen, hf, hread, strcmp_IDAT_self]
  have e1 : (1 &&& IHDR_MASK) = 1 := by decide
  have e2 : (1 &&& IDAT_MASK) = 0 := by decide
  have e3 : (1 ||| IDAT_MASK) = 3 := by decide
  have e4 : (3 &&& IDAT_CHAIN) = 0 := by decide
  have e5 : (3 ||| IDAT_CHAIN) = 11 := by decide
  have e6 : (11 &&& IHDR_MASK) = 1 := by decide
  have e7 : (11 &&& IDAT_MASK) = 2 := by decide
  have e8 : (11 &&& IDAT_CHAIN) = 8 := by decide
  rcases hmask with hm | hm
  · simp only [hm, e1, e2, e3, e4, e5, one_ne_zero, false_and, if_false, if_true,
      Outcome.andThen]
    rw [readCrc_exact _ crc rest hcrc rfl]
    simp
  · simp only [hm, e6, e7, e8, one_ne_zero, false_and, if_false, if_true,
      Outcome.andThen, OfNat.ofNat_ne_zero]
    rw [readCrc_exact _ crc rest hcrc rfl]
    simp

/-- The iteration that reads a well-formed `IDAT` chunk, once `IHDR` was seen. -/
theorem readChunk_IDAT (inflate : Inflate) (s : ReadState) (p crc rest : List Nat)
    (hp : p.length < 4294967296) (hcrc : crc.length = 4) (hty : s.chunkType.length = 5)
    (hmask : s.validPngMask = 1 ∨ s.validPngMask = 11)
    (hf : s.self.mPngFile = ⟨chunk tagIDAT p crc ++ rest, true⟩) :
    readChunk inflate s = .returned { s with
      self := { s.self with mPngFile := ⟨rest, true⟩ }
      validPngMask := 11
      chunkLength := p.length
      chunkType := tagIDAT ++ [0]
      idatBuffer := s.idatBuffer ++ p } := by
  have hhead := readChunkHeader_full s p.length tagIDAT (p ++ (crc ++ rest)) hp rfl hty
    (by rw [hf]; simp [chunk])
  have hq := processChunk_IDAT inflate (readChunkHeader s) p crc rest hcrc
    (by rw [hhead]; exact hmask) (by rw [hhead]) (by rw [hhead]) (by rw [hhead])
  unfold readChunk
  rw [hq, hhead]

theorem readLoop_succ (inflate : Inflate) (fuel : Nat) (s : ReadState)
    (hty : strcmp s.chunkType strIEND ≠ 0) (hgood : s.self.mPngFile.good = true) :
    readLoop inflate (fuel + 1) s = (readChunk inflate s).andThen (readLoop inflate fuel) := by
  rw [readLoop, if_pos ⟨hty, hgood⟩]

/-- A run of well-formed `IDAT` chunks takes one iteration each and ends with their payloads
appended to the IDAT buffer. -/
theorem readLoop_idat_run (inflate : Inflate) (tail : List Nat) (ps : List (List Nat × List Nat)) :
    ∀ (pc : List Nat × List Nat) (s : ReadState) (fuel : Nat),
      (∀ q ∈ pc :: ps, q.1.length < 4294967296 ∧ q.2.length = 4) →
      s.chunkType.length = 5 → strcmp s.chunkType strIEND ≠ 0 →
      (s.validPngMask = 1 ∨ s.validPngMask = 11) →
      s.self.mPngFile = ⟨idatChunks (pc :: ps) ++ tail, true⟩ →
      ∃ cl, readLoop inflate (fuel + (pc :: ps).length) s =
        readLoop inflate fuel { s with
          self := { s.self with mPngFile := ⟨tail, true⟩ }
          validPngMask := 11
          chunkLength := cl
          chunkType := tagIDAT ++ [0]
          idatBuffer := s.idatBuffer ++ idatPayload (pc :: ps) } := by
  induction ps with
  | nil =>
    intro pc s fuel hps hty hne hmask hf
    obtain ⟨p, crc⟩ := pc
    have h1 := hps (p, crc) (by simp)
    refine ⟨p.length, ?_⟩
    rw [List.length_singleton, readLoop_succ inflate fuel s hne (by rw [hf])]
    rw [readChunk_IDAT inflate s p crc tail h1.1 h1.2 hty hmask
      (by rw [hf]; simp [idatChunks])]
    simp [Outcome.andThen, idatPayload]
  | cons q ps ih =>
    intro pc s fuel hps hty hne hmask hf
    obtain ⟨p, crc⟩ := pc
    have h1 := hps (p, crc) (by simp)
    have hps' : ∀ r ∈ q :: ps, r.1.length < 4294967296 ∧ r.2.length = 4 :=
      fun r hr => hps r (List.mem_cons_of_mem _ hr)
    have hstep := readChunk_IDAT inflate s p crc (idatChunks (q :: ps) ++ tail) h1.1 h1.2 hty
      hmask (by rw [hf]; simp [idatChunks])
    obtain ⟨cl, hcl⟩ := ih q
      { s with
        self := { s.self with mPngFile := ⟨idatChunks (q :: ps) ++ tail, true⟩ }
        validPngMask := 11
        chunkLength := p.length
        chunkType := tagIDAT ++ [0]
        idatBuffer := s.idatBuffer ++ p } fuel hps' rfl strcmp_IDAT_IEND (Or.inr rfl) rfl
    refine ⟨cl, ?_⟩
    rw [show fuel + (((p, crc) :: q :: ps).length) = (fuel + (q :: ps).length) + 1 by
      simp only [List.length_cons]; omega]
    rw [readLoop_succ inflate _ s hne (by rw [hf]), hstep]
    simp only [Outcome.andThen]
    rw [hcl]
    simp [idatPayload]

theorem idatChunks_length_ge (ps : List (List Nat × List Nat)) :
    ps.length ≤ (idatChunks ps).length := by
  induction ps with
  | nil => simp
  | cons pc ps ih =>
    obtain ⟨p, crc⟩ := pc
    simp only [idatChunks, chunk, List.length_cons, List.length_append, be32_length]
    omega

/-- A file that starts with the signature, a well-formed `IHDR` chunk, a non-empty run of
well-formed `IDAT` chunks and the header of a further chunk is decoded up to that header
without error: the decode is the rest of that chunk's iteration from `stateAtRunEnd`, then the
loop, then the `IEND` mark. -/
theorem construct_reaches_run_end (inflate : Inflate) (chunkLength0 : Nat) (ihdr0 h : IHDR)
    (crc0 : List Nat) (ps : List (List Nat × List Nat)) (lenX : Nat) (tagX rest : List Nat)
    (hw0 : h.width ≠ 0) (hh0 : h.height ≠ 0)
    (hw : h.width < 4294967296) (hh : h.height < 4294967296) (hcrc0 : crc0.length = 4)
    (hps : ∀ q ∈ ps, q.1.length < 4294967296 ∧ q.2.length = 4) (hne : ps ≠ [])
    (hlenX : lenX < 4294967296) (htagX : tagX.length = 4) :
    ∃ fuel, Png.construct inflate chunkLength0 ihdr0
        (pngMagic ++ chunk tagIHDR (ihdrPayload h) crc0 ++ idatChunks ps ++ be32 lenX ++ tagX
          ++ rest) =
      ((processChunk inflate (stateAtRunEnd h ps lenX tagX rest)).andThen
        (readLoop inflate fuel)).andThen markIEND := by
  obtain ⟨pc, ps', rfl⟩ : ∃ pc ps', ps = pc :: ps' := by
    cases ps with
    | nil => exact absurd rfl hne
    | cons pc ps' => exact ⟨pc, ps', rfl⟩
  set tailX := be32 lenX ++ tagX ++ rest with htail
  set file := pngMagic ++ chunk tagIHDR (ihdrPayload h) crc0 ++ idatChunks (pc :: ps') ++
    be32 lenX ++ tagX ++ rest with hfile
  have hfile' : file = pngMagic ++ (chunk tagIHDR (ihdrPayload h) crc0 ++
      (idatChunks (pc :: ps') ++ tailX)) := by
    simp only [hfile, htail, List.append_assoc]
  have hlen : (pc :: ps').length + 1 ≤ file.length := by
    have := idatChunks_length_ge (pc :: ps')
    rw [hfile']
    simp only [List.length_append, pngMagic, List.length_cons, List.length_nil] at this ⊢
    omega
  refine ⟨file.length - (pc :: ps').length - 1, ?_⟩
  have hsig : strcmp (((IStream.read ⟨file, true⟩
      (List.replicate pngSignature.length 0) 8).1).set 8 0) pngSignature = 0 :=
    (signature_check _).2 (by rw [hfile']; simp [pngMagic])
  have hread : (IStream.read ⟨file, true⟩ (List.replicate pngSignature.length 0) 8).2 =
      ⟨chunk tagIHDR (ihdrPayload h) crc0 ++ (idatChunks (pc :: ps') ++ tailX), true⟩ := by
    rw [hfile']
    simp [IStream.read, pngMagic]
  simp only [Png.construct, readPng, hsig, hread, Bool.true_eq_false, if_false, ne_eq,
    not_true_eq_false]
  congr 1
  have step1 : readLoop inflate (file.length + 1)
      { self := { mIhdr := ihdr0, mImgData := [],
                  mPngFile := ⟨chunk tagIHDR (ihdrPayload h) crc0 ++
                    (idatChunks (pc :: ps') ++ tailX), true⟩ },
        decompressedData := [], validPngMask := 0, chunkLength := chunkLength0,
        chunkType := [0, 0, 0, 0, 0], idatBuffer := [], inflateCalls := [] } =
      readLoop inflate ((file.length - (pc :: ps').length - 1) + 1 + (pc :: ps').length)
      { self := { mIhdr := h, mImgData := [],
                  mPngFile := ⟨idatChunks (pc :: ps') ++ tailX, true⟩ },
        decompressedData := [], validPngMask := 1, chunkLength := 13,
        chunkType := tagIHDR ++ [0], idatBuffer := [], inflateCalls := [] } := by
    rw [show file.length + 1 =
      ((file.length - (pc :: ps').length - 1) + 1 + (pc :: ps').length) + 1 by omega]
    rw [readLoop_succ inflate _
      { self := { mIhdr := ihdr0, mImgData := [],
                  mPngFile := ⟨chunk tagIHDR (ihdrPayload h) crc0 ++
                    (idatChunks (pc :: ps') ++ tailX), true⟩ },
        decompressedData := [], validPngMask := 0, chunkLength := chunkLength0,
        chunkType := [0, 0, 0, 0, 0], idatBuffer := [], inflateCalls := [] }
      (show strcmp [0, 0, 0, 0, 0] strIEND ≠ 0 by decide) rfl]
    rw [readChunk_IHDR inflate
      { self := { mIhdr := ihdr0, mImgData := [],
                  mPngFile := ⟨chunk tagIHDR (ihdrPayload h) crc0 ++
                    (idatChunks (pc :: ps') ++ tailX), true⟩ },
        decompressedData := [], validPngMask := 0, chunkLength := chunkLength0,
        chunkType := [0, 0, 0, 0, 0], idatBuffer := [], inflateCalls := [] }
      h crc0 (idatChunks (pc :: ps') ++ tailX) hw0 hh0 hw hh hcrc0 rfl rfl rfl]
    rfl
  rw [step1]
  obtain ⟨cl, hcl⟩ := readLoop_idat_run inflate tailX ps' pc
    { self := { mIhdr := h, mImgData := [],
                mPngFile := ⟨idatChunks (pc :: ps') ++ tailX, true⟩ },
      decompressedData := [], validPngMask := 1, chunkLength := 13,
      chunkType := tagIHDR ++ [0], idatBuffer := [], inflateCalls := [] }
    (file.length - (pc :: ps').length - 1 + 1) hps rfl strcmp_IHDR_IEND (Or.inl rfl) rfl
  rw [hcl]
  rw [readLoop_succ inflate _
    { self := { mIhdr := h, mImgData := [], mPngFile := ⟨tailX, true⟩ },
      decompressedData := [], validPngMask := 11, chunkLength := cl,
      chunkType := tagIDAT ++ [0], idatBuffer := [] ++ idatPayload (pc :: ps'),
      inflateCalls := [] } strcmp_IDAT_IEND rfl]
  unfold readChunk
  rw [readChunkHeader_full
    { self := { mIhdr := h, mImgData := [], mPngFile := ⟨tailX, true⟩ },
      decompressedData := [], validPngMask := 11, chunkLength := cl,
      chunkType := tagIDAT ++ [0], idatBuffer := [] ++ idatPayload (pc :: ps'),
      inflateCalls := [] } lenX tagX rest hlenX htagX rfl rfl]
  simp [stateAtRunEnd]

theorem tagIDAT_ne_zero : ∀ x ∈ tagIDAT, x ≠ 0 := by decide

theorem strIDAT_eq : strIDAT = tagIDAT ++ 0 :: [0] := rfl

theorem strcmp_tag_IDAT (tagX : List Nat) (htagX : tagX.length = 4) (hX : tagX ≠ tagIDAT) :
    strcmp (tagX ++ [0]) strIDAT ≠ 0 := by
  rw [strIDAT_eq]
  intro h0
  exact hX ((strcmp_same_length tagIDAT tagIDAT_ne_zero tagX [] [0] htagX).1 h0)

/-- The flush at the end of an IDAT run, spelled out. -/
theorem flushIdat_stateAtRunEnd (inflate : Inflate) (h : IHDR) (ps : List (List Nat × List Nat))
    (lenX : Nat) (tagX rest : List Nat) (htagX : tagX.length = 4) (hX : tagX ≠ tagIDAT) :
    flushIdat inflate (stateAtRunEnd h ps lenX tagX rest) =
      match inflate (idatPayload ps) with
      | none => .exited .DecompressionError
          { stateAtRunEnd h ps lenX tagX rest with
            validPngMask := 3, inflateCalls := [idatPayload ps] }
      | some out =>
        (liftSelf { stateAtRunEnd h ps lenX tagX rest with
            validPngMask := 3, inflateCalls := [idatPayload ps], decompressedData := out }
          (handlePngColorType (stateAtRunEnd h ps lenX tagX rest).self out)).andThen
          fun s3 => .returned { s3 with idatBuffer := [], decompressedData := [] } := by
  have hcond : ((stateAtRunEnd h ps lenX tagX rest).validPngMask &&& IDAT_CHAIN) >>> 3 = 1 ∧
      strcmp (stateAtRunEnd h ps lenX tagX rest).chunkType strIDAT ≠ 0 :=
    ⟨show ((11 &&& IDAT_CHAIN) >>> 3 : Nat) = 1 by decide, strcmp_tag_IDAT tagX htagX hX⟩
  have e3 : (11 &&& 247 : Nat) = 3 := by decide
  unfold flushIdat
  rw [if_pos hcond]
  simp only [stateAtRunEnd, e3, List.nil_append]

theorem strcmp_iCCP_self : strcmp (tagiCCP ++ [0]) striCCP = 0 := by decide
theorem strcmp_iCCP_IDAT : strcmp (tagiCCP ++ [0]) strIDAT ≠ 0 := by decide
theorem strcmp_iCCP_IHDR : strcmp (tagiCCP ++ [0]) strIHDR ≠ 0 := by decide

/-- An `iCCP` chunk right after `IHDR` and one `IDAT` chunk: the outcome of the decode. -/
theorem construct_iccp_after_idat (inflate : Inflate) (chunkLength0 : Nat) (ihdr0 h : IHDR)
    (crc0 p crc1 : List Nat) (lenX : Nat) (rest : List Nat)
    (hw0 : h.width ≠ 0) (hh0 : h.height ≠ 0)
    (hw : h.width < 4294967296) (hh : h.height < 4294967296) (hcrc0 : crc0.length = 4)
    (hp : p.length < 4294967296) (hcrc1 : crc1.length = 4) (hlenX : lenX < 4294967296) :
    Png.construct inflate chunkLength0 ihdr0
        (pngMagic ++ chunk tagIHDR (ihdrPayload h) crc0 ++ chunk tagIDAT p crc1 ++ be32 lenX
          ++ tagiCCP ++ rest) =
      match inflate p with
      | none => .exited .DecompressionError
          { self := { mIhdr := h, mImgData := [], mPngFile := ⟨rest, true⟩ }
            decompressedData := [], validPngMask := 3, chunkLength := lenX
            chunkType := tagiCCP ++ [0], idatBuffer := p, inflateCalls := [p] }
      | some out =>
        match handlePngColorType { mIhdr := h, mImgData := [], mPngFile := ⟨rest, true⟩ } out with
        | .returned q => .exited .ChunkOrderingViolation
            { self := q, decompressedData := [], validPngMask := 3, chunkLength := lenX
              chunkType := tagiCCP ++ [0], idatBuffer := [], inflateCalls := [p] }
        | .exited e q => .exited e
            { self := q, decompressedData := out, validPngMask := 3, chunkLength := lenX
              chunkType := tagiCCP ++ [0], idatBuffer := p, inflateCalls := [p] }
        | .undefinedBehaviour => .undefinedBehaviour
        | .outOfFuel => .outOfFuel := by
  obtain ⟨fuel, hreach⟩ := construct_reaches_run_end inflate chunkLength0 ihdr0 h crc0
    [(p, crc1)] lenX tagiCCP rest hw0 hh0 hw hh hcrc0
    (by intro q hq; simp at hq; subst hq; exact ⟨hp, hcrc1⟩) (by simp) hlenX rfl
  have hfile : pngMagic ++ chunk tagIHDR (ihdrPayload h) crc0 ++ idatChunks [(p, crc1)] ++
      be32 lenX ++ tagiCCP ++ rest = pngMagic ++ chunk tagIHDR (ihdrPayload h) crc0 ++
      chunk tagIDAT p crc1 ++ be32 lenX ++ tagiCCP ++ rest := by
    simp [idatChunks]
  rw [hfile] at hreach
  rw [hreach]
  unfold processChunk
  rw [flushIdat_stateAtRunEnd inflate h [(p, crc1)] lenX tagiCCP rest rfl (by decide)]
  have hpay : idatPayload [(p, crc1)] = p := by simp [idatPayload]
  rw [hpay]
  have e1 : (3 &&& IHDR_MASK : Nat) = 1 := by decide
  have e2 : (3 &&& IDAT_MASK : Nat) = 2 := by decide
  cases hi : inflate p with
  | none => simp [Outcome.andThen, stateAtRunEnd, hpay]
  | some out =>
    simp only [stateAtRunEnd]
    cases hc : handlePngColorType { mIhdr := h, mImgData := [], mPngFile := ⟨rest, true⟩ } out with
    | returned q =>
      simp only [liftSelf, Outcome.andThen, dispatchChunk, e1, e2, strcmp_iCCP_IHDR,
        strcmp_iCCP_IDAT, strcmp_iCCP_self]
      simp
    | exited e q => simp [liftSelf, Outcome.andThen, hpay]
    | undefinedBehaviour => simp [liftSelf, Outcome.andThen]
    | outOfFuel => simp [liftSelf, Outcome.andThen]

/-! ### The reconstruction engine: one pixel -/

theorem u32_small (n : Nat) (h : n < 4294967296) : u32 n = n := Nat.mod_eq_of_lt h

theorem toInt32_small (n : Nat) (h : n < 2147483648) : toInt32 n = (n : Int) := by
  unfold toInt32
  rw [u32_small n (by omega), if_pos h]

theorem u32sub_of_le (a b : Nat) (hab : b ≤ a) (ha : a < 4294967296) : u32sub a b = a - b := by
  unfold u32sub u32
  omega

theorem toInt32_u32sub (a b : Nat) (ha : a < 2147483648) (hb : b < 2147483648) :
    toInt32 (u32sub a b) = (a : Int) - (b : Int) := by
  unfold toInt32 u32sub u32
  split_ifs <;> omega

theorem atIdx_lt (v : List Nat) (n : Nat) (h : n < v.length) : atIdx v n = .ok (v.getD n 0) := by
  unfold atIdx
  rw [List.getD_eq_getElem v 0 h, List.getElem?_eq_getElem h]

theorem atInt_lt (v : List Nat) (n : Nat) (h : n < v.length) (h2 : n < 2147483648) :
    atInt v n = .ok (v.getD n 0) := by
  unfold atInt
  rw [if_pos h2, atIdx_lt v n h]

theorem getD_append_lt (a b : List Nat) (n : Nat) (h : n < a.length) :
    (a ++ b).getD n 0 = a.getD n 0 := by
  rw [List.getD_eq_getElem _ 0 (by simp; omega), List.getD_eq_getElem _ 0 h,
    List.getElem_append_left h]

/-- The left neighbour read by the source is the `left` of the specification. -/
theorem leftByte_eq (img : List Nat) (bpp S cur cb t : Nat)
    (hlen : img.length = cur) (hcur : cur < 2147483648) (hcb : cb ≤ cur)
    (hedge : cb = 0 ∨ bpp ≤ cb) (ht : t < bpp) (hmod : (cur + t) % S = cb + t) :
    leftByte img bpp cur cb t = .ok (leftOf img bpp S (cur + t)) := by
  unfold leftByte leftOf
  rw [hmod]
  rcases hedge with h0 | h1
  · subst h0
    simp [ht]
  · have hne : cb ≠ 0 := by omega
    rw [if_pos hne, if_neg (by omega)]
    rw [u32sub_of_le cur (bpp - t) (by omega) (by omega)]
    rw [atIdx_lt img _ (by omega)]
    congr 2
    omega

/-- The upper neighbour read by the source is the `up` of the specification. -/
theorem upByte_eq (img : List Nat) (S cur t : Nat)
    (hlen : img.length = cur) (hcur : cur < 2147483648) (hS : S < 2147483648)
    (ht : t < S) (hrow : cur + t < S ∨ S ≤ cur) :
    upByte img (toInt32 (u32sub cur S)) t = .ok (upOf img S (cur + t)) := by
  unfold upByte upOf
  rw [toInt32_u32sub cur S hcur hS]
  rcases hrow with h0 | h1
  · rw [if_neg (by omega), if_pos h0]
  · rw [if_pos (by omega), if_neg (by omega)]
    have e : ((cur : Int) - (S : Int)).toNat = cur - S := by omega
    rw [e, atInt_lt img _ (by omega) (by omega)]
    congr 2
    omega

/-- The upper-left neighbour read by the source is the `upLeft` of the specification. -/
theorem upLeftByte_eq (img : List Nat) (bpp S cur cb t : Nat)
    (hlen : img.length = cur) (hcur : cur < 2147483648) (hS : S < 2147483648)
    (hbpp : bpp ≤ 4) (hcb : cb + S ≤ cur ∨ cur < S ∨ cb = 0)
    (hedge : cb = 0 ∨ bpp ≤ cb) (ht : t < bpp) (hmod : (cur + t) % S = cb + t)
    (hrow : cur + t < S ∨ S ≤ cur) :
    upLeftByte img (u32sub cur (u32 (S + bpp))) cb (toInt32 (u32sub cur S)) t =
      .ok (upLeftOf img bpp S (cur + t)) := by
  unfold upLeftByte upLeftOf
  rw [toInt32_u32sub cur S hcur hS, hmod]
  by_cases hl : cb = 0
  · subst hl
    simp [ht]
  · have hb : bpp ≤ cb := by omega
    rcases hrow with h0 | h1
    · rw [if_neg (by omega), if_pos (Or.inr h0)]
    · have hcs : cb + S ≤ cur := by omega
      rw [if_pos ⟨hl, by omega⟩, if_neg (by omega)]
      rw [u32_small (S + bpp) (by omega), u32sub_of_le cur (S + bpp) (by omega) (by omega)]
      rw [u32_small _ (by omega), atIdx_lt img _ (by omega)]
      congr 2
      omega

theorem getD_lt_256 (l : List Nat) (n : Nat) (h : ∀ x ∈ l, x < 256) : l.getD n 0 < 256 := by
  by_cases hn : n < l.length
  · rw [List.getD_eq_getElem l 0 hn]
    exact h _ (List.getElem_mem _)
  · rw [List.getD_eq_default l 0 (by omega)]
    decide

theorem leftOf_lt (img : List Nat) (bpp S j : Nat) (h : ∀ x ∈ img, x < 256) :
    leftOf img bpp S j < 256 := by
  unfold leftOf
  split_ifs
  · decide
  · exact getD_lt_256 _ _ h

theorem upOf_lt (img : List Nat) (S j : Nat) (h : ∀ x ∈ img, x < 256) :
    upOf img S j < 256 := by
  unfold upOf
  split_ifs
  · decide
  · exact getD_lt_256 _ _ h

theorem averageByte_eq (up left : Nat) (hu : up < 256) (hl : left < 256) :
    averageByte up left = (left + up) / 2 := by
  unfold averageByte u32
  omega

namespace AtPixel

variable {img : List Nat} {bpp S cur cb : Nat}

theorem mod_add (P : AtPixel img bpp S cur cb) (t : Nat) (ht : t < bpp) :
    (cur + t) % S = cb + t := by
  have h1 := P.hmod
  have h2 := P.hcbS
  rw [Nat.add_mod, h1, Nat.mod_eq_of_lt (a := t) (by omega), Nat.mod_eq_of_lt (by omega)]

theorem left_eq (P : AtPixel img bpp S cur cb) (t : Nat) (ht : t < bpp) :
    leftByte img bpp cur cb t = .ok (leftOf img bpp S (cur + t)) := by
  have h1 := P.hrow
  have h2 := P.hcur
  exact leftByte_eq img bpp S cur cb t P.hlen (by omega) (by omega) P.hedge ht (P.mod_add t ht)

theorem up_eq (P : AtPixel img bpp S cur cb) (t : Nat) (ht : t < bpp) :
    upByte img (toInt32 (u32sub cur S)) t = .ok (upOf img S (cur + t)) := by
  have h1 := P.hrow
  have h2 := P.hcur
  have h3 := P.hcbS
  exact upByte_eq img S cur t P.hlen (by omega) P.hS (by omega) (by omega)

theorem upLeft_eq (P : AtPixel img bpp S cur cb) (t : Nat) (ht : t < bpp) :
    upLeftByte img (u32sub cur (u32 (S + bpp))) cb (toInt32 (u32sub cur S)) t =
      .ok (upLeftOf img bpp S (cur + t)) := by
  have h1 := P.hrow
  have h2 := P.hcur
  have h3 := P.hcbS
  exact upLeftByte_eq img bpp S cur cb t P.hlen (by omega) P.hS P.hbpp4 (by omega) P.hedge ht
    (P.mod_add t ht) (by omega)

end AtPixel

/-- The `switch` computes, channel by channel, the predictor of the specification. -/
theorem filterSwitch_eq (hdr : IHDR) (img : List Nat) (bpp S cur cb fv : Nat) (fp : RGB)
    (P : AtPixel img bpp S cur cb)
    (hct : (hdr.colorType = 2 ∧ bpp = 3) ∨ (hdr.colorType = 6 ∧ bpp = 4)) (hfv : fv ≤ 4) :
    ∃ a, filterSwitch hdr img S bpp cur cb (toInt32 (u32sub cur S)) fv fp =
        .ok { Red := predictorOf fv img bpp S cur
              Green := predictorOf fv img bpp S (cur + 1)
              Blue := predictorOf fv img bpp S (cur + 2)
              Alpha := a } ∧
      (hdr.colorType = 6 → a = predictorOf fv img bpp S (cur + 3)) := by
  have hb3 := P.hbpp3
  have l0 := P.left_eq 0 (by omega)
  have l1 := P.left_eq 1 (by omega)
  have l2 := P.left_eq 2 (by omega)
  have u0 := P.up_eq 0 (by omega)
  have u1 := P.up_eq 1 (by omega)
  have u2 := P.up_eq 2 (by omega)
  have c0 := P.upLeft_eq 0 (by omega)
  have c1 := P.upLeft_eq 1 (by omega)
  have c2 := P.upLeft_eq 2 (by omega)
  have hS0 : S ≠ 0 := by have := P.hcbS; omega
  have hL := fun j => leftOf_lt img bpp S j P.hbytes
  have hU := fun j => upOf_lt img S j P.hbytes
  have hmod := P.hmod
  simp only [Nat.add_zero] at l0 u0 c0
  rcases hct with ⟨h2, hb⟩ | ⟨h6, hb⟩
  · have hne : ¬ hdr.colorType = RGBTRIPA := by rw [h2]; decide
    have hne6 : ¬ hdr.colorType = 6 := by rw [h2]; decide
    interval_cases fv
    · exact ⟨0, by simp [filterSwitch, NONE, pure, Except.pure, predictorOf],
        fun h => absurd h hne6⟩
    · exact ⟨fp.Alpha, by simp [filterSwitch, NONE, SUB, l0, l1, l2, hne, bind, Except.bind,
        pure, Except.pure, predictorOf], fun h => absurd h hne6⟩
    · exact ⟨fp.Alpha, by simp [filterSwitch, NONE, SUB, UP, u0, u1, u2, hne, bind, Except.bind,
        pure, Except.pure, predictorOf], fun h => absurd h hne6⟩
    · exact ⟨fp.Alpha, by simp [filterSwitch, NONE, SUB, UP, AVERAGE, u0, u1, u2, l0, l1, l2,
        hne, bind, Except.bind, pure, Except.pure, predictorOf, averageByte_eq, hL, hU],
        fun h => absurd h hne6⟩
    · exact ⟨0, by simp [filterSwitch, NONE, SUB, UP, AVERAGE, PAETH, paethRGBBitDepth8, hS0,
        hmod, u0, u1, u2, l0, l1, l2, c0, c1, c2,
        hne, bind, Except.bind, pure, Except.pure, predictorOf],
        fun h => absurd h hne6⟩
  · have he : hdr.colorType = RGBTRIPA := h6
    have l3 := P.left_eq 3 (by omega)
    have u3 := P.up_eq 3 (by omega)
    have c3 := P.upLeft_eq 3 (by omega)
    interval_cases fv
    · exact ⟨0, by simp [filterSwitch, NONE, pure, Except.pure, predictorOf],
        fun _ => by simp [predictorOf]⟩
    · exact ⟨predictorOf 1 img bpp S (cur + 3), by simp [filterSwitch, NONE, SUB, l0, l1, l2, l3, he, bind, Except.bind,
        pure, Except.pure, predictorOf], fun _ => rfl⟩
    · exact ⟨predictorOf 2 img bpp S (cur + 3), by simp [filterSwitch, NONE, SUB, UP, u0, u1, u2, u3, he, bind, Except.bind,
        pure, Except.pure, predictorOf], fun _ => rfl⟩
    · exact ⟨predictorOf 3 img bpp S (cur + 3), by simp [filterSwitch, NONE, SUB, UP, AVERAGE, u0, u1, u2, u3, l0, l1, l2, l3,
        he, bind, Except.bind, pure, Except.pure, predictorOf, averageByte_eq, hL, hU],
        fun _ => rfl⟩
    · exact ⟨predictorOf 4 img bpp S (cur + 3), by simp [filterSwitch, NONE, SUB, UP, AVERAGE, PAETH, paethRGBBitDepth8, hS0,
        hmod, u0, u1, u2, u3, l0, l1, l2, l3, c0, c1, c2, c3,
        he, bind, Except.bind, pure, Except.pure, predictorOf],
        fun _ => rfl⟩

/-- The `push_back` statements append the reconstructed channels. -/
theorem pushPixel_eq (hdr : IHDR) (data : List Nat) (i bpp : Nat) (fp : RGB) (img : List Nat)
    (hct : (hdr.colorType = 2 ∧ bpp = 3) ∨ (hdr.colorType = 6 ∧ bpp = 4))
    (hi : i + bpp ≤ data.length) (hn : data.length < 2147483648) :
    pushPixel hdr data i fp img = .ok (img ++
      ([(data.getD i 0 + fp.Red) % 256, (data.getD (i + 1) 0 + fp.Green) % 256,
        (data.getD (i + 2) 0 + fp.Blue) % 256] ++
       (if hdr.colorType = 6 then [(data.getD (i + 3) 0 + fp.Alpha) % 256] else []))) := by
  rcases hct with ⟨h2, hb⟩ | ⟨h6, hb⟩
  · have hne : ¬ hdr.colorType = RGBTRIPA := by rw [h2]; decide
    have hne6 : ¬ hdr.colorType = 6 := by rw [h2]; decide
    simp [pushPixel, atInt_lt data i (by omega) (by omega),
      atInt_lt data (i + 1) (by omega) (by omega), atInt_lt data (i + 2) (by omega) (by omega),
      hne, hne6, bind, Except.bind, pure, Except.pure]
  · simp [pushPixel, atInt_lt data i (by omega) (by omega),
      atInt_lt data (i + 1) (by omega) (by omega), atInt_lt data (i + 2) (by omega) (by omega),
      atInt_lt data (i + 3) (by omega) (by omega),
      h6, RGBTRIPA, bind, Except.bind, pure, Except.pure]

theorem getD_append_right_nat (a b : List Nat) (t : Nat) :
    (a ++ b).getD (a.length + t) 0 = b.getD t 0 := by
  simp [List.getD_eq_getElem?_getD, List.getElem?_append_right]

theorem leftOf_append (img ext : List Nat) (bpp S j : Nat) (h : j < img.length + bpp) :
    leftOf (img ++ ext) bpp S j = leftOf img bpp S j := by
  unfold leftOf
  split_ifs with h1
  · rfl
  · have : bpp ≤ j := le_trans (not_lt.mp h1) (Nat.mod_le _ _)
    exact getD_append_lt img ext _ (by omega)

theorem upOf_append (img ext : List Nat) (S j : Nat) (h : j < img.length + S) :
    upOf (img ++ ext) S j = upOf img S j := by
  unfold upOf
  split_ifs with h1
  · rfl
  · exact getD_append_lt img ext _ (by omega)

theorem upLeftOf_append (img ext : List Nat) (bpp S j : Nat) (h : j < img.length + S) :
    upLeftOf (img ++ ext) bpp S j = upLeftOf img bpp S j := by
  unfold upLeftOf
  split_ifs with h1
  · rfl
  · exact getD_append_lt img ext _ (by omega)

theorem predictorOf_append (ft : Nat) (img ext : List Nat) (bpp S j : Nat)
    (hbS : bpp ≤ S) (h : j < img.length + bpp) :
    predictorOf ft (img ++ ext) bpp S j = predictorOf ft img bpp S j := by
  unfold predictorOf
  rw [leftOf_append img ext bpp S j h, upOf_append img ext S j (by omega),
    upLeftOf_append img ext bpp S j (by omega)]

/-- Bytes already reconstructed stay reconstructed when the buffer grows. -/
theorem ReconstructedAt_append (data img ext : List Nat) (bpp S j : Nat)
    (hbS : bpp ≤ S) (hj : j < img.length) (h : ReconstructedAt data img bpp S j) :
    ReconstructedAt data (img ++ ext) bpp S j := by
  unfold ReconstructedAt at h ⊢
  rw [getD_append_lt img ext j hj, predictorOf_append _ img ext bpp S j hbS (by omega)]
  exact h

/-! ### The reconstruction engine: the loop -/

theorem row_mod (r S x : Nat) (hx : x < S) : (r * S + x) % S = x := by
  rw [Nat.add_comm, Nat.add_mul_mod_self_right, Nat.mod_eq_of_lt hx]

theorem row_div (r S x : Nat) (hx : x < S) : (r * S + x) / S = r := by
  rw [Nat.add_comm, Nat.add_mul_div_right _ _ (by omega), Nat.div_eq_of_lt hx, Nat.zero_add]

/-- A channel just appended obeys the reconstruction rule. -/
theorem ReconstructedAt_new (data img ext : List Nat) (bpp S r cb t fv : Nat)
    (hlen : img.length = r * S + cb) (ht : t < bpp) (hcbS : cb + bpp ≤ S)
    (hfv : fv = data.getD (r * (S + 1)) 0)
    (hval : ext.getD t 0 =
      (data.getD (r * (S + 1) + 1 + cb + t) 0 + predictorOf fv img bpp S (r * S + cb + t))
        % 256) :
    ReconstructedAt data (img ++ ext) bpp S (r * S + cb + t) := by
  unfold ReconstructedAt filteredByte filterTypeOf
  have hd : (r * S + cb + t) / S = r := by
    rw [Nat.add_assoc]; exact row_div r S (cb + t) (by omega)
  have hm : (r * S + cb + t) % S = cb + t := by
    rw [Nat.add_assoc]; exact row_mod r S (cb + t) (by omega)
  rw [hd, hm, ← hfv, predictorOf_append fv img ext bpp S _ (by omega) (by omega)]
  rw [show r * S + cb + t = img.length + t by omega, getD_append_right_nat, hval]
  rw [show img.length + t = r * S + cb + t by omega,
    show r * (S + 1) + 1 + (cb + t) = r * (S + 1) + 1 + cb + t by omega]

/-- One iteration of the loop on a pixel: the pixel is reconstructed by the rule of the
specification and appended. -/
theorem rgbLoop_pixel (hdr : IHDR) (data : List Nat) (bpp S h r cb fuel fv : Nat) (fp : RGB)
    (img : List Nat)
    (hct : (hdr.colorType = 2 ∧ bpp = 3) ∨ (hdr.colorType = 6 ∧ bpp = 4))
    (hn : data.length = h * (S + 1)) (hlt : data.length < 2147483648) (hr : r < h)
    (hcbS : cb + bpp ≤ S) (hedge : cb = 0 ∨ bpp ≤ cb)
    (hlen : img.length = r * S + cb) (hB : ∀ x ∈ img, x < 256)
    (hQ : Reconstructed data img bpp S)
    (hfv : fv = data.getD (r * (S + 1)) 0) (hfv4 : fv ≤ 4) :
    ∃ fp1 img1,
      rgbLoop hdr data bpp S (fuel + 1) (r * (S + 1) + 1 + cb) (r * S + cb) fv fp img =
        rgbLoop hdr data bpp S fuel (r * (S + 1) + 1 + (cb + bpp)) (r * S + (cb + bpp)) fv
          fp1 img1 ∧
      img1.length = r * S + (cb + bpp) ∧ (∀ x ∈ img1, x < 256) ∧
      Reconstructed data img1 bpp S := by
  have hb3 : 3 ≤ bpp := by rcases hct with ⟨_, hb⟩ | ⟨_, hb⟩ <;> omega
  have hb4 : bpp ≤ 4 := by rcases hct with ⟨_, hb⟩ | ⟨_, hb⟩ <;> omega
  have e1 : r * (S + 1) = r * S + r := Nat.mul_succ r S
  have e2 : h * (S + 1) = h * S + h := Nat.mul_succ h S
  have e3 : r * S + S ≤ h * S := by
    have := Nat.mul_le_mul_right S (show r + 1 ≤ h from hr)
    rwa [Nat.succ_mul] at this
  have hrow : r * S + cb = cb ∨ cb + S ≤ r * S + cb := by
    rcases Nat.eq_zero_or_pos r with h0 | h0
    · left; rw [h0]; simp
    · right
      have := Nat.le_mul_of_pos_left S h0
      omega
  have hmod : (r * S + cb) % S = cb := row_mod r S cb (by omega)
  have P : AtPixel img bpp S (r * S + cb) cb :=
    ⟨hlen, by omega, by omega, hb3, hb4, hcbS, hedge, hmod, hrow, hB⟩
  obtain ⟨a, hsw, ha⟩ := filterSwitch_eq hdr img bpp S (r * S + cb) cb fv fp P hct hfv4
  have hpush := pushPixel_eq hdr data (r * (S + 1) + 1 + cb) bpp
    { Red := predictorOf fv img bpp S (r * S + cb)
      Green := predictorOf fv img bpp S (r * S + cb + 1)
      Blue := predictorOf fv img bpp S (r * S + cb + 2)
      Alpha := a } img hct (by omega) hlt
  dsimp only at hpush
  have hcond : ((r * (S + 1) + 1 + cb : Nat) : Int) < toInt32 data.length := by
    rw [toInt32_small _ hlt]
    have : r * (S + 1) + 1 + cb < data.length := by omega
    exact_mod_cast this
  have hS0 : ¬ S = 0 := by omega
  have hu : u32 (S + 1) = S + 1 := u32_small _ (by omega)
  have hi : (r * (S + 1) + 1 + cb) % (S + 1) = 1 + cb := by
    rw [Nat.add_assoc, row_mod r (S + 1) (1 + cb) (by omega)]
  have hu2 : u32 (r * S + cb + bpp) = r * S + (cb + bpp) := by
    rw [u32_small _ (by omega)]; omega
  refine ⟨{ Red := predictorOf fv img bpp S (r * S + cb)
            Green := predictorOf fv img bpp S (r * S + cb + 1)
            Blue := predictorOf fv img bpp S (r * S + cb + 2)
            Alpha := a },
    img ++ ([(data.getD (r * (S + 1) + 1 + cb) 0 + predictorOf fv img bpp S (r * S + cb)) % 256,
        (data.getD (r * (S + 1) + 1 + cb + 1) 0 + predictorOf fv img bpp S (r * S + cb + 1))
          % 256,
        (data.getD (r * (S + 1) + 1 + cb + 2) 0 + predictorOf fv img bpp S (r * S + cb + 2))
          % 256] ++
       (if hdr.colorType = 6 then [(data.getD (r * (S + 1) + 1 + cb + 3) 0 + a) % 256]
        else [])), ?_, ?_, ?_, ?_⟩
  · rw [rgbLoop]
    simp only [hcond, if_true, hS0, if_false, hu, hi, hmod, hsw, hpush,
      Nat.succ_ne_zero, hu2]
    rw [if_neg (by omega), if_pos (by omega)]
    rw [show r * (S + 1) + 1 + cb + bpp = r * (S + 1) + 1 + (cb + bpp) by omega]
  · rcases hct with ⟨h2, hb⟩ | ⟨h6, hb⟩
    · simp [h2, hlen, hb]
      omega
    · simp [h6, hlen, hb]
      omega
  · intro x hx
    rw [List.mem_append] at hx
    rcases hx with hx | hx
    · exact hB x hx
    · have h256 : ∀ y : Nat, y % 256 < 256 := fun y => Nat.mod_lt _ (by decide)
      simp only [List.mem_append, List.mem_cons, List.mem_singleton, List.not_mem_nil,
        or_false] at hx
      rcases hx with (hx | hx | hx) | hx
      · rw [hx]; exact h256 _
      · rw [hx]; exact h256 _
      · rw [hx]; exact h256 _
      · split_ifs at hx
        · simp only [List.mem_singleton] at hx
          rw [hx]; exact h256 _
        · simp at hx
  · intro j hj
    by_cases hjl : j < img.length
    · exact ReconstructedAt_append data img _ bpp S j (by omega) hjl (hQ j hjl)
    · have hjlen : j < r * S + cb + bpp := by
        rcases hct with ⟨h2, hb⟩ | ⟨h6, hb⟩
        · simp [h2, hlen, hb] at hj; omega
        · simp [h6, hlen, hb] at hj; omega
      obtain ⟨t, rfl⟩ : ∃ t, j = r * S + cb + t := ⟨j - (r * S + cb), by omega⟩
      have ht : t < bpp := by omega
      apply ReconstructedAt_new data img _ bpp S r cb t fv hlen ht hcbS hfv
      rcases hct with ⟨h2, hb⟩ | ⟨h6, hb⟩
      · have hne6 : ¬ hdr.colorType = 6 := by rw [h2]; decide
        simp only [hne6, if_false, List.append_nil]
        have ht3 : t < 3 := by omega
        interval_cases t <;> simp
      · simp only [h6, if_true]
        have ha' := ha h6
        have ht4 : t < 4 := by omega
        interval_cases t <;> simp [ha']

/-- The rest of a scanline, from pixel `c` on. -/
theorem rgbLoop_row_rest (hdr : IHDR) (data : List Nat) (bpp S w h r fv : Nat)
    (hct : (hdr.colorType = 2 ∧ bpp = 3) ∨ (hdr.colorType = 6 ∧ bpp = 4))
    (hS : S = w * bpp)
    (hn : data.length = h * (S + 1)) (hlt : data.length < 2147483648) (hr : r < h)
    (hfv : fv = data.getD (r * (S + 1)) 0) (hfv4 : fv ≤ 4) :
    ∀ (d c : Nat), c + d = w → ∀ (fuel : Nat) (fp : RGB) (img : List Nat),
      img.length = r * S + c * bpp → (∀ x ∈ img, x < 256) → Reconstructed data img bpp S →
      ∃ fp' img',
        rgbLoop hdr data bpp S (fuel + d) (r * (S + 1) + 1 + c * bpp) (r * S + c * bpp) fv fp img
          = rgbLoop hdr data bpp S fuel ((r + 1) * (S + 1)) ((r + 1) * S) fv fp' img' ∧
        img'.length = (r + 1) * S ∧ (∀ x ∈ img', x < 256) ∧ Reconstructed data img' bpp S := by
  intro d
  induction d with
  | zero =>
    intro c hc fuel fp img hlen hB hQ
    have hcw : c = w := by omega
    subst hcw
    refine ⟨fp, img, ?_, ?_, hB, hQ⟩
    · rw [Nat.succ_mul r (S + 1), Nat.succ_mul r S, ← hS]
      rw [show r * (S + 1) + 1 + S = r * (S + 1) + (S + 1) by omega]
      rfl
    · rw [hlen, Nat.succ_mul r S, ← hS]
  | succ d ih =>
    intro c hc fuel fp img hlen hB hQ
    have hcbS : c * bpp + bpp ≤ S := by
      rw [hS, ← Nat.succ_mul]
      exact Nat.mul_le_mul_right bpp (by omega)
    have hbpos : 0 < bpp := by rcases hct with ⟨_, hb⟩ | ⟨_, hb⟩ <;> omega
    have hedge : c * bpp = 0 ∨ bpp ≤ c * bpp := by
      rcases Nat.eq_zero_or_pos c with h0 | h0
      · left; rw [h0, Nat.zero_mul]
      · right; exact Nat.le_mul_of_pos_left bpp h0
    obtain ⟨fp1, img1, hstep, hlen1, hB1, hQ1⟩ := rgbLoop_pixel hdr data bpp S h r (c * bpp)
      (fuel + d) fv fp img hct hn hlt hr hcbS hedge hlen hB hQ hfv hfv4
    have hsucc : (c + 1) * bpp = c * bpp + bpp := Nat.succ_mul c bpp
    obtain ⟨fp', img', hrest, hlen', hB', hQ'⟩ := ih (c + 1) (by omega) fuel fp1 img1
      (by rw [hlen1, hsucc]) hB1 hQ1
    refine ⟨fp', img', ?_, hlen', hB', hQ'⟩
    rw [show fuel + (d + 1) = fuel + d + 1 from rfl, hstep, ← hsucc, hrest]

/-- The iteration that reads the filter-type byte of scanline `r`. -/
theorem rgbLoop_filter_byte (hdr : IHDR) (data : List Nat) (bpp S h r fuel fv : Nat) (fp : RGB)
    (img : List Nat) (hS0 : 0 < S)
    (hn : data.length = h * (S + 1)) (hlt : data.length < 2147483648) (hr : r < h) :
    rgbLoop hdr data bpp S (fuel + 1) (r * (S + 1)) (r * S) fv fp img =
      rgbLoop hdr data bpp S fuel (r * (S + 1) + 1) (r * S) (data.getD (r * (S + 1)) 0) fp img := by
  have e3 : r * (S + 1) + (S + 1) ≤ h * (S + 1) := by
    have := Nat.mul_le_mul_right (S + 1) (show r + 1 ≤ h from hr)
    rwa [Nat.succ_mul] at this
  have hcond : ((r * (S + 1) : Nat) : Int) < toInt32 data.length := by
    rw [toInt32_small _ hlt]
    have : r * (S + 1) < data.length := by omega
    exact_mod_cast this
  have hS0' : ¬ S = 0 := by omega
  have hu : u32 (S + 1) = S + 1 := u32_small _ (by omega)
  have hi : (r * (S + 1)) % (S + 1) = 0 := Nat.mul_mod_left _ _
  rw [rgbLoop]
  simp only [hcond, if_true, hS0', if_false, hu, hi, Nat.succ_ne_zero,
    atIdx_lt data (r * (S + 1)) (by omega)]

theorem rgbLoop_done (hdr : IHDR) (data : List Nat) (bpp S fuel i cur fv : Nat) (fp : RGB)
    (img : List Nat) (h : ¬ ((i : Int) < toInt32 data.length)) :
    rgbLoop hdr data bpp S fuel i cur fv fp img = .ok img := by
  cases fuel with
  | zero => rw [rgbLoop, if_neg h]
  | succ n => rw [rgbLoop, if_neg h]

/-- The scanlines from `r` on. -/
theorem rgbLoop_rows (hdr : IHDR) (data : List Nat) (bpp S w h : Nat)
    (hct : (hdr.colorType = 2 ∧ bpp = 3) ∨ (hdr.colorType = 6 ∧ bpp = 4))
    (hS : S = w * bpp) (hw : 0 < w)
    (hn : data.length = h * (S + 1)) (hlt : data.length < 2147483648)
    (hft : ∀ r, r < h → data.getD (r * (S + 1)) 0 ≤ 4) :
    ∀ (e r : Nat), r + e = h → ∀ (fuel fv : Nat) (fp : RGB) (img : List Nat),
      img.length = r * S → (∀ x ∈ img, x < 256) → Reconstructed data img bpp S →
      ∃ out, rgbLoop hdr data bpp S (fuel + e * (w + 1)) (r * (S + 1)) (r * S) fv fp img
          = .ok out ∧
        out.length = h * S ∧ (∀ x ∈ out, x < 256) ∧ Reconstructed data out bpp S := by
  have hbpos : 0 < bpp := by rcases hct with ⟨_, hb⟩ | ⟨_, hb⟩ <;> omega
  have hS0 : 0 < S := by rw [hS]; exact Nat.mul_pos hw hbpos
  intro e
  induction e with
  | zero =>
    intro r hr fuel fv fp img hlen hB hQ
    have hrh : r = h := by omega
    subst hrh
    refine ⟨img, ?_, hlen, hB, hQ⟩
    apply rgbLoop_done
    rw [toInt32_small _ hlt, hn]
    exact lt_irrefl _
  | succ e ih =>
    intro r hr fuel fv fp img hlen hB hQ
    have hrh : r < h := by omega
    have hf := rgbLoop_filter_byte hdr data bpp S h r (fuel + e * (w + 1) + w) fv fp img hS0 hn
      hlt hrh
    obtain ⟨fp', img', hrow, hlen', hB', hQ'⟩ := rgbLoop_row_rest hdr data bpp S w h r
      (data.getD (r * (S + 1)) 0) hct hS hn hlt hrh rfl (hft r hrh) w 0 (by omega)
      (fuel + e * (w + 1)) fp img (by rw [hlen]; simp) hB hQ
    obtain ⟨out, hout, hlo, hBo, hQo⟩ := ih (r + 1) (by omega) fuel
      (data.getD (r * (S + 1)) 0) fp' img' hlen' hB' hQ'
    refine ⟨out, ?_, hlo, hBo, hQo⟩
    rw [show fuel + (e + 1) * (w + 1) = fuel + e * (w + 1) + w + 1 by
      rw [Nat.succ_mul]; omega]
    rw [hf]
    simp only [Nat.zero_mul, Nat.add_zero] at hrow
    rw [hrow, hout]

theorem bytesPerPixel_cases (hdr : IHDR) (hct : hdr.colorType = 2 ∨ hdr.colorType = 6) :
    (hdr.colorType = 2 ∧ bytesPerPixel hdr = 3) ∨ (hdr.colorType = 6 ∧ bytesPerPixel hdr = 4) := by
  unfold bytesPerPixel
  rcases hct with h | h
  · left; simp [h]
  · right; simp [h]

/-- On a stream of `height` scanlines of `1 + width * bpp` bytes, shorter than `2^31` bytes and
with filter types 0..4, `rgbBitDepth8` started on an empty buffer returns `width * height * bpp`
bytes, each obeying the reconstruction rule. -/
theorem rgbBitDepth8_reconstructs (hdr : IHDR) (data : List Nat)
    (hct : hdr.colorType = 2 ∨ hdr.colorType = 6) (hw : 0 < hdr.width) (hh : 0 < hdr.height)
    (hn : data.length = hdr.height * (1 + hdr.width * bytesPerPixel hdr))
    (hlt : data.length < 2147483648)
    (hft : ∀ r, r < hdr.height →
      data.getD (r * (1 + hdr.width * bytesPerPixel hdr)) 0 ≤ 4) :
    ∃ out, rgbBitDepth8 hdr [] data = .ok out ∧
      out.length = hdr.width * hdr.height * bytesPerPixel hdr ∧ (∀ x ∈ out, x < 256) ∧
      Reconstructed data out (bytesPerPixel hdr) (hdr.width * bytesPerPixel hdr) := by
  have hcases := bytesPerPixel_cases hdr hct
  have hn' : data.length = hdr.height * (hdr.width * bytesPerPixel hdr + 1) := by
    rw [hn, Nat.add_comm]
  have hft' : ∀ r, r < hdr.height →
      data.getD (r * (hdr.width * bytesPerPixel hdr + 1)) 0 ≤ 4 := by
    intro r hr
    have := hft r hr
    rwa [Nat.add_comm 1] at this
  have hS1 : hdr.width * bytesPerPixel hdr + 1 ≤ data.length := by
    rw [hn']
    exact Nat.le_mul_of_pos_left _ hh
  have hbpp : (if hdr.colorType = RGBTRIP then RGBSIZE else RGBASIZE) = bytesPerPixel hdr := rfl
  have hwS : hdr.width ≤ hdr.width * bytesPerPixel hdr :=
    Nat.le_mul_of_pos_right _ (by rcases hcases with ⟨_, hb⟩ | ⟨_, hb⟩ <;> omega)
  have hfuel : hdr.height * (hdr.width + 1) ≤ data.length := by
    rw [hn']
    exact Nat.mul_le_mul_left _ (by omega)
  obtain ⟨out, hout, hlen, hB, hQ⟩ := rgbLoop_rows hdr data (bytesPerPixel hdr)
    (hdr.width * bytesPerPixel hdr) hdr.width hdr.height hcases rfl hw hn' hlt hft'
    hdr.height 0 (by omega) (data.length - hdr.height * (hdr.width + 1)) 0
    { Red := 0, Green := 0, Blue := 0, Alpha := 0 } [] (by simp) (by simp)
    (by intro j hj; simp at hj)
  refine ⟨out, ?_, ?_, hB, hQ⟩
  · unfold rgbBitDepth8
    simp only [hbpp]
    rw [u32_small _ (by omega)]
    rw [show data.length - hdr.height * (hdr.width + 1) + hdr.height * (hdr.width + 1)
      = data.length by omega] at hout
    simpa using hout
  · rw [hlen, Nat.mul_comm hdr.height, Nat.mul_assoc, Nat.mul_assoc,
      Nat.mul_comm hdr.height]

/-! ### The reconstruction engine: fuel -/

theorem bind_noFuel {α β : Type} (m : Except Stuck α) (f : α → Except Stuck β)
    (hm : m ≠ .error .outOfFuel) (hf : ∀ a, f a ≠ .error .outOfFuel) :
    (m >>= f) ≠ .error .outOfFuel := by
  cases m with
  | error e =>
    cases e with
    | undefinedBehaviour => simp [bind, Except.bind]
    | outOfFuel => exact absurd rfl hm
  | ok a => exact hf a

theorem pure_noFuel {α : Type} (a : α) : (pure a : Except Stuck α) ≠ .error .outOfFuel := by
  simp [pure, Except.pure]

theorem atIdx_noFuel (v : List Nat) (n : Nat) : atIdx v n ≠ .error .outOfFuel := by
  unfold atIdx
  split <;> simp

theorem atInt_noFuel (v : List Nat) (n : Nat) : atInt v n ≠ .error .outOfFuel := by
  unfold atInt
  split_ifs
  · exact atIdx_noFuel v n
  · simp

theorem leftByte_noFuel (img : List Nat) (a b c d : Nat) :
    leftByte img a b c d ≠ .error .outOfFuel := by
  unfold leftByte
  split_ifs
  · exact atIdx_noFuel _ _
  · simp

theorem upByte_noFuel (img : List Nat) (u : Int) (k : Nat) :
    upByte img u k ≠ .error .outOfFuel := by
  unfold upByte
  split_ifs
  · exact atInt_noFuel _ _
  · simp

theorem upLeftByte_noFuel (img : List Nat) (a b : Nat) (u : Int) (k : Nat) :
    upLeftByte img a b u k ≠ .error .outOfFuel := by
  unfold upLeftByte
  split_ifs
  · exact atIdx_noFuel _ _
  · simp

theorem ite_noFuel {α : Type} (c : Prop) [Decidable c] (x y : Except Stuck α)
    (hx : x ≠ .error .outOfFuel) (hy : y ≠ .error .outOfFuel) :
    (if c then x else y) ≠ .error .outOfFuel := by
  split_ifs
  · exact hx
  · exact hy

theorem paethRGBBitDepth8_noFuel (hdr : IHDR) (img : List Nat) (a b c : Nat) :
    paethRGBBitDepth8 hdr img a b c ≠ .error .outOfFuel := by
  unfold paethRGBBitDepth8
  refine ite_noFuel _ _ _ (by simp) ?_
  repeat (first
    | exact pure_noFuel _
    | exact leftByte_noFuel _ _ _ _ _
    | exact upByte_noFuel _ _ _
    | exact upLeftByte_noFuel _ _ _ _ _
    | refine ite_noFuel _ _ _ ?_ ?_
    | refine bind_noFuel _ _ ?_ (fun _ => ?_))

theorem filterSwitch_noFuel (hdr : IHDR) (img : List Nat) (a b c d : Nat) (u : Int) (fv : Nat)
    (fp : RGB) : filterSwitch hdr img a b c d u fv fp ≠ .error .outOfFuel := by
  unfold filterSwitch
  repeat (first
    | exact pure_noFuel _
    | exact paethRGBBitDepth8_noFuel _ _ _ _ _
    | exact leftByte_noFuel _ _ _ _ _
    | exact upByte_noFuel _ _ _
    | refine ite_noFuel _ _ _ ?_ ?_
    | refine bind_noFuel _ _ ?_ (fun _ => ?_))

theorem pushPixel_noFuel (hdr : IHDR) (data : List Nat) (i : Nat) (fp : RGB) (img : List Nat) :
    pushPixel hdr data i fp img ≠ .error .outOfFuel := by
  unfold pushPixel
  repeat (first
    | exact pure_noFuel _
    | exact atInt_noFuel _ _
    | refine ite_noFuel _ _ _ ?_ ?_
    | refine bind_noFuel _ _ ?_ (fun _ => ?_))

/-- The fuel of `rgbLoop` never runs out when it covers the bytes of the stream that are
left: every iteration advances `i`. -/
theorem rgbLoop_fuel (hdr : IHDR) (data : List Nat) (rgbSize S : Nat) (hpos : 0 < rgbSize) :
    ∀ (fuel i cur fv : Nat) (fp : RGB) (img : List Nat),
      toInt32 data.length ≤ (i : Int) + (fuel : Int) →
      rgbLoop hdr data rgbSize S fuel i cur fv fp img ≠ .error .outOfFuel := by
  intro fuel
  induction fuel with
  | zero =>
    intro i cur fv fp img h
    rw [rgbLoop, if_neg (by push_cast at h; omega)]
    simp
  | succ fuel ih =>
    intro i cur fv fp img h
    rw [rgbLoop]
    refine ite_noFuel _ _ _ ?_ (by simp)
    refine ite_noFuel _ _ _ (by simp) ?_
    refine ite_noFuel _ _ _ (by simp) ?_
    refine ite_noFuel _ _ _ ?_ ?_
    · cases hd : atIdx data i with
      | error e =>
        have := atIdx_noFuel data i
        rw [hd] at this
        dsimp only
        intro he
        exact this (by cases he; rfl)
      | ok b =>
        dsimp only
        exact ih _ _ _ _ _ (by push_cast at h ⊢; omega)
    · cases hs : filterSwitch hdr img S rgbSize cur (cur % S) (toInt32 (u32sub cur S)) fv fp with
      | error e =>
        have := filterSwitch_noFuel hdr img S rgbSize cur (cur % S) (toInt32 (u32sub cur S)) fv fp
        rw [hs] at this
        dsimp only
        intro he
        exact this (by cases he; rfl)
      | ok fp' =>
        dsimp only
        cases hp : pushPixel hdr data i fp' img with
        | error e =>
          have := pushPixel_noFuel hdr data i fp' img
          rw [hp] at this
          dsimp only
          exact this
        | ok img' =>
          dsimp only
          refine ite_noFuel _ _ _ ?_ (by simp)
          exact ih _ _ _ _ _ (by push_cast at h ⊢; omega)

/-- The embedding of `rgbBitDepth8` never stops for lack of fuel. -/
theorem rgbBitDepth8_fuel (hdr : IHDR) (img data : List Nat) :
    rgbBitDepth8 hdr img data ≠ .error .outOfFuel := by
  unfold rgbBitDepth8
  apply rgbLoop_fuel
  · split_ifs <;> decide
  · unfold toInt32 u32
    split_ifs <;> omega

/-- When `(int) crRgbData.size()` is not positive the loop body never runs. -/
theorem rgbBitDepth8_int_size (hdr : IHDR) (img data : List Nat)
    (h : ¬ ((0 : Int) < toInt32 data.length)) : rgbBitDepth8 hdr img data = .ok img := by
  unfold rgbBitDepth8
  exact rgbLoop_done hdr data _ _ _ 0 0 0 _ img (by simpa using h)

theorem toInt32_2147483648 : toInt32 2147483648 = -2147483648 := by
  unfold toInt32 u32
  norm_num

theorem toInt32_2147483650 : toInt32 2147483650 = -2147483646 := by
  unfold toInt32 u32
  norm_num

/-! ### The reconstruction engine: filter type None -/

theorem stripFilterBytes_length (S : Nat) : ∀ (rows : Nat) (stream : List Nat),
    stream.length = rows * (S + 1) → (stripFilterBytes S rows stream).length = rows * S := by
  intro rows
  induction rows with
  | zero => intro stream _; simp [stripFilterBytes]
  | succ rows ih =>
    intro stream hlen
    rw [Nat.succ_mul] at hlen
    simp only [stripFilterBytes, List.length_append, List.length_take, List.length_drop]
    rw [ih (stream.drop (S + 1)) (by simp [hlen]), Nat.succ_mul]
    omega

theorem stripFilterBytes_getD (S : Nat) (hS : 0 < S) : ∀ (rows : Nat) (stream : List Nat) (j : Nat),
    stream.length = rows * (S + 1) → j < rows * S →
    (stripFilterBytes S rows stream).getD j 0 = stream.getD (j / S * (S + 1) + 1 + j % S) 0 := by
  intro rows
  induction rows with
  | zero => intro stream j _ hj; simp at hj
  | succ rows ih =>
    intro stream j hlen hj
    rw [Nat.succ_mul] at hlen hj
    simp only [stripFilterBytes]
    have htl : ((stream.drop 1).take S).length = S := by
      simp only [List.length_take, List.length_drop]; omega
    by_cases hjS : j < S
    · rw [getD_append_lt _ _ j (by omega)]
      rw [Nat.div_eq_of_lt hjS, Nat.mod_eq_of_lt hjS]
      simp only [List.getD_eq_getElem?_getD, Nat.zero_mul, Nat.zero_add]
      rw [List.getElem?_take_of_lt hjS, List.getElem?_drop]
    · obtain ⟨k, rfl⟩ : ∃ k, j = S + k := ⟨j - S, by omega⟩
      have h1 : (S + k) / S = k / S + 1 := by
        rw [Nat.add_comm, Nat.add_div_right _ hS]
      have h2 : (S + k) % S = k % S := by
        rw [Nat.add_comm, Nat.add_mod_right]
      rw [show S + k = ((stream.drop 1).take S).length + k by omega, getD_append_right_nat]
      rw [ih (stream.drop (S + 1)) k (by simp [hlen]) (by omega)]
      rw [htl, h1, h2]
      simp only [List.getD_eq_getElem?_getD, List.getElem?_drop]
      congr 2
      rw [Nat.succ_mul]
      omega

theorem predictorOf_zero (out : List Nat) (bpp S j : Nat) : predictorOf 0 out bpp S j = 0 := by
  simp [predictorOf]

/-- With filter type None on every scanline the reconstruction is the stream without its
filter-type bytes. -/
theorem rgbBitDepth8_none (hdr : IHDR) (data : List Nat)
    (hct : hdr.colorType = 2 ∨ hdr.colorType = 6) (hw : 0 < hdr.width) (hh : 0 < hdr.height)
    (hn : data.length = hdr.height * (1 + hdr.width * bytesPerPixel hdr))
    (hlt : data.length < 2147483648) (hb : Bytes data)
    (hft : ∀ r, r < hdr.height →
      data.getD (r * (1 + hdr.width * bytesPerPixel hdr)) 0 = 0) :
    rgbBitDepth8 hdr [] data =
      .ok (stripFilterBytes (hdr.width * bytesPerPixel hdr) hdr.height data) := by
  obtain ⟨out, hout, hlen, hB, hQ⟩ := rgbBitDepth8_reconstructs hdr data hct hw hh hn hlt
    (fun r hr => by rw [hft r hr]; decide)
  rw [hout]
  congr 1
  have hbpos : 0 < bytesPerPixel hdr := by
    rcases bytesPerPixel_cases hdr hct with ⟨_, hb⟩ | ⟨_, hb⟩ <;> omega
  have hS0 : 0 < hdr.width * bytesPerPixel hdr := Nat.mul_pos hw hbpos
  have hn' : data.length = hdr.height * (hdr.width * bytesPerPixel hdr + 1) := by
    rw [hn, Nat.add_comm]
  have hlen' : out.length = hdr.height * (hdr.width * bytesPerPixel hdr) := by
    rw [hlen, Nat.mul_comm hdr.width hdr.height, Nat.mul_assoc]
  have hslen := stripFilterBytes_length (hdr.width * bytesPerPixel hdr) hdr.height data hn'
  apply List.ext_getElem (by rw [hlen', hslen])
  intro j h1 h2
  have hj : j < hdr.height * (hdr.width * bytesPerPixel hdr) := by omega
  have e1 := hQ j h1
  have e2 := stripFilterBytes_getD (hdr.width * bytesPerPixel hdr) hS0 hdr.height data j hn' hj
  rw [List.getD_eq_getElem _ 0 h2] at e2
  unfold ReconstructedAt at e1
  rw [List.getD_eq_getElem _ 0 h1] at e1
  have hrow : j / (hdr.width * bytesPerPixel hdr) < hdr.height :=
    Nat.div_lt_of_lt_mul (by rw [Nat.mul_comm]; exact hj)
  have hft0 : filterTypeOf data (hdr.width * bytesPerPixel hdr) j = 0 := by
    unfold filterTypeOf
    have := hft _ hrow
    rwa [Nat.add_comm 1] at this
  rw [hft0, predictorOf_zero, Nat.add_zero] at e1
  rw [e1, e2]
  unfold filteredByte
  exact Nat.mod_eq_of_lt (getD_lt_256 data _ hb)

/-! ### The chunk loop: fuel -/

theorem IStream.read_left_le (f : IStream) (d : List Nat) (n : Nat) :
    (f.read d n).2.left ≤ f.left := by
  unfold IStream.read IStream.left
  split_ifs <;> simp_all

theorem IStream.read_left_lt (f : IStream) (d : List Nat) (n : Nat) (hn : 0 < n)
    (hg : f.good = true) : (f.read d n).2.left < f.left := by
  unfold IStream.read IStream.left
  split_ifs <;> simp_all
  omega

theorem readChunkHeader_left (s : ReadState) (hg : s.self.mPngFile.good = true) :
    (readChunkHeader s).self.mPngFile.left < s.self.mPngFile.left := by
  simp only [readChunkHeader]
  exact lt_of_le_of_lt (IStream.read_left_le _ _ _)
    (IStream.read_left_lt _ _ 4 (by decide) hg)

theorem handlePngColorType_returned (self p : Png) (d : List Nat)
    (h : handlePngColorType self d = .returned p) :
    p.mPngFile = self.mPngFile ∧ p.mIhdr = self.mIhdr := by
  unfold handlePngColorType at h
  split_ifs at h
  split at h <;> simp at h
  rw [← h]
  exact ⟨rfl, rfl⟩

theorem handlePngColorType_fuel (self : Png) (d : List Nat) :
    handlePngColorType self d ≠ .outOfFuel := by
  unfold handlePngColorType
  split_ifs
  · split
    · simp
    · simp
    · rename_i h
      exact absurd h (rgbBitDepth8_fuel _ _ _)
  · simp
  · simp

theorem flushIdat_fuel (inflate : Inflate) (s : ReadState) :
    flushIdat inflate s ≠ .outOfFuel := by
  unfold flushIdat
  split_ifs
  · split
    · simp
    · rename_i out _
      cases hc : handlePngColorType s.self (s.decompressedData ++ out) with
      | returned p => simp [hc, liftSelf, Outcome.andThen]
      | exited e p => simp [hc, liftSelf, Outcome.andThen]
      | undefinedBehaviour => simp [hc, liftSelf, Outcome.andThen]
      | outOfFuel => exact absurd hc (handlePngColorType_fuel _ _)
  · simp

theorem flushIdat_file (inflate : Inflate) (s s' : ReadState)
    (h : flushIdat inflate s = .returned s') : s'.self.mPngFile = s.self.mPngFile := by
  unfold flushIdat at h
  split_ifs at h
  · split at h
    · simp at h
    · rename_i out _
      cases hc : handlePngColorType s.self (s.decompressedData ++ out) with
      | returned p =>
        simp only [hc, liftSelf, Outcome.andThen, Outcome.returned.injEq] at h
        rw [← h]
        exact (handlePngColorType_returned _ _ _ hc).1
      | exited e p => simp [hc, liftSelf, Outcome.andThen] at h
      | undefinedBehaviour => simp [hc, liftSelf, Outcome.andThen] at h
      | outOfFuel => simp [hc, liftSelf, Outcome.andThen] at h
  · simp at h
    rw [h]

theorem parseIHDR_fuel (self : Png) (n : Nat) : parseIHDR self n ≠ .outOfFuel := by
  unfold parseIHDR
  split
  · simp
  · dsimp only
    split <;> simp

theorem parseIHDR_left (self p : Png) (n : Nat) (h : parseIHDR self n = .returned p) :
    p.mPngFile.left ≤ self.mPngFile.left := by
  unfold parseIHDR at h
  split at h
  · simp at h
  · dsimp only at h
    split at h
    · simp at h
    · simp only [Outcome.returned.injEq] at h
      rw [← h]
      exact IStream.read_left_le _ _ _

theorem dispatchChunk_fuel (s : ReadState) : dispatchChunk s ≠ .outOfFuel := by
  unfold dispatchChunk
  split_ifs
  · simp
  · cases hc : parseIHDR s.self s.chunkLength with
    | returned p => simp [liftSelf, hc]
    | exited e p => simp [liftSelf, hc]
    | undefinedBehaviour => simp [liftSelf, hc]
    | outOfFuel => exact absurd hc (parseIHDR_fuel _ _)
  · simp
  · simp
  · simp
  · simp

theorem dispatchChunk_left (s s' : ReadState) (h : dispatchChunk s = .returned s') :
    s'.self.mPngFile.left ≤ s.self.mPngFile.left := by
  unfold dispatchChunk at h
  split_ifs at h
  · cases hc : parseIHDR s.self s.chunkLength with
    | returned p =>
      simp only [hc, liftSelf, Outcome.returned.injEq] at h
      rw [← h]
      exact parseIHDR_left _ _ _ hc
    | exited e p => simp [hc, liftSelf] at h
    | undefinedBehaviour => simp [hc, liftSelf] at h
    | outOfFuel => simp [hc, liftSelf] at h
  · simp only [Outcome.returned.injEq] at h
    rw [← h]
    split_ifs <;> exact IStream.read_left_le _ _ _
  · simp only [Outcome.returned.injEq] at h
    rw [← h]
    exact IStream.read_left_le _ _ _
  · simp only [Outcome.returned.injEq] at h
    rw [← h]
    exact IStream.read_left_le _ _ _

theorem readCrc_left (s : ReadState) :
    (readCrc s).self.mPngFile.left ≤ s.self.mPngFile.left :=
  IStream.read_left_le _ _ _

/-- An iteration of the loop never runs out of fuel, and when it returns fewer iterations
can still start than before. -/
theorem readChunk_left (inflate : Inflate) (s : ReadState)
    (hg : s.self.mPngFile.good = true) :
    readChunk inflate s ≠ .outOfFuel ∧
    ∀ s', readChunk inflate s = .returned s' →
      s'.self.mPngFile.left < s.self.mPngFile.left := by
  have h0 := readChunkHeader_left s hg
  unfold readChunk processChunk
  cases h1 : flushIdat inflate (readChunkHeader s) with
  | returned s1 =>
    have hf := flushIdat_file inflate _ _ h1
    cases h2 : dispatchChunk s1 with
    | returned s2 =>
      have hd := dispatchChunk_left _ _ h2
      have hc := readCrc_left s2
      refine ⟨by simp [Outcome.andThen, h2], fun s' hs' => ?_⟩
      simp only [Outcome.andThen, h2, Outcome.returned.injEq] at hs'
      rw [← hs']
      rw [hf] at hd
      omega
    | exited e s2 => simp [Outcome.andThen, h2]
    | undefinedBehaviour => simp [Outcome.andThen, h2]
    | outOfFuel => exact absurd h2 (dispatchChunk_fuel _)
  | exited e s1 => simp [Outcome.andThen]
  | undefinedBehaviour => simp [Outcome.andThen]
  | outOfFuel => exact absurd h1 (flushIdat_fuel _ _)

/-- The loop of `readPng` never runs out of fuel when the fuel exceeds the number of
iterations that can still start. -/
theorem readLoop_fuel (inflate : Inflate) :
    ∀ (fuel : Nat) (s : ReadState), s.self.mPngFile.left < fuel →
      readLoop inflate fuel s ≠ .outOfFuel := by
  intro fuel
  induction fuel with
  | zero => intro s h; omega
  | succ fuel ih =>
    intro s h
    rw [readLoop]
    split_ifs with hc
    · obtain ⟨hne, hlt⟩ := readChunk_left inflate s hc.2
      cases hr : readChunk inflate s with
      | returned s' =>
        simp only [Outcome.andThen]
        exact ih s' (by have := hlt s' hr; omega)
      | exited e s' => simp [Outcome.andThen]
      | undefinedBehaviour => simp [Outcome.andThen]
      | outOfFuel => exact absurd hr hne
    · simp

/-- The embedding of `readPng` never stops for lack of fuel. -/
theorem readPng_fuel (inflate : Inflate) (chunkLength0 : Nat) (self : Png) :
    readPng inflate chunkLength0 self ≠ .outOfFuel := by
  unfold readPng
  dsimp only
  split_ifs with h1 h2
  · simp
  · simp
  · have hg : self.mPngFile.good = true := by simpa using h1
    have hlt := IStream.read_left_lt self.mPngFile (List.replicate pngSignature.length 0) 8
      (by decide) hg
    have hleft : self.mPngFile.left = self.mPngFile.bytes.length + 1 := by
      simp [IStream.left, hg]
    have := readLoop_fuel inflate (self.mPngFile.bytes.length + 1)
      { self := { self with mPngFile :=
          (self.mPngFile.read (List.replicate pngSignature.length 0) 8).2 },
        decompressedData := [], validPngMask := 0, chunkLength := chunkLength0,
        chunkType := [0, 0, 0, 0, 0], idatBuffer := [], inflateCalls := [] }
      (by rw [← hleft]; exact hlt)
    revert this
    cases readLoop inflate (self.mPngFile.bytes.length + 1)
      { self := { self with mPngFile :=
          (self.mPngFile.read (List.replicate pngSignature.length 0) 8).2 },
        decompressedData := [], validPngMask := 0, chunkLength := chunkLength0,
        chunkType := [0, 0, 0, 0, 0], idatBuffer := [], inflateCalls := [] } with
    | returned s =>
      intro _
      simp only [Outcome.andThen, markIEND]
      split_ifs <;> simp
    | exited e s => intro _; simp [Outcome.andThen]
    | undefinedBehaviour => intro _; simp [Outcome.andThen]
    | outOfFuel => intro h; exact absurd rfl h

/-- The `switch` reads only inside the buffer, whatever the filter-type byte is; a byte above 4
takes the `default` branch, which keeps `filterPix`. -/
theorem filterSwitch_ok (hdr : IHDR) (img : List Nat) (bpp S cur cb fv : Nat) (fp : RGB)
    (P : AtPixel img bpp S cur cb)
    (hct : (hdr.colorType = 2 ∧ bpp = 3) ∨ (hdr.colorType = 6 ∧ bpp = 4)) :
    ∃ fp1, filterSwitch hdr img S bpp cur cb (toInt32 (u32sub cur S)) fv fp = .ok fp1 ∧
      (4 < fv → fp1 = fp) := by
  by_cases hfv : fv ≤ 4
  · obtain ⟨a, hsw, _⟩ := filterSwitch_eq hdr img bpp S cur cb fv fp P hct hfv
    exact ⟨_, hsw, fun h => absurd h (by omega)⟩
  · refine ⟨fp, ?_, fun _ => rfl⟩
    unfold filterSwitch
    rw [if_neg (by unfold NONE; omega), if_neg (by unfold SUB; omega),
      if_neg (by unfold UP; omega), if_neg (by unfold AVERAGE; omega),
      if_neg (by unfold PAETH; omega)]
    rfl

/-- One iteration of the loop on a pixel, for an arbitrary filter-type byte: every read is in
bounds and one pixel is appended. -/
theorem rgbLoop_pixel_any (hdr : IHDR) (data : List Nat) (bpp S h r cb fuel fv : Nat) (fp : RGB)
    (img : List Nat)
    (hct : (hdr.colorType = 2 ∧ bpp = 3) ∨ (hdr.colorType = 6 ∧ bpp = 4))
    (hn : data.length = h * (S + 1)) (hlt : data.length < 2147483648) (hr : r < h)
    (hcbS : cb + bpp ≤ S) (hedge : cb = 0 ∨ bpp ≤ cb)
    (hlen : img.length = r * S + cb) (hB : ∀ x ∈ img, x < 256) :
    ∃ fp1 img1,
      rgbLoop hdr data bpp S (fuel + 1) (r * (S + 1) + 1 + cb) (r * S + cb) fv fp img =
        rgbLoop hdr data bpp S fuel (r * (S + 1) + 1 + (cb + bpp)) (r * S + (cb + bpp)) fv
          fp1 img1 ∧
      img1.length = r * S + (cb + bpp) ∧ (∀ x ∈ img1, x < 256) ∧ (4 < fv → fp1 = fp) ∧
      img1 = img ++ ([(data.getD (r * (S + 1) + 1 + cb) 0 + fp1.Red) % 256,
        (data.getD (r * (S + 1) + 1 + cb + 1) 0 + fp1.Green) % 256,
        (data.getD (r * (S + 1) + 1 + cb + 2) 0 + fp1.Blue) % 256] ++
       (if hdr.colorType = 6 then [(data.getD (r * (S + 1) + 1 + cb + 3) 0 + fp1.Alpha) % 256]
        else [])) := by
  have hb3 : 3 ≤ bpp := by rcases hct with ⟨_, hb⟩ | ⟨_, hb⟩ <;> omega
  have hb4 : bpp ≤ 4 := by rcases hct with ⟨_, hb⟩ | ⟨_, hb⟩ <;> omega
  have e1 : r * (S + 1) = r * S + r := Nat.mul_succ r S
  have e2 : h * (S + 1) = h * S + h := Nat.mul_succ h S
  have e3 : r * S + S ≤ h * S := by
    have := Nat.mul_le_mul_right S (show r + 1 ≤ h from hr)
    rwa [Nat.succ_mul] at this
  have hrow : r * S + cb = cb ∨ cb + S ≤ r * S + cb := by
    rcases Nat.eq_zero_or_pos r with h0 | h0
    · left; rw [h0]; simp
    · right
      have := Nat.le_mul_of_pos_left S h0
      omega
  have hmod : (r * S + cb) % S = cb := row_mod r S cb (by omega)
  have P : AtPixel img bpp S (r * S + cb) cb :=
    ⟨hlen, by omega, by omega, hb3, hb4, hcbS, hedge, hmod, hrow, hB⟩
  obtain ⟨fp1, hsw, hkeep⟩ := filterSwitch_ok hdr img bpp S (r * S + cb) cb fv fp P hct
  have hpush := pushPixel_eq hdr data (r * (S + 1) + 1 + cb) bpp fp1 img hct (by omega) hlt
  have hcond : ((r * (S + 1) + 1 + cb : Nat) : Int) < toInt32 data.length := by
    rw [toInt32_small _ hlt]
    have : r * (S + 1) + 1 + cb < data.length := by omega
    exact_mod_cast this
  have hS0 : ¬ S = 0 := by omega
  have hu : u32 (S + 1) = S + 1 := u32_small _ (by omega)
  have hi : (r * (S + 1) + 1 + cb) % (S + 1) = 1 + cb := by
    rw [Nat.add_assoc, row_mod r (S + 1) (1 + cb) (by omega)]
  have hu2 : u32 (r * S + cb + bpp) = r * S + (cb + bpp) := by
    rw [u32_small _ (by omega)]; omega
  refine ⟨fp1, _, ?_, ?_, ?_, hkeep, rfl⟩
  · rw [rgbLoop]
    simp only [hcond, if_true, hS0, if_false, hu, hi, hmod, hsw, hpush,
      Nat.succ_ne_zero, hu2]
    rw [if_neg (by omega), if_pos (by omega)]
    rw [show r * (S + 1) + 1 + cb + bpp = r * (S + 1) + 1 + (cb + bpp) by omega]
  · rcases hct with ⟨h2, hb⟩ | ⟨h6, hb⟩
    · simp [h2, hlen, hb]
      omega
    · simp [h6, hlen, hb]
      omega
  · intro x hx
    rw [List.mem_append] at hx
    rcases hx with hx | hx
    · exact hB x hx
    · have h256 : ∀ y : Nat, y % 256 < 256 := fun y => Nat.mod_lt _ (by decide)
      simp only [List.mem_append, List.mem_cons, List.mem_singleton, List.not_mem_nil,
        or_false] at hx
      rcases hx with (hx | hx | hx) | hx
      · rw [hx]; exact h256 _
      · rw [hx]; exact h256 _
      · rw [hx]; exact h256 _
      · split_ifs at hx
        · simp only [List.mem_singleton] at hx
          rw [hx]; exact h256 _
        · simp at hx

/-- The rest of a scanline, from pixel `c` on, for an arbitrary filter-type byte. -/
theorem rgbLoop_row_rest_any (hdr : IHDR) (data : List Nat) (bpp S w h r fv : Nat)
    (hct : (hdr.colorType = 2 ∧ bpp = 3) ∨ (hdr.colorType = 6 ∧ bpp = 4))
    (hS : S = w * bpp)
    (hn : data.length = h * (S + 1)) (hlt : data.length < 2147483648) (hr : r < h) :
    ∀ (d c : Nat), c + d = w → ∀ (fuel : Nat) (fp : RGB) (img : List Nat),
      img.length = r * S + c * bpp → (∀ x ∈ img, x < 256) →
      ∃ fp' img',
        rgbLoop hdr data bpp S (fuel + d) (r * (S + 1) + 1 + c * bpp) (r * S + c * bpp) fv fp img
          = rgbLoop hdr data bpp S fuel ((r + 1) * (S + 1)) ((r + 1) * S) fv fp' img' ∧
        img'.length = (r + 1) * S ∧ (∀ x ∈ img', x < 256) := by
  intro d
  induction d with
  | zero =>
    intro c hc fuel fp img hlen hB
    have hcw : c = w := by omega
    subst hcw
    refine ⟨fp, img, ?_, ?_, hB⟩
    · rw [Nat.succ_mul r (S + 1), Nat.succ_mul r S, ← hS]
      rw [show r * (S + 1) + 1 + S = r * (S + 1) + (S + 1) by omega]
      rfl
    · rw [hlen, Nat.succ_mul r S, ← hS]
  | succ d ih =>
    intro c hc fuel fp img hlen hB
    have hcbS : c * bpp + bpp ≤ S := by
      rw [hS, ← Nat.succ_mul]
      exact Nat.mul_le_mul_right bpp (by omega)
    have hbpos : 0 < bpp := by rcases hct with ⟨_, hb⟩ | ⟨_, hb⟩ <;> omega
    have hedge : c * bpp = 0 ∨ bpp ≤ c * bpp := by
      rcases Nat.eq_zero_or_pos c with h0 | h0
      · left; rw [h0, Nat.zero_mul]
      · right; exact Nat.le_mul_of_pos_left bpp h0
    obtain ⟨fp1, img1, hstep, hlen1, hB1, _, _⟩ := rgbLoop_pixel_any hdr data bpp S h r (c * bpp)
      (fuel + d) fv fp img hct hn hlt hr hcbS hedge hlen hB
    have hsucc : (c + 1) * bpp = c * bpp + bpp := Nat.succ_mul c bpp
    obtain ⟨fp', img', hrest, hlen', hB'⟩ := ih (c + 1) (by omega) fuel fp1 img1
      (by rw [hlen1, hsucc]) hB1
    refine ⟨fp', img', ?_, hlen', hB'⟩
    rw [show fuel + (d + 1) = fuel + d + 1 from rfl, hstep, ← hsucc, hrest]

/-- The scanlines from `r` on, for arbitrary filter-type bytes. -/
theorem rgbLoop_rows_any (hdr : IHDR) (data : List Nat) (bpp S w h : Nat)
    (hct : (hdr.colorType = 2 ∧ bpp = 3) ∨ (hdr.colorType = 6 ∧ bpp = 4))
    (hS : S = w * bpp) (hw : 0 < w)
    (hn : data.length = h * (S + 1)) (hlt : data.length < 2147483648) :
    ∀ (e r : Nat), r + e = h → ∀ (fuel fv : Nat) (fp : RGB) (img : List Nat),
      img.length = r * S → (∀ x ∈ img, x < 256) →
      ∃ out, rgbLoop hdr data bpp S (fuel + e * (w + 1)) (r * (S + 1)) (r * S) fv fp img
          = .ok out ∧
        out.length = h * S ∧ (∀ x ∈ out, x < 256) := by
  have hbpos : 0 < bpp := by rcases hct with ⟨_, hb⟩ | ⟨_, hb⟩ <;> omega
  have hS0 : 0 < S := by rw [hS]; exact Nat.mul_pos hw hbpos
  intro e
  induction e with
  | zero =>
    intro r hr fuel fv fp img hlen hB
    have hrh : r = h := by omega
    subst hrh
    refine ⟨img, ?_, hlen, hB⟩
    apply rgbLoop_done
    rw [toInt32_small _ hlt, hn]
    exact lt_irrefl _
  | succ e ih =>
    intro r hr fuel fv fp img hlen hB
    have hrh : r < h := by omega
    have hf := rgbLoop_filter_byte hdr data bpp S h r (fuel + e * (w + 1) + w) fv fp img hS0 hn
      hlt hrh
    obtain ⟨fp', img', hrow, hlen', hB'⟩ := rgbLoop_row_rest_any hdr data bpp S w h r
      (data.getD (r * (S + 1)) 0) hct hS hn hlt hrh w 0 (by omega)
      (fuel + e * (w + 1)) fp img (by rw [hlen]; simp) hB
    obtain ⟨out, hout, hlo, hBo⟩ := ih (r + 1) (by omega) fuel
      (data.getD (r * (S + 1)) 0) fp' img' hlen' hB'
    refine ⟨out, ?_, hlo, hBo⟩
    rw [show fuel + (e + 1) * (w + 1) = fuel + e * (w + 1) + w + 1 by
      rw [Nat.succ_mul]; omega]
    rw [hf]
    simp only [Nat.zero_mul, Nat.add_zero] at hrow
    rw [hrow, hout]

/-- On a stream of `height` scanlines of `1 + width * bpp` bytes, shorter than `2^31` bytes,
`rgbBitDepth8` started on an empty buffer runs through, whatever the filter-type bytes are, and
returns `width * height * bpp` bytes. -/
theorem rgbBitDepth8_total (hdr : IHDR) (data : List Nat)
    (hct : hdr.colorType = 2 ∨ hdr.colorType = 6) (hw : 0 < hdr.width) (hh : 0 < hdr.height)
    (hn : data.length = hdr.height * (1 + hdr.width * bytesPerPixel hdr))
    (hlt : data.length < 2147483648) :
    ∃ out, rgbBitDepth8 hdr [] data = .ok out ∧
      out.length = hdr.width * hdr.height * bytesPerPixel hdr ∧ (∀ x ∈ out, x < 256) := by
  have hcases := bytesPerPixel_cases hdr hct
  have hn' : data.length = hdr.height * (hdr.width * bytesPerPixel hdr + 1) := by
    rw [hn, Nat.add_comm]
  have hS1 : hdr.width * bytesPerPixel hdr + 1 ≤ data.length := by
    rw [hn']
    exact Nat.le_mul_of_pos_left _ hh
  have hbpp : (if hdr.colorType = RGBTRIP then RGBSIZE else RGBASIZE) = bytesPerPixel hdr := rfl
  have hwS : hdr.width ≤ hdr.width * bytesPerPixel hdr :=
    Nat.le_mul_of_pos_right _ (by rcases hcases with ⟨_, hb⟩ | ⟨_, hb⟩ <;> omega)
  have hfuel : hdr.height * (hdr.width + 1) ≤ data.length := by
    rw [hn']
    exact Nat.mul_le_mul_left _ (by omega)
  obtain ⟨out, hout, hlen, hB⟩ := rgbLoop_rows_any hdr data (bytesPerPixel hdr)
    (hdr.width * bytesPerPixel hdr) hdr.width hdr.height hcases rfl hw hn' hlt
    hdr.height 0 (by omega) (data.length - hdr.height * (hdr.width + 1)) 0
    { Red := 0, Green := 0, Blue := 0, Alpha := 0 } [] (by simp) (by simp)
  refine ⟨out, ?_, ?_, hB⟩
  · unfold rgbBitDepth8
    simp only [hbpp]
    rw [u32_small _ (by omega)]
    rw [show data.length - hdr.height * (hdr.width + 1) + hdr.height * (hdr.width + 1)
      = data.length by omega] at hout
    simpa using hout
  · rw [hlen, Nat.mul_comm hdr.height, Nat.mul_assoc, Nat.mul_assoc,
      Nat.mul_comm hdr.height]


/-! ### The reconstruction engine: edges -/

theorem calcPaethByte_left (a : Nat) (ha : a < 256) : calcPaethByte a 0 0 = a := by
  rw [calcPaethByte_eq_reference a 0 0 ha (by decide) (by decide)]
  simp only [paethReference]
  split_ifs with h1 h2
  · rfl
  · exfalso; apply h1; constructor <;> omega
  · exfalso; apply h1; constructor <;> omega

theorem calcPaethByte_up (b : Nat) (hb : b < 256) : calcPaethByte 0 b 0 = b := by
  rw [calcPaethByte_eq_reference 0 b 0 (by decide) hb (by decide)]
  simp only [paethReference]
  split_ifs with h1 h2
  · omega
  · rfl
  · exfalso; apply h2; omega

/-- The stream index of the filtered byte of output index `j` lies in scanline `j / S`. -/
theorem filteredByte_index_lt (S R j : Nat) (hS : 0 < S) (hj : j < R * S) :
    j / S * (S + 1) + 1 + j % S < R * (S + 1) := by
  have h1 : j / S < R := (Nat.div_lt_iff_lt_mul hS).2 hj
  have h2 : j % S < S := Nat.mod_lt _ hS
  have h3 : (j / S + 1) * (S + 1) ≤ R * (S + 1) := Nat.mul_le_mul_right _ h1
  rw [Nat.succ_mul] at h3
  omega

/-- Two streams that agree on their first `R` scanlines are reconstructed to buffers that agree
on their first `R` rows. -/
theorem Reconstructed_agree (d1 d2 o1 o2 : List Nat) (bpp S R : Nat) (hS : 0 < S)
    (hbpp : 0 < bpp) (hlen : o1.length = o2.length)
    (h1 : Reconstructed d1 o1 bpp S) (h2 : Reconstructed d2 o2 bpp S)
    (hd : ∀ x, x < R * (S + 1) → d1.getD x 0 = d2.getD x 0) :
    ∀ j, j < R * S → o1.getD j 0 = o2.getD j 0 := by
  intro j
  induction j using Nat.strong_induction_on with
  | _ j ih =>
    intro hj
    by_cases hjl : j < o1.length
    · have e1 := h1 j hjl
      have e2 := h2 j (by omega)
      unfold ReconstructedAt filteredByte filterTypeOf at e1 e2
      have hidx := filteredByte_index_lt S R j hS hj
      rw [e1, e2, hd _ hidx, hd (j / S * (S + 1)) (by omega)]
      have hl : leftOf o1 bpp S j = leftOf o2 bpp S j := by
        unfold leftOf
        split_ifs
        · rfl
        · have := Nat.mod_le j S
          exact ih (j - bpp) (by omega) (by omega)
      have hu : upOf o1 S j = upOf o2 S j := by
        unfold upOf
        split_ifs
        · rfl
        · exact ih (j - S) (by omega) (by omega)
      have hul : upLeftOf o1 bpp S j = upLeftOf o2 bpp S j := by
        unfold upLeftOf
        split_ifs
        · rfl
        · exact ih (j - S - bpp) (by omega) (by omega)
      unfold predictorOf
      rw [hl, hu, hul]
    · rw [List.getD_eq_default o1 0 (by omega), List.getD_eq_default o2 0 (by omega)]

theorem getD_set_ne (l : List Nat) (i j v : Nat) (h : i ≠ j) :
    (l.set i v).getD j 0 = l.getD j 0 := by
  simp [List.getD_eq_getElem?_getD, List.getElem?_set_ne h]

theorem getD_set_eq (l : List Nat) (i v : Nat) (h : i < l.length) :
    (l.set i v).getD i 0 = v := by
  simp [List.getD_eq_getElem?_getD, List.getElem?_set_self, h]

/-- Replacing the filter-type byte of scanline `r` by a value in 0..4 keeps a stream well
formed. -/
theorem filter_bytes_set (data : List Nat) (S h r v : Nat) (hv : v ≤ 4)
    (hft : ∀ q, q < h → data.getD (q * (S + 1)) 0 ≤ 4) :
    ∀ q, q < h → (data.set (r * (S + 1)) v).getD (q * (S + 1)) 0 ≤ 4 := by
  intro q hq
  by_cases hqr : r * (S + 1) = q * (S + 1)
  · by_cases hl : r * (S + 1) < data.length
    · rw [← hqr, getD_set_eq _ _ _ hl]; exact hv
    · rw [List.getD_eq_default _ 0 (by rw [List.length_set]; omega)]
      omega
  · rw [getD_set_ne _ _ _ _ hqr]
    exact hft q hq

/-- In a Sub scanline the first pixel obeys `out = filtered byte`; so does the whole first
row when it is an Up scanline. -/
theorem Reconstructed_edges (data out : List Nat) (bpp S h : Nat) (hbS : bpp ≤ S)
    (hh : 0 < h)
    (hlen : out.length = h * S) (hb : ∀ x ∈ data, x < 256)
    (hQ : Reconstructed data out bpp S) :
    (∀ r, r < h → data.getD (r * (S + 1)) 0 = 1 → ∀ k, k < bpp →
      out.getD (r * S + k) 0 = data.getD (r * (S + 1) + 1 + k) 0) ∧
    (data.getD 0 0 = 2 → ∀ j, j < S → out.getD j 0 = data.getD (1 + j) 0) := by
  constructor
  · intro r hr hf k hk
    have e3 : r * S + S ≤ h * S := by
      have := Nat.mul_le_mul_right S (show r + 1 ≤ h from hr)
      rwa [Nat.succ_mul] at this
    have e := hQ (r * S + k) (by omega)
    unfold ReconstructedAt filteredByte filterTypeOf at e
    rw [row_div r S k (by omega), row_mod r S k (by omega), hf] at e
    rw [e]
    unfold predictorOf leftOf
    rw [row_mod r S k (by omega)]
    simp only [if_neg (show ¬ (1 = 0) by decide), if_true, if_pos hk, Nat.add_zero]
    exact Nat.mod_eq_of_lt (getD_lt_256 data _ hb)
  · intro hf j hj
    have e3 : S ≤ h * S := Nat.le_mul_of_pos_left S hh
    have e := hQ j (by omega)
    unfold ReconstructedAt filteredByte filterTypeOf at e
    rw [Nat.div_eq_of_lt hj, Nat.mod_eq_of_lt hj, Nat.zero_mul, hf] at e
    rw [e]
    unfold predictorOf upOf
    simp only [if_neg (show ¬ (2 = 0) by decide), if_neg (show ¬ (2 = 1) by decide), if_true,
      if_pos hj, Nat.add_zero, Nat.zero_add]
    exact Nat.mod_eq_of_lt (getD_lt_256 data _ hb)

/-- A first row filtered with Paeth is reconstructed like the same row filtered with Sub. -/
theorem Reconstructed_paeth_first_row (d1 d2 o1 o2 : List Nat) (bpp S h : Nat)
    (hbpp : 0 < bpp) (hh : 0 < h) (hl1 : o1.length = h * S) (hl2 : o2.length = h * S)
    (hB1 : ∀ x ∈ o1, x < 256)
    (h1 : Reconstructed d1 o1 bpp S) (h2 : Reconstructed d2 o2 bpp S)
    (hf1 : d1.getD 0 0 = 4) (hf2 : d2.getD 0 0 = 1)
    (hd : ∀ x, 0 < x → d1.getD x 0 = d2.getD x 0) :
    ∀ j, j < S → o1.getD j 0 = o2.getD j 0 := by
  intro j
  induction j using Nat.strong_induction_on with
  | _ j ih =>
    intro hj
    have e3 : S ≤ h * S := Nat.le_mul_of_pos_left S hh
    have e1 := h1 j (by omega)
    have e2 := h2 j (by omega)
    unfold ReconstructedAt filteredByte filterTypeOf at e1 e2
    rw [Nat.div_eq_of_lt hj, Nat.mod_eq_of_lt hj, Nat.zero_mul] at e1 e2
    rw [hf1] at e1
    rw [hf2] at e2
    rw [e1, e2, hd _ (by omega)]
    have hl : leftOf o1 bpp S j = leftOf o2 bpp S j := by
      unfold leftOf
      split_ifs
      · rfl
      · have := Nat.mod_le j S
        exact ih (j - bpp) (by omega) (by omega)
    have hu : upOf o1 S j = 0 := by
      unfold upOf
      rw [if_pos hj]
    have hul : upLeftOf o1 bpp S j = 0 := by
      unfold upLeftOf
      rw [if_pos (Or.inr hj)]
    unfold predictorOf
    simp only [if_neg (show ¬ (4 = 0) by decide), if_neg (show ¬ (4 = 1) by decide),
      if_neg (show ¬ (4 = 2) by decide), if_neg (show ¬ (4 = 3) by decide),
      if_neg (show ¬ (1 = 0) by decide), if_true]
    rw [hu, hul, calcPaethByte_left _ (leftOf_lt o1 bpp S j hB1), hl]

/-- The first pixel of a scanline filtered with Paeth is reconstructed like the first pixel of
that scanline filtered with Up. -/
theorem Reconstructed_paeth_first_pixel (d1 d2 o1 o2 : List Nat) (bpp S h r : Nat)
    (hS : 0 < S) (hbpp : 0 < bpp) (hbS : bpp ≤ S) (hr : r < h)
    (hl1 : o1.length = h * S) (hl2 : o2.length = h * S)
    (hB1 : ∀ x ∈ o1, x < 256)
    (h1 : Reconstructed d1 o1 bpp S) (h2 : Reconstructed d2 o2 bpp S)
    (hf1 : d1.getD (r * (S + 1)) 0 = 4) (hf2 : d2.getD (r * (S + 1)) 0 = 2)
    (hd : ∀ x, x ≠ r * (S + 1) → d1.getD x 0 = d2.getD x 0) :
    ∀ k, k < bpp → o1.getD (r * S + k) 0 = o2.getD (r * S + k) 0 := by
  intro k hk
  have e3 : r * S + S ≤ h * S := by
    have := Nat.mul_le_mul_right S (show r + 1 ≤ h from hr)
    rwa [Nat.succ_mul] at this
  have hagree := Reconstructed_agree d1 d2 o1 o2 bpp S r hS hbpp (by rw [hl1, hl2]) h1 h2
    (fun x hx => hd x (by omega))
  have e1 := h1 (r * S + k) (by omega)
  have e2 := h2 (r * S + k) (by omega)
  unfold ReconstructedAt filteredByte filterTypeOf at e1 e2
  rw [row_div r S k (by omega), row_mod r S k (by omega)] at e1 e2
  rw [hf1] at e1
  rw [hf2] at e2
  rw [e1, e2, hd _ (by omega)]
  have hl : leftOf o1 bpp S (r * S + k) = 0 := by
    unfold leftOf
    rw [row_mod r S k (by omega), if_pos hk]
  have hul : upLeftOf o1 bpp S (r * S + k) = 0 := by
    unfold upLeftOf
    rw [row_mod r S k (by omega), if_pos (Or.inl hk)]
  have hu : upOf o1 S (r * S + k) = upOf o2 S (r * S + k) := by
    unfold upOf
    split_ifs
    · rfl
    · exact hagree _ (by omega)
  unfold predictorOf
  simp only [if_neg (show ¬ (4 = 0) by decide), if_neg (show ¬ (4 = 1) by decide),
    if_neg (show ¬ (4 = 2) by decide), if_neg (show ¬ (4 = 3) by decide),
    if_neg (show ¬ (2 = 0) by decide), if_neg (show ¬ (2 = 1) by decide), if_true]
  rw [hl, hul, calcPaethByte_up _ (upOf_lt o1 S _ hB1), hu]


/-! ### `reverseImg` -/

theorem setIdx_lt (v : List Nat) (n x : Nat) (h : n < v.length) :
    setIdx v n x = .ok (v.set n x) := by
  unfold setIdx
  rw [if_pos h]

theorem getD_set (v : List Nat) (i a x : Nat) :
    (v.set i a).getD x 0 = if i = x ∧ i < v.length then a else v.getD x 0 := by
  by_cases h : i = x
  · subst h
    by_cases hl : i < v.length
    · rw [if_pos ⟨rfl, hl⟩, getD_set_eq v i a hl]
    · rw [if_neg (fun hc => hl hc.2), List.getD_eq_default _ 0 (by rw [List.length_set]; omega),
        List.getD_eq_default _ 0 (by omega)]
  · rw [if_neg (fun hc => h hc.1), getD_set_ne v i x a h]

/-- One unit of the inner loop, when both blocks of four bytes lie in the buffer and are the
same block or do not overlap: the result is the buffer after eight writes. -/
theorem swapUnit_eq (hdr : IHDR) (S i j e l : Nat) (img : List Nat)
    (he : u32 (S * (hdr.height - i)) = e) (hl : u32 (S * (i - 1)) = l)
    (h1 : e + j + 4 ≤ img.length) (h2 : l + j + 4 ≤ img.length) (hd : e = l ∨ e + 4 ≤ l) :
    swapUnit hdr S i j img = .ok
      ((((((((img.set (e + j) (img.getD (l + j) 0)).set (e + j + 1) (img.getD (l + j + 1) 0)).set
        (e + j + 2) (img.getD (l + j + 2) 0)).set (e + j + 3) (img.getD (l + j + 3) 0)).set
        (l + j) (img.getD (e + j) 0)).set (l + j + 1) (img.getD (e + j + 1) 0)).set
        (l + j + 2) (img.getD (e + j + 2) 0)).set (l + j + 3) (img.getD (e + j + 3) 0)) := by
  have a0 := atIdx_lt img (e + j) (by omega)
  have a1 := atIdx_lt img (e + j + 1) (by omega)
  have a2 := atIdx_lt img (e + j + 2) (by omega)
  have a3 := atIdx_lt img (e + j + 3) (by omega)
  have b0 := atIdx_lt img (l + j) (by omega)
  have b1 : ∀ x0, atIdx (img.set (e + j) x0) (l + j + 1) = .ok (img.getD (l + j + 1) 0) := by
    intro x0
    rw [atIdx_lt _ _ (by rw [List.length_set]; omega), getD_set_ne _ _ _ _ (by omega)]
  have b2 : ∀ x0 x1, atIdx ((img.set (e + j) x0).set (e + j + 1) x1) (l + j + 2)
      = .ok (img.getD (l + j + 2) 0) := by
    intro x0 x1
    rw [atIdx_lt _ _ (by rw [List.length_set, List.length_set]; omega),
      getD_set_ne _ _ _ _ (by omega), getD_set_ne _ _ _ _ (by omega)]
  have b3 : ∀ x0 x1 x2, atIdx (((img.set (e + j) x0).set (e + j + 1) x1).set (e + j + 2) x2)
      (l + j + 3) = .ok (img.getD (l + j + 3) 0) := by
    intro x0 x1 x2
    rw [atIdx_lt _ _ (by rw [List.length_set, List.length_set, List.length_set]; omega),
      getD_set_ne _ _ _ _ (by omega), getD_set_ne _ _ _ _ (by omega),
      getD_set_ne _ _ _ _ (by omega)]
  have c0 : e + j < img.length := by omega
  have c1 : e + j + 1 < img.length := by omega
  have c2 : e + j + 2 < img.length := by omega
  have c3 : e + j + 3 < img.length := by omega
  have d0 : l + j < img.length := by omega
  have d1 : l + j + 1 < img.length := by omega
  have d2 : l + j + 2 < img.length := by omega
  have d3 : l + j + 3 < img.length := by omega
  simp only [swapUnit, he, hl, a0, a1, a2, a3, b0, b1, b2, b3, setIdx, List.length_set, c0, c1,
    c2, c3, d0, d1, d2, d3, if_true, bind, Except.bind]

/-- The buffer in which the four bytes at `a` and the four bytes at `b` have changed places. -/
theorem swapUnit_getD (hdr : IHDR) (S i j e l : Nat) (img : List Nat)
    (he : u32 (S * (hdr.height - i)) = e) (hl : u32 (S * (i - 1)) = l)
    (h1 : e + j + 4 ≤ img.length) (h2 : l + j + 4 ≤ img.length) (hd : e = l ∨ e + 4 ≤ l) :
    ∃ out, swapUnit hdr S i j img = .ok out ∧ out.length = img.length ∧
      ∀ x, out.getD x 0 =
        if e + j ≤ x ∧ x < e + j + 4 then img.getD (x - e + l) 0
        else if l + j ≤ x ∧ x < l + j + 4 then img.getD (x - l + e) 0
        else img.getD x 0 := by
  refine ⟨_, swapUnit_eq hdr S i j e l img he hl h1 h2 hd, by simp only [List.length_set], ?_⟩
  intro x
  simp only [getD_set, List.length_set]
  rcases hd with hd | hd
  · subst hd
    split_ifs <;> first | rfl | (exfalso; omega) | (congr 1; omega)
  · split_ifs <;> first | rfl | (exfalso; omega) | (congr 1; omega)
theorem reverseUnits_done (hdr : IHDR) (S i fuel j : Nat) (img : List Nat) (h : ¬ j < S) :
    reverseUnits hdr S i fuel j img = .ok img := by
  cases fuel with
  | zero => rw [reverseUnits, if_neg h]
  | succ n => rw [reverseUnits, if_neg h]

/-- The inner loop on a scanline size that is a multiple of 4: the two rows change places. -/
theorem reverseUnits_getD (hdr : IHDR) (S i e l m : Nat) (img : List Nat)
    (he : u32 (S * (hdr.height - i)) = e) (hl : u32 (S * (i - 1)) = l) (hS : S = 4 * m)
    (h1 : e + S ≤ img.length) (h2 : l + S ≤ img.length) (hd : e = l ∨ e + S ≤ l) :
    ∀ (d c : Nat), c + d = m → ∀ (fuel : Nat) (cur : List Nat), cur.length = img.length →
      (∀ x, cur.getD x 0 = exchanged img e l (4 * c) x) →
      ∃ out, reverseUnits hdr S i (fuel + d) (4 * c) cur = .ok out ∧
        out.length = img.length ∧ ∀ x, out.getD x 0 = exchanged img e l S x := by
  intro d
  induction d with
  | zero =>
    intro c hc fuel cur hlen hcur
    have hcm : c = m := by omega
    subst hcm
    refine ⟨cur, reverseUnits_done hdr S i _ _ cur (by omega), hlen, ?_⟩
    rw [hS]
    exact hcur
  | succ d ih =>
    intro c hc fuel cur hlen hcur
    have hjS : 4 * c < S := by omega
    obtain ⟨out1, hout1, hlen1, hget1⟩ := swapUnit_getD hdr S i (4 * c) e l cur he hl
      (by omega) (by omega) (by omega)
    obtain ⟨out, hout, hlen', hget⟩ := ih (c + 1) (by omega) fuel out1 (by rw [hlen1, hlen])
      (by
        intro x
        rw [hget1 x]
        simp only [hcur, exchanged]
        rcases hd with hd | hd
        · subst hd
          split_ifs <;> first | rfl | (exfalso; omega)
        · split_ifs <;> first | rfl | (exfalso; omega))
    refine ⟨out, ?_, hlen', hget⟩
    rw [show fuel + (d + 1) = fuel + d + 1 from rfl, reverseUnits, if_pos hjS, hout1]
    exact hout

theorem row_index_iff (S q k t : Nat) (ht : t < S) :
    (k * S ≤ q * S + t ∧ q * S + t < k * S + S) ↔ q = k := by
  constructor
  · rintro ⟨h1, h2⟩
    rcases Nat.lt_trichotomy q k with h | h | h
    · exfalso
      have := Nat.mul_le_mul_right S (show q + 1 ≤ k from h)
      rw [Nat.succ_mul] at this
      omega
    · exact h
    · exfalso
      have := Nat.mul_le_mul_right S (show k + 1 ≤ q from h)
      rw [Nat.succ_mul] at this
      omega
  · rintro rfl
    omega

/-- The outer loop on a scanline size that is a multiple of 4, in a buffer of fewer than `2^32`
bytes: after `k` iterations the first `k` and the last `k` rows are mirrored. -/
theorem reverseRows_getD (hdr : IHDR) (S m : Nat) (img : List Nat) (hS : S = 4 * m)
    (hlen : img.length = hdr.height * S) (hlt : img.length < 4294967296) :
    ∀ (d k : Nat), k + d = hdr.height - hdr.height / 2 → ∀ (fuel : Nat) (cur : List Nat),
      cur.length = img.length →
      (∀ q t, q < hdr.height → t < S → cur.getD (q * S + t) 0 =
        if q < k ∨ hdr.height - k ≤ q then img.getD ((hdr.height - 1 - q) * S + t) 0
        else img.getD (q * S + t) 0) →
      ∃ out, reverseRows hdr S (hdr.height / 2) (fuel + d) (hdr.height - k) cur = .ok out ∧
        out.length = img.length ∧
        ∀ q t, q < hdr.height → t < S →
          out.getD (q * S + t) 0 = img.getD ((hdr.height - 1 - q) * S + t) 0 := by
  intro d
  induction d with
  | zero =>
    intro k hk fuel cur hcl hcur
    refine ⟨cur, ?_, hcl, ?_⟩
    · have hnot : ¬ hdr.height / 2 < hdr.height - k := by omega
      cases fuel with
      | zero => rw [Nat.add_zero, reverseRows, if_neg hnot]
      | succ n => rw [Nat.add_zero, reverseRows, if_neg hnot]
    · intro q t hq ht
      rw [hcur q t hq ht, if_pos (by omega)]
  | succ d ih =>
    intro k hk fuel cur hcl hcur
    have hkh : k < hdr.height := by omega
    have hk2 : k ≤ hdr.height - 1 - k := by omega
    have hi : hdr.height / 2 < hdr.height - k := by omega
    have eS : (k + 1) * S ≤ hdr.height * S := Nat.mul_le_mul_right S hkh
    rw [Nat.succ_mul] at eS
    have lS : (hdr.height - 1 - k + 1) * S ≤ hdr.height * S :=
      Nat.mul_le_mul_right S (by omega)
    rw [Nat.succ_mul] at lS
    have he : u32 (S * (hdr.height - (hdr.height - k))) = k * S := by
      rw [show hdr.height - (hdr.height - k) = k by omega, Nat.mul_comm]
      exact u32_small _ (by omega)
    have hl : u32 (S * (hdr.height - k - 1)) = (hdr.height - 1 - k) * S := by
      rw [show hdr.height - k - 1 = hdr.height - 1 - k by omega, Nat.mul_comm]
      exact u32_small _ (by omega)
    have hd : k * S = (hdr.height - 1 - k) * S ∨ k * S + S ≤ (hdr.height - 1 - k) * S := by
      rcases Nat.eq_or_lt_of_le hk2 with h | h
      · left; rw [← h]
      · right
        have := Nat.mul_le_mul_right S (show k + 1 ≤ hdr.height - 1 - k from h)
        rwa [Nat.succ_mul] at this
    obtain ⟨out1, hout1, hlen1, hget1⟩ := reverseUnits_getD hdr S (hdr.height - k) (k * S)
      ((hdr.height - 1 - k) * S) m cur he hl hS (by omega) (by omega) hd m 0 (by omega)
      (S - m) cur rfl (by
        intro x
        unfold exchanged
        rw [if_neg (by omega), if_neg (by omega)])
    rw [show S - m + m = S by omega, Nat.mul_zero] at hout1
    obtain ⟨out, hout, hlo, hget⟩ := ih (k + 1) (by omega) fuel out1 (by rw [hlen1, hcl])
      (by
        intro q t hq ht
        rw [hget1]
        unfold exchanged
        have r1 := row_index_iff S q k t ht
        have r2 := row_index_iff S q (hdr.height - 1 - k) t ht
        by_cases hqk : q = k
        · subst hqk
          rw [if_pos (r1.2 rfl), if_pos (Or.inl (by omega)),
            show q * S + t - q * S + (hdr.height - 1 - q) * S = (hdr.height - 1 - q) * S + t by
              omega,
            hcur _ t (by omega) ht, if_neg (by omega)]
        · rw [if_neg (fun hc => hqk (r1.1 hc))]
          by_cases hql : q = hdr.height - 1 - k
          · subst hql
            rw [if_pos (r2.2 rfl), if_pos (Or.inr (by omega)),
              show (hdr.height - 1 - k) * S + t - (hdr.height - 1 - k) * S + k * S = k * S + t by
                omega,
              hcur _ t hkh ht, if_neg (by omega),
              show hdr.height - 1 - (hdr.height - 1 - k) = k by omega]
          · rw [if_neg (fun hc => hql (r2.1 hc)), hcur q t hq ht]
            by_cases hc : q < k ∨ hdr.height - k ≤ q
            · rw [if_pos hc, if_pos (by omega)]
            · rw [if_neg hc, if_neg (by omega)])
    refine ⟨out, ?_, hlo, hget⟩
    rw [show fuel + (d + 1) = fuel + d + 1 from rfl, reverseRows, if_pos hi, hout1]
    rw [show hdr.height - k - 1 = hdr.height - (k + 1) by omega]
    exact hout

/-- On a scanline size that is a multiple of 4 and a buffer of `height` scanlines, shorter than
`2^32` bytes, `reverseImg` returns the buffer with its rows in reverse order. -/
theorem reverseImg_multiple_of_4 (self : Png) (m : Nat)
    (hS : self.mIhdr.width * (if self.mIhdr.colorType = RGBTRIP then RGBSIZE else RGBASIZE)
      = 4 * m)
    (hlen : self.mImgData.length = self.mIhdr.height * (4 * m))
    (hlt : self.mImgData.length < 4294967296) :
    ∃ out, reverseImg self = .returned { self with mImgData := out } ∧
      out.length = self.mImgData.length ∧
      ∀ q t, q < self.mIhdr.height → t < 4 * m →
        out.getD (q * (4 * m) + t) 0 =
          self.mImgData.getD ((self.mIhdr.height - 1 - q) * (4 * m) + t) 0 := by
  rcases Nat.eq_zero_or_pos self.mIhdr.height with h0 | h0
  · refine ⟨self.mImgData, ?_, rfl, fun q t hq _ => absurd hq (by omega)⟩
    unfold reverseImg
    simp only [h0, reverseRows, Nat.zero_div, Nat.lt_irrefl, if_false]
  have hu : u32 (4 * m) = 4 * m := by
    have := Nat.le_mul_of_pos_left (4 * m) h0
    exact u32_small _ (by omega)
  obtain ⟨out, hout, hlo, hget⟩ := reverseRows_getD self.mIhdr (4 * m) m self.mImgData rfl hlen
    hlt (self.mIhdr.height - self.mIhdr.height / 2) 0 (by omega) (self.mIhdr.height / 2)
    self.mImgData rfl (by
      intro q t hq ht
      rw [if_neg (by omega)])
  rw [show self.mIhdr.height / 2 + (self.mIhdr.height - self.mIhdr.height / 2)
    = self.mIhdr.height by omega, Nat.sub_zero] at hout
  refine ⟨out, ?_, hlo, hget⟩
  unfold reverseImg
  simp only [hS, hu, hout]

/-- With a scanline size of 0 in its 32 bits the inner loop never runs: two scanlines come
back as they are. -/
theorem reverseImg_wide_two_rows (w bd ct cm fm im : Nat) (img : List Nat) (f : IStream)
    (hw : u32 (w * (if ct = RGBTRIP then RGBSIZE else RGBASIZE)) = 0) :
    reverseImg ⟨⟨w, 2, bd, ct, cm, fm, im⟩, img, f⟩ = .returned ⟨⟨w, 2, bd, ct, cm, fm, im⟩, img, f⟩ := by
  unfold reverseImg
  simp only [hw]
  rfl


/-! ### `reverseImg`: fuel -/

theorem setIdx_noFuel (v : List Nat) (n x : Nat) : setIdx v n x ≠ .error .outOfFuel := by
  unfold setIdx
  split_ifs <;> simp

theorem swapUnit_noFuel (hdr : IHDR) (S i j : Nat) (img : List Nat) :
    swapUnit hdr S i j img ≠ .error .outOfFuel := by
  unfold swapUnit
  dsimp only
  refine bind_noFuel _ _ (atIdx_noFuel _ _) fun _ => ?_
  refine bind_noFuel _ _ (atIdx_noFuel _ _) fun _ => ?_
  refine bind_noFuel _ _ (atIdx_noFuel _ _) fun _ => ?_
  refine bind_noFuel _ _ (atIdx_noFuel _ _) fun _ => ?_
  refine bind_noFuel _ _ (atIdx_noFuel _ _) fun _ => ?_
  refine bind_noFuel _ _ (setIdx_noFuel _ _ _) fun _ => ?_
  refine bind_noFuel _ _ (atIdx_noFuel _ _) fun _ => ?_
  refine bind_noFuel _ _ (setIdx_noFuel _ _ _) fun _ => ?_
  refine bind_noFuel _ _ (atIdx_noFuel _ _) fun _ => ?_
  refine bind_noFuel _ _ (setIdx_noFuel _ _ _) fun _ => ?_
  refine bind_noFuel _ _ (atIdx_noFuel _ _) fun _ => ?_
  refine bind_noFuel _ _ (setIdx_noFuel _ _ _) fun _ => ?_
  refine bind_noFuel _ _ (setIdx_noFuel _ _ _) fun _ => ?_
  refine bind_noFuel _ _ (setIdx_noFuel _ _ _) fun _ => ?_
  refine bind_noFuel _ _ (setIdx_noFuel _ _ _) fun _ => ?_
  exact setIdx_noFuel _ _ _

theorem reverseUnits_fuel (hdr : IHDR) (S i : Nat) :
    ∀ (fuel j : Nat) (img : List Nat), S ≤ j + fuel →
      reverseUnits hdr S i fuel j img ≠ .error .outOfFuel := by
  intro fuel
  induction fuel with
  | zero =>
    intro j img h
    rw [reverseUnits, if_neg (by omega)]
    simp
  | succ fuel ih =>
    intro j img h
    rw [reverseUnits]
    refine ite_noFuel _ _ _ ?_ (by simp)
    cases hs : swapUnit hdr S i j img with
    | error e =>
      have := swapUnit_noFuel hdr S i j img
      rw [hs] at this
      dsimp only
      exact this
    | ok img' =>
      dsimp only
      exact ih _ _ (by omega)

theorem reverseRows_fuel (hdr : IHDR) (S mid : Nat) :
    ∀ (fuel i : Nat) (img : List Nat), i ≤ mid + fuel →
      reverseRows hdr S mid fuel i img ≠ .error .outOfFuel := by
  intro fuel
  induction fuel with
  | zero =>
    intro i img h
    rw [reverseRows, if_neg (by omega)]
    simp
  | succ fuel ih =>
    intro i img h
    rw [reverseRows]
    refine ite_noFuel _ _ _ ?_ (by simp)
    cases hs : reverseUnits hdr S i S 0 img with
    | error e =>
      have := reverseUnits_fuel hdr S i S 0 img (by omega)
      rw [hs] at this
      dsimp only
      exact this
    | ok img' =>
      dsimp only
      exact ih _ _ (by omega)

/-- The embedding of `reverseImg` never stops for lack of fuel. -/
theorem reverseImg_fuel (self : Png) : reverseImg self ≠ .outOfFuel := by
  unfold reverseImg
  dsimp only
  have := reverseRows_fuel self.mIhdr
    (u32 (self.mIhdr.width * (if self.mIhdr.colorType = RGBTRIP then RGBSIZE else RGBASIZE)))
    (self.mIhdr.height / 2) self.mIhdr.height self.mIhdr.height self.mImgData (by omega)
  split
  · simp
  · simp
  · rename_i h
    exact absurd h this

/-! ### The chunk loop: an invariant -/

theorem and_247_and_1 (m : Nat) : (m &&& 247) &&& 1 = m &&& 1 := by
  rw [Nat.and_assoc, show (247 &&& 1 : Nat) = 1 by decide]

theorem or_and_1 (m k : Nat) (h : m &&& 1 ≠ 0) : (m ||| k) &&& 1 ≠ 0 := by
  rw [Nat.and_one_is_mod] at h ⊢
  have := Nat.or_mod_two_eq_one (a := m) (b := k)
  omega

theorem handlePngColorType_returned_eq (self p : Png) (d : List Nat)
    (h : handlePngColorType self d = .returned p) :
    (self.mIhdr.colorType = 2 ∨ self.mIhdr.colorType = 6) ∧
    rgbBitDepth8 self.mIhdr self.mImgData d = .ok p.mImgData := by
  unfold handlePngColorType at h
  split_ifs at h with h1 h2
  refine ⟨h1, ?_⟩
  split at h <;> simp at h
  rename_i img himg
  rw [himg, ← h]

theorem LoopInv_header (inflate : Inflate) (s : ReadState) (h : LoopInv inflate s) :
    LoopInv inflate (readChunkHeader s) :=
  ⟨h.noHeader, h.noRun, h.oneRun, h.clean, h.dims⟩

theorem LoopInv_crc (inflate : Inflate) (s : ReadState) (h : LoopInv inflate s) :
    LoopInv inflate (readCrc s) :=
  ⟨h.noHeader, h.noRun, h.oneRun, h.clean, h.dims⟩

theorem LoopInv_flush (inflate : Inflate) (s s' : ReadState) (h : LoopInv inflate s)
    (hf : flushIdat inflate s = .returned s') : LoopInv inflate s' := by
  unfold flushIdat at hf
  split_ifs at hf with hc
  · have hm1 : s.validPngMask &&& IHDR_MASK ≠ 0 := by
      intro h0
      have := (h.noHeader h0).1
      rw [this] at hc
      exact absurd hc.1 (by decide)
    split at hf
    · simp at hf
    · rename_i out hout
      cases hh : handlePngColorType s.self (s.decompressedData ++ out) with
      | returned p =>
        simp only [hh, liftSelf, Outcome.andThen, Outcome.returned.injEq] at hf
        obtain ⟨hct, hrgb⟩ := handlePngColorType_returned_eq _ _ _ hh
        have hhdr := (handlePngColorType_returned _ _ _ hh).2
        rw [h.clean, List.nil_append] at hrgb
        rw [← hf]
        refine ⟨?_, ?_, ?_, rfl, ?_⟩
        · intro h0
          exfalso
          apply hm1
          have : (s.validPngMask &&& 247) &&& 1 = 0 := h0
          rw [and_247_and_1] at this
          exact this
        · intro h0
          exact absurd h0 (by simp)
        · intro c hcalls
          have hcalls' : s.inflateCalls ++ [s.idatBuffer] = [c] := hcalls
          have hnil : s.inflateCalls = [] := by
            cases hl : s.inflateCalls with
            | nil => rfl
            | cons a t =>
              rw [hl] at hcalls'
              have := congrArg List.length hcalls'
              simp at this
          rw [hnil, List.nil_append] at hcalls'
          have hbc : s.idatBuffer = c := by
            simpa using hcalls'
          refine ⟨out, by rw [← hbc]; exact hout, ?_, ?_⟩
          · show p.mIhdr.colorType = 2 ∨ p.mIhdr.colorType = 6
            rw [hhdr]; exact hct
          · show rgbBitDepth8 p.mIhdr [] out = .ok p.mImgData
            rw [hhdr, ← h.noRun hnil]; exact hrgb
        · intro _
          show p.mIhdr.width ≠ 0 ∧ p.mIhdr.height ≠ 0
          rw [hhdr]
          exact h.dims hm1
      | exited e p => simp [hh, liftSelf, Outcome.andThen] at hf
      | undefinedBehaviour => simp [hh, liftSelf, Outcome.andThen] at hf
      | outOfFuel => simp [hh, liftSelf, Outcome.andThen] at hf
  · simp only [Outcome.returned.injEq] at hf
    rw [← hf]
    exact h

theorem parseIHDR_returned (self p : Png) (n : Nat) (h : parseIHDR self n = .returned p) :
    p.mImgData = self.mImgData ∧ p.mIhdr.width ≠ 0 ∧ p.mIhdr.height ≠ 0 := by
  unfold parseIHDR at h
  split at h
  · simp at h
  · dsimp only at h
    split at h
    · simp at h
    · rename_i hd
      simp only [Outcome.returned.injEq] at h
      rw [← h]
      push_neg at hd
      exact ⟨rfl, hd.1, hd.2⟩

theorem LoopInv_dispatch (inflate : Inflate) (s s' : ReadState) (h : LoopInv inflate s)
    (hd : dispatchChunk s = .returned s') : LoopInv inflate s' := by
  unfold dispatchChunk at hd
  split_ifs at hd with h1 h2 h3 h4 h5
  · -- the IHDR chunk
    obtain ⟨hm0, hcalls⟩ := h.noHeader h2.1
    cases hc : parseIHDR s.self s.chunkLength with
    | returned p =>
      simp only [hc, liftSelf, Outcome.returned.injEq] at hd
      obtain ⟨himg, hw, hh⟩ := parseIHDR_returned _ _ _ hc
      rw [← hd]
      refine ⟨?_, ?_, ?_, h.clean, fun _ => ⟨hw, hh⟩⟩
      · intro h0
        exfalso
        have : (s.validPngMask ||| IHDR_MASK) &&& IHDR_MASK = 0 := h0
        rw [hm0] at this
        exact absurd this (by decide)
      · intro _
        show p.mImgData = []
        rw [himg]
        exact h.noRun hcalls
      · intro c hc'
        have : s.inflateCalls = [c] := hc'
        rw [hcalls] at this
        cases this
    | exited e p => simp [hc, liftSelf] at hd
    | undefinedBehaviour => simp [hc, liftSelf] at hd
    | outOfFuel => simp [hc, liftSelf] at hd
  · -- an IDAT chunk
    have hm1 : s.validPngMask &&& IHDR_MASK ≠ 0 := by
      intro h0
      by_cases hs : strcmp s.chunkType strIHDR = 0
      · exact h2 ⟨h0, hs⟩
      · exact h1 ⟨h0, hs⟩
    simp only [Outcome.returned.injEq] at hd
    rw [← hd]
    have hmask : ∀ m, m &&& IHDR_MASK ≠ 0 →
        (if (if m &&& IDAT_MASK = 0 then m ||| IDAT_MASK else m) &&& IDAT_CHAIN = 0
          then (if m &&& IDAT_MASK = 0 then m ||| IDAT_MASK else m) ||| IDAT_CHAIN
          else (if m &&& IDAT_MASK = 0 then m ||| IDAT_MASK else m)) &&& IHDR_MASK ≠ 0 := by
      intro m hm
      split_ifs
      · exact or_and_1 _ _ (or_and_1 _ _ hm)
      · exact or_and_1 _ _ hm
      · exact or_and_1 _ _ hm
      · exact hm
    refine ⟨?_, ?_, ?_, ?_, ?_⟩
    · intro h0
      exfalso
      refine hmask s.validPngMask hm1 ?_
      convert h0 using 2
      split_ifs <;> rfl
    · intro hc
      have : s.inflateCalls = [] := by
        split_ifs at hc <;> exact hc
      show _ = []
      have := h.noRun this
      split_ifs <;> exact this
    · intro c hc
      have : s.inflateCalls = [c] := by
        split_ifs at hc <;> exact hc
      have := h.oneRun c this
      split_ifs <;> exact this
    · have := h.clean
      split_ifs <;> exact this
    · intro _
      have := h.dims hm1
      split_ifs <;> exact this
  · simp only [Outcome.returned.injEq] at hd
    rw [← hd]
    exact ⟨h.noHeader, h.noRun, h.oneRun, h.clean, h.dims⟩
  · simp only [Outcome.returned.injEq] at hd
    rw [← hd]
    exact ⟨h.noHeader, h.noRun, h.oneRun, h.clean, h.dims⟩

theorem LoopInv_readChunk (inflate : Inflate) (s s' : ReadState) (h : LoopInv inflate s)
    (hr : readChunk inflate s = .returned s') : LoopInv inflate s' := by
  unfold readChunk processChunk at hr
  cases h1 : flushIdat inflate (readChunkHeader s) with
  | returned s1 =>
    have i1 := LoopInv_flush inflate _ _ (LoopInv_header inflate s h) h1
    cases h2 : dispatchChunk s1 with
    | returned s2 =>
      have i2 := LoopInv_dispatch inflate _ _ i1 h2
      simp only [h1, h2, Outcome.andThen, Outcome.returned.injEq] at hr
      rw [← hr]
      exact LoopInv_crc inflate s2 i2
    | exited e s2 => simp [h1, h2, Outcome.andThen] at hr
    | undefinedBehaviour => simp [h1, h2, Outcome.andThen] at hr
    | outOfFuel => simp [h1, h2, Outcome.andThen] at hr
  | exited e s1 => simp [h1, Outcome.andThen] at hr
  | undefinedBehaviour => simp [h1, Outcome.andThen] at hr
  | outOfFuel => simp [h1, Outcome.andThen] at hr

theorem LoopInv_readLoop (inflate : Inflate) :
    ∀ (fuel : Nat) (s s' : ReadState), LoopInv inflate s →
      readLoop inflate fuel s = .returned s' → LoopInv inflate s' := by
  intro fuel
  induction fuel with
  | zero =>
    intro s s' _ hr
    simp [readLoop] at hr
  | succ fuel ih =>
    intro s s' h hr
    rw [readLoop] at hr
    split_ifs at hr with hc
    · cases h1 : readChunk inflate s with
      | returned s1 =>
        simp only [h1, Outcome.andThen] at hr
        exact ih s1 s' (LoopInv_readChunk inflate s s1 h h1) hr
      | exited e s1 => simp [h1, Outcome.andThen] at hr
      | undefinedBehaviour => simp [h1, Outcome.andThen] at hr
      | outOfFuel => simp [h1, Outcome.andThen] at hr
    · simp only [Outcome.returned.injEq] at hr
      rw [← hr]
      exact h

/-- When `readPng` returns, the state its loop ended in obeys the invariant, and differs from
the final state in the flags only. -/
theorem construct_returned (inflate : Inflate) (chunkLength0 : Nat) (ihdr0 : IHDR)
    (file : List Nat) (s : ReadState)
    (h : Png.construct inflate chunkLength0 ihdr0 file = .returned s) :
    ∃ s', LoopInv inflate s' ∧ s.self = s'.self ∧ s.inflateCalls = s'.inflateCalls := by
  unfold Png.construct readPng at h
  dsimp only at h
  rw [if_neg (by simp)] at h
  split_ifs at h with hsig
  cases hl : readLoop inflate (file.length + 1)
      { self := { mIhdr := ihdr0, mImgData := [],
                  mPngFile := (IStream.read ⟨file, true⟩
                    (List.replicate pngSignature.length 0) 8).2 },
        decompressedData := [], validPngMask := 0, chunkLength := chunkLength0,
        chunkType := [0, 0, 0, 0, 0], idatBuffer := [], inflateCalls := [] } with
  | returned s' =>
    rw [hl] at h
    have hinv := LoopInv_readLoop inflate _ _ s'
      ⟨fun _ => ⟨rfl, rfl⟩, fun _ => rfl, fun c hc => (by cases hc), rfl,
        fun hc => absurd (show (0 &&& IHDR_MASK : Nat) = 0 by decide) hc⟩ hl
    refine ⟨s', hinv, ?_, ?_⟩
    · simp only [Outcome.andThen, markIEND] at h
      split_ifs at h <;> simp only [Outcome.returned.injEq] at h <;> rw [← h]
    · simp only [Outcome.andThen, markIEND] at h
      split_ifs at h <;> simp only [Outcome.returned.injEq] at h <;> rw [← h]
  | exited e s' => rw [hl] at h; simp [Outcome.andThen] at h
  | undefinedBehaviour => rw [hl] at h; simp [Outcome.andThen] at h
  | outOfFuel => rw [hl] at h; simp [Outcome.andThen] at h


/-! ### The interlace method is never looked at -/

theorem filterSwitch_interlace (hdr : IHDR) (x : Nat) (img : List Nat) (S bpp cur lb : Nat)
    (ub : Int) (fv : Nat) (fp : RGB) :
    filterSwitch { hdr with interfaceMethod := x } img S bpp cur lb ub fv fp =
      filterSwitch hdr img S bpp cur lb ub fv fp := rfl

theorem pushPixel_interlace (hdr : IHDR) (x : Nat) (data : List Nat) (i : Nat) (fp : RGB)
    (img : List Nat) :
    pushPixel { hdr with interfaceMethod := x } data i fp img = pushPixel hdr data i fp img := rfl

theorem rgbLoop_interlace (hdr : IHDR) (x : Nat) (data : List Nat) (bpp S : Nat) :
    ∀ (fuel i cur fv : Nat) (fp : RGB) (img : List Nat),
      rgbLoop { hdr with interfaceMethod := x } data bpp S fuel i cur fv fp img =
        rgbLoop hdr data bpp S fuel i cur fv fp img := by
  intro fuel
  induction fuel with
  | zero => intro i cur fv fp img; rw [rgbLoop, rgbLoop]
  | succ fuel ih =>
    intro i cur fv fp img
    rw [rgbLoop, rgbLoop]
    simp only [filterSwitch_interlace, pushPixel_interlace, ih]

theorem rgbBitDepth8_interlace (hdr : IHDR) (x : Nat) (img data : List Nat) :
    rgbBitDepth8 { hdr with interfaceMethod := x } img data = rgbBitDepth8 hdr img data := by
  unfold rgbBitDepth8
  exact rgbLoop_interlace hdr x data _ _ _ _ _ _ _ _

theorem handlePngColorType_interlace (x : Nat) (p : Png) (d : List Nat) :
    handlePngColorType (p.setInterlace x) d = (handlePngColorType p d).map (Png.setInterlace x) := by
  unfold handlePngColorType Png.setInterlace
  simp only [rgbBitDepth8_interlace]
  split_ifs
  · split <;> rfl
  · rfl
  · rfl

theorem readChunkHeader_interlace (x : Nat) (s : ReadState) :
    readChunkHeader (s.setInterlace x) = (readChunkHeader s).setInterlace x := rfl

theorem readCrc_interlace (x : Nat) (s : ReadState) :
    readCrc (s.setInterlace x) = (readCrc s).setInterlace x := rfl

theorem map_andThen {σ : Type} (f : σ → σ) (o : Outcome σ) (k k' : σ → Outcome σ)
    (h : ∀ s, k' (f s) = (k s).map f) :
    (o.map f).andThen k' = (o.andThen k).map f := by
  cases o with
  | returned s => exact h s
  | exited e s => rfl
  | undefinedBehaviour => rfl
  | outOfFuel => rfl

theorem flushIdat_interlace (inflate : Inflate) (x : Nat) (s : ReadState) :
    flushIdat inflate (s.setInterlace x) = (flushIdat inflate s).map (ReadState.setInterlace x) := by
  unfold flushIdat
  split_ifs with hc hc' hc'
  · show (match inflate s.idatBuffer with
        | none => _
        | some out => _) = _
    cases hi : inflate s.idatBuffer with
    | none => rfl
    | some out =>
      dsimp only
      show (liftSelf _ (handlePngColorType (s.self.setInterlace x) (s.decompressedData ++ out))).andThen _ = _
      rw [handlePngColorType_interlace]
      cases handlePngColorType s.self (s.decompressedData ++ out) <;> rfl
  · exact absurd hc hc'
  · exact absurd hc' hc
  · rfl

theorem dispatchChunk_interlace (x : Nat) (s : ReadState)
    (hm : s.validPngMask &&& IHDR_MASK ≠ 0) :
    dispatchChunk (s.setInterlace x) = (dispatchChunk s).map (ReadState.setInterlace x) := by
  unfold dispatchChunk
  have e1 : (s.setInterlace x).validPngMask = s.validPngMask := rfl
  have e2 : (s.setInterlace x).chunkType = s.chunkType := rfl
  simp only [e1, e2]
  split_ifs with h1 h2
  · exact absurd h1.1 hm
  · exact absurd h2.1 hm
  all_goals rfl

theorem flushIdat_mask (inflate : Inflate) (s s' : ReadState)
    (hm : s.validPngMask &&& IHDR_MASK ≠ 0) (hf : flushIdat inflate s = .returned s') :
    s'.validPngMask &&& IHDR_MASK ≠ 0 := by
  unfold flushIdat at hf
  split_ifs at hf with hc
  · split at hf
    · simp at hf
    · rename_i out hout
      cases hh : handlePngColorType s.self (s.decompressedData ++ out) with
      | returned p =>
        simp only [hh, liftSelf, Outcome.andThen, Outcome.returned.injEq] at hf
        rw [← hf]
        show (s.validPngMask &&& 247) &&& 1 ≠ 0
        rw [and_247_and_1]
        exact hm
      | exited e p => simp [hh, liftSelf, Outcome.andThen] at hf
      | undefinedBehaviour => simp [hh, liftSelf, Outcome.andThen] at hf
      | outOfFuel => simp [hh, liftSelf, Outcome.andThen] at hf
  · simp only [Outcome.returned.injEq] at hf
    rw [← hf]
    exact hm

theorem dispatchChunk_mask (s s' : ReadState)
    (hm : s.validPngMask &&& IHDR_MASK ≠ 0) (hd : dispatchChunk s = .returned s') :
    s'.validPngMask &&& IHDR_MASK ≠ 0 := by
  unfold dispatchChunk at hd
  rw [if_neg (fun h => hm h.1), if_neg (fun h => hm h.1)] at hd
  split_ifs at hd with h3 h4 h5
  · simp only [Outcome.returned.injEq] at hd
    rw [← hd]
    split_ifs <;>
      first
      | exact or_and_1 _ _ (or_and_1 _ _ hm)
      | exact or_and_1 _ _ hm
      | exact hm
  · simp only [Outcome.returned.injEq] at hd
    rw [← hd]
    exact hm
  · simp only [Outcome.returned.injEq] at hd
    rw [← hd]
    exact hm

theorem readChunk_mask (inflate : Inflate) (s s' : ReadState)
    (hm : s.validPngMask &&& IHDR_MASK ≠ 0) (hr : readChunk inflate s = .returned s') :
    s'.validPngMask &&& IHDR_MASK ≠ 0 := by
  unfold readChunk processChunk at hr
  cases h1 : flushIdat inflate (readChunkHeader s) with
  | returned s1 =>
    have i1 := flushIdat_mask inflate _ _ (show (readChunkHeader s).validPngMask &&& IHDR_MASK ≠ 0
      from hm) h1
    cases h2 : dispatchChunk s1 with
    | returned s2 =>
      have i2 := dispatchChunk_mask _ _ i1 h2
      simp only [h1, h2, Outcome.andThen, Outcome.returned.injEq] at hr
      rw [← hr]
      exact i2
    | exited e s2 => simp [h1, h2, Outcome.andThen] at hr
    | undefinedBehaviour => simp [h1, h2, Outcome.andThen] at hr
    | outOfFuel => simp [h1, h2, Outcome.andThen] at hr
  | exited e s1 => simp [h1, Outcome.andThen] at hr
  | undefinedBehaviour => simp [h1, Outcome.andThen] at hr
  | outOfFuel => simp [h1, Outcome.andThen] at hr

theorem readChunk_interlace (inflate : Inflate) (x : Nat) (s : ReadState)
    (hm : s.validPngMask &&& IHDR_MASK ≠ 0) :
    readChunk inflate (s.setInterlace x) =
      (readChunk inflate s).map (ReadState.setInterlace x) := by
  unfold readChunk processChunk
  rw [readChunkHeader_interlace, flushIdat_interlace]
  cases h1 : flushIdat inflate (readChunkHeader s) with
  | returned s1 =>
    have i1 := flushIdat_mask inflate _ _ (show (readChunkHeader s).validPngMask &&& IHDR_MASK ≠ 0
      from hm) h1
    simp only [Outcome.map, Outcome.andThen]
    rw [dispatchChunk_interlace x s1 i1]
    cases dispatchChunk s1 <;> rfl
  | exited e s1 => rfl
  | undefinedBehaviour => rfl
  | outOfFuel => rfl

theorem readLoop_interlace (inflate : Inflate) (x : Nat) :
    ∀ (fuel : Nat) (s : ReadState), s.validPngMask &&& IHDR_MASK ≠ 0 →
      readLoop inflate fuel (s.setInterlace x) =
        (readLoop inflate fuel s).map (ReadState.setInterlace x) := by
  intro fuel
  induction fuel with
  | zero => intro s _; rfl
  | succ fuel ih =>
    intro s hm
    rw [readLoop, readLoop]
    have e1 : (s.setInterlace x).chunkType = s.chunkType := rfl
    have e2 : (s.setInterlace x).self.mPngFile = s.self.mPngFile := rfl
    rw [e1, e2]
    split_ifs with hc
    · rw [readChunk_interlace inflate x s hm]
      cases h1 : readChunk inflate s with
      | returned s1 =>
        simp only [Outcome.map, Outcome.andThen]
        exact ih s1 (readChunk_mask inflate s s1 hm h1)
      | exited e s1 => rfl
      | undefinedBehaviour => rfl
      | outOfFuel => rfl
    · rfl

theorem markIEND_interlace (x : Nat) (s : ReadState) :
    markIEND (s.setInterlace x) = (markIEND s).map (ReadState.setInterlace x) := by
  unfold markIEND
  have e1 : (s.setInterlace x).chunkType = s.chunkType := rfl
  rw [e1]
  split_ifs <;> rfl

/-- The decode of a file that starts with the signature and a well-formed `IHDR` chunk, after
the iteration that reads this chunk. -/
theorem construct_after_IHDR (inflate : Inflate) (chunkLength0 : Nat) (ihdr0 h : IHDR)
    (crc rest : List Nat) (hw0 : h.width ≠ 0) (hh0 : h.height ≠ 0)
    (hw : h.width < 4294967296) (hh : h.height < 4294967296) (hcrc : crc.length = 4) :
    Png.construct inflate chunkLength0 ihdr0
        (pngMagic ++ chunk tagIHDR (ihdrPayload h) crc ++ rest) =
      (readLoop inflate (33 + rest.length)
        { self := { mIhdr := h, mImgData := [], mPngFile := ⟨rest, true⟩ },
          decompressedData := [], validPngMask := 1, chunkLength := 13,
          chunkType := tagIHDR ++ [0], idatBuffer := [], inflateCalls := [] }).andThen
        markIEND := by
  have hfile : pngMagic ++ chunk tagIHDR (ihdrPayload h) crc ++ rest =
      pngMagic ++ (chunk tagIHDR (ihdrPayload h) crc ++ rest) := List.append_assoc _ _ _
  have hlen : (pngMagic ++ chunk tagIHDR (ihdrPayload h) crc ++ rest).length + 1
      = 33 + rest.length + 1 := by
    simp only [List.length_append, chunk, ihdrPayload_length, be32_length, hcrc, pngMagic,
      tagIHDR, List.length_cons, List.length_nil]
  have hsig : strcmp (((IStream.read ⟨pngMagic ++ chunk tagIHDR (ihdrPayload h) crc ++ rest, true⟩
      (List.replicate pngSignature.length 0) 8).1).set 8 0) pngSignature = 0 :=
    (signature_check _).2 (by rw [hfile]; simp [pngMagic])
  have hread : (IStream.read ⟨pngMagic ++ chunk tagIHDR (ihdrPayload h) crc ++ rest, true⟩
      (List.replicate pngSignature.length 0) 8).2 =
      ⟨chunk tagIHDR (ihdrPayload h) crc ++ rest, true⟩ := by
    rw [hfile]
    simp [IStream.read, pngMagic]
  simp only [Png.construct, readPng, hsig, hread, Bool.true_eq_false, if_false, ne_eq,
    not_true_eq_false]
  congr 1
  rw [hlen]
  rw [readLoop_succ inflate _
    { self := { mIhdr := ihdr0, mImgData := [],
                mPngFile := ⟨chunk tagIHDR (ihdrPayload h) crc ++ rest, true⟩ },
      decompressedData := [], validPngMask := 0, chunkLength := chunkLength0,
      chunkType := [0, 0, 0, 0, 0], idatBuffer := [], inflateCalls := [] }
    (show strcmp [0, 0, 0, 0, 0] strIEND ≠ 0 by decide) rfl]
  rw [readChunk_IHDR inflate
    { self := { mIhdr := ihdr0, mImgData := [],
                mPngFile := ⟨chunk tagIHDR (ihdrPayload h) crc ++ rest, true⟩ },
      decompressedData := [], validPngMask := 0, chunkLength := chunkLength0,
      chunkType := [0, 0, 0, 0, 0], idatBuffer := [], inflateCalls := [] }
    h crc rest hw0 hh0 hw hh hcrc rfl rfl rfl]
  rfl


/-- Below `2^31` bytes: a Paeth first scanline gives the first row of the same stream with Sub,
and the first pixel of a Paeth scanline is that of the same stream with Up. -/
theorem rgbBitDepth8_paeth_edges (hdr : IHDR) (data : List Nat)
    (hct : hdr.colorType = 2 ∨ hdr.colorType = 6) (hw : 0 < hdr.width) (hh : 0 < hdr.height)
    (hn : data.length = hdr.height * (1 + hdr.width * bytesPerPixel hdr))
    (hlt : data.length < 2147483648)
    (hft : ∀ r, r < hdr.height →
      data.getD (r * (1 + hdr.width * bytesPerPixel hdr)) 0 ≤ 4) :
    ∃ out, rgbBitDepth8 hdr [] data = .ok out ∧
      (data.getD 0 0 = 4 →
        ∃ outSub, rgbBitDepth8 hdr [] (data.set 0 1) = .ok outSub ∧
          ∀ j, j < hdr.width * bytesPerPixel hdr → out.getD j 0 = outSub.getD j 0) ∧
      (∀ r, r < hdr.height → data.getD (r * (1 + hdr.width * bytesPerPixel hdr)) 0 = 4 →
        ∃ outUp, rgbBitDepth8 hdr [] (data.set (r * (1 + hdr.width * bytesPerPixel hdr)) 2)
            = .ok outUp ∧
          ∀ k, k < bytesPerPixel hdr →
            out.getD (r * (hdr.width * bytesPerPixel hdr) + k) 0 =
              outUp.getD (r * (hdr.width * bytesPerPixel hdr) + k) 0) := by
  obtain ⟨out, hout, hlen, hB, hQ⟩ := rgbBitDepth8_reconstructs hdr data hct hw hh hn hlt hft
  have hbpos : 0 < bytesPerPixel hdr := by
    rcases bytesPerPixel_cases hdr hct with ⟨_, hb⟩ | ⟨_, hb⟩ <;> omega
  have hbS : bytesPerPixel hdr ≤ hdr.width * bytesPerPixel hdr := Nat.le_mul_of_pos_left _ hw
  have hS : 0 < hdr.width * bytesPerPixel hdr := Nat.mul_pos hw hbpos
  have hlen' : ∀ o : List Nat, o.length = hdr.width * hdr.height * bytesPerPixel hdr →
      o.length = hdr.height * (hdr.width * bytesPerPixel hdr) := by
    intro o ho
    rw [ho, Nat.mul_comm hdr.width hdr.height, Nat.mul_assoc]
  have hft' : ∀ q, q < hdr.height →
      data.getD (q * (hdr.width * bytesPerPixel hdr + 1)) 0 ≤ 4 := by
    intro q hq
    have := hft q hq
    rwa [Nat.add_comm 1] at this
  have hset : ∀ r v, v ≤ 4 →
      ∃ o, rgbBitDepth8 hdr [] (data.set (r * (hdr.width * bytesPerPixel hdr + 1)) v) = .ok o ∧
        o.length = hdr.height * (hdr.width * bytesPerPixel hdr) ∧
        Reconstructed (data.set (r * (hdr.width * bytesPerPixel hdr + 1)) v) o
          (bytesPerPixel hdr) (hdr.width * bytesPerPixel hdr) := by
    intro r v hv
    obtain ⟨o, ho, hol, _, hoQ⟩ := rgbBitDepth8_reconstructs hdr
      (data.set (r * (hdr.width * bytesPerPixel hdr + 1)) v) hct hw hh
      (by rw [List.length_set]; exact hn) (by rw [List.length_set]; exact hlt)
      (by
        intro q hq
        rw [Nat.add_comm 1]
        exact filter_bytes_set data _ hdr.height r v hv hft' q hq)
    exact ⟨o, ho, hlen' o hol, hoQ⟩
  refine ⟨out, hout, ?_, ?_⟩
  · intro hf
    obtain ⟨o, ho, hol, hoQ⟩ := hset 0 1 (by decide)
    rw [Nat.zero_mul] at ho hoQ
    refine ⟨o, ho, ?_⟩
    have hdl : 0 < data.length := by
      rw [hn]; exact Nat.mul_pos hh (by omega)
    exact Reconstructed_paeth_first_row data (data.set 0 1) out o (bytesPerPixel hdr)
      (hdr.width * bytesPerPixel hdr) hdr.height hbpos hh (hlen' out hlen) hol hB hQ hoQ hf
      (getD_set_eq data 0 1 hdl) (fun x hx => (getD_set_ne data 0 x 1 (by omega)).symm)
  · intro r hr hf
    rw [Nat.add_comm 1] at hf ⊢
    obtain ⟨o, ho, hol, hoQ⟩ := hset r 2 (by decide)
    refine ⟨o, ho, ?_⟩
    have hdl : r * (hdr.width * bytesPerPixel hdr + 1) < data.length := by
      rw [hn, Nat.add_comm 1]
      exact Nat.mul_lt_mul_of_pos_right hr (by omega)
    exact Reconstructed_paeth_first_pixel data _ out o (bytesPerPixel hdr)
      (hdr.width * bytesPerPixel hdr) hdr.height r hS hbpos hbS hr (hlen' out hlen) hol hB hQ hoQ
      hf (getD_set_eq data _ 2 hdl) (fun x hx => (getD_set_ne data _ x 2 (Ne.symm hx)).symm)


theorem toInt32_not_pos (n : Nat) (h1 : 2147483648 ≤ n) (h2 : n < 4294967296) :
    ¬ ((0 : Int) < toInt32 n) := by
  unfold toInt32 u32
  rw [Nat.mod_eq_of_lt h2, if_neg (by omega)]
  omega

theorem list_eq_of_getD (a b : List Nat) (hl : a.length = b.length)
    (h : ∀ x, x < a.length → a.getD x 0 = b.getD x 0) : a = b := by
  apply List.ext_getElem hl
  intro n h1 h2
  have := h n h1
  rwa [List.getD_eq_getElem a 0 h1, List.getD_eq_getElem b 0 h2] at this

/-- On a scanline size that is a multiple of 4 and a buffer of `height` scanlines, shorter than
`2^32` bytes, two calls of `reverseImg` in a row give the object back as it was. -/
theorem reverseImg_twice_multiple_of_4 (self : Png) (m : Nat)
    (hS : self.mIhdr.width * (if self.mIhdr.colorType = RGBTRIP then RGBSIZE else RGBASIZE)
      = 4 * m)
    (hlen : self.mImgData.length = self.mIhdr.height * (4 * m))
    (hlt : self.mImgData.length < 4294967296) :
    (reverseImg self).andThen reverseImg = .returned self := by
  obtain ⟨out1, h1, hl1, hg1⟩ := reverseImg_multiple_of_4 self m hS hlen hlt
  have hlen1 : ({ self with mImgData := out1 } : Png).mImgData.length
      = self.mIhdr.height * (4 * m) := by
    rw [← hlen]; exact hl1
  have hlt1 : ({ self with mImgData := out1 } : Png).mImgData.length < 4294967296 := by
    rw [hlen1, ← hlen]; exact hlt
  obtain ⟨out2, h2, hl2, hg2⟩ := reverseImg_multiple_of_4 { self with mImgData := out1 } m hS
    hlen1 hlt1
  dsimp only at h2 hl2 hg2
  rw [h1]
  simp only [Outcome.andThen]
  rw [h2]
  have hl2' : out2.length = out1.length := hl2
  have hfin : out2 = self.mImgData := by
    apply list_eq_of_getD _ _ (by rw [hl2', hl1])
    intro x hx
    have hx' : x < self.mIhdr.height * (4 * m) := by rw [← hlen, ← hl1, ← hl2']; exact hx
    have hm0 : 0 < 4 * m := by
      rcases Nat.eq_zero_or_pos (4 * m) with h0 | h0
      · rw [h0, Nat.mul_zero] at hx'; omega
      · exact h0
    obtain ⟨q, t, hq, ht, hx2⟩ : ∃ q t, q < self.mIhdr.height ∧ t < 4 * m ∧
        x = q * (4 * m) + t :=
      ⟨x / (4 * m), x % (4 * m), (Nat.div_lt_iff_lt_mul hm0).2 hx', Nat.mod_lt _ hm0, by
        rw [Nat.mul_comm]; exact (Nat.div_add_mod x (4 * m)).symm⟩
    rw [hx2, hg2 q t hq ht, hg1 _ t (by omega) ht,
      show self.mIhdr.height - 1 - (self.mIhdr.height - 1 - q) = q by omega]
  rw [hfin]

/-! ### The reconstruction engine: the predictor left over -/

theorem leftoverOf_append (data img ext : List Nat) (bpp S k : Nat) (hbS : bpp ≤ S)
    (hb : 0 < bpp) (hk : k < bpp) :
    ∀ r, r * S ≤ img.length →
      leftoverOf data (img ++ ext) bpp S r k = leftoverOf data img bpp S r k := by
  intro r
  induction r with
  | zero => intro _; rw [leftoverOf, leftoverOf]
  | succ r ih =>
    intro hr
    have e : (r + 1) * S = r * S + S := Nat.succ_mul r S
    rw [leftoverOf, leftoverOf, ih (by omega),
      predictorOf_append _ img ext bpp S _ hbS (by omega)]

/-- Bytes already reconstructed keep obeying the extended rule when the buffer grows. -/
theorem ReconstructedAnyAt_append (data img ext : List Nat) (bpp S j : Nat)
    (hbS : bpp ≤ S) (hb : 0 < bpp) (hj : j < img.length)
    (h : ReconstructedAnyAt data img bpp S j) :
    ReconstructedAnyAt data (img ++ ext) bpp S j := by
  unfold ReconstructedAnyAt at h ⊢
  have hdiv : j / S * S ≤ img.length := le_trans (Nat.div_mul_le_self j S) (by omega)
  rw [getD_append_lt img ext j hj, predictorOf_append _ img ext bpp S j hbS (by omega),
    leftoverOf_append data img ext bpp S _ hbS hb (Nat.mod_lt _ hb) _ hdiv]
  exact h

/-- The loop iteration on a pixel, given what the `switch` returns. -/
theorem rgbLoop_pixel_step (hdr : IHDR) (data : List Nat) (bpp S h r cb fuel fv : Nat)
    (fp fp1 : RGB) (img : List Nat)
    (hct : (hdr.colorType = 2 ∧ bpp = 3) ∨ (hdr.colorType = 6 ∧ bpp = 4))
    (hn : data.length = h * (S + 1)) (hlt : data.length < 2147483648) (hr : r < h)
    (hcbS : cb + bpp ≤ S)
    (hsw : filterSwitch hdr img S bpp (r * S + cb) cb (toInt32 (u32sub (r * S + cb) S)) fv fp
      = .ok fp1) :
    rgbLoop hdr data bpp S (fuel + 1) (r * (S + 1) + 1 + cb) (r * S + cb) fv fp img =
      rgbLoop hdr data bpp S fuel (r * (S + 1) + 1 + (cb + bpp)) (r * S + (cb + bpp)) fv fp1
        (img ++ ([(data.getD (r * (S + 1) + 1 + cb) 0 + fp1.Red) % 256,
          (data.getD (r * (S + 1) + 1 + cb + 1) 0 + fp1.Green) % 256,
          (data.getD (r * (S + 1) + 1 + cb + 2) 0 + fp1.Blue) % 256] ++
         (if hdr.colorType = 6 then [(data.getD (r * (S + 1) + 1 + cb + 3) 0 + fp1.Alpha) % 256]
          else []))) := by
  have hb3 : 3 ≤ bpp := by rcases hct with ⟨_, hb⟩ | ⟨_, hb⟩ <;> omega
  have e1 : r * (S + 1) = r * S + r := Nat.mul_succ r S
  have e2 : h * (S + 1) = h * S + h := Nat.mul_succ h S
  have e3 : r * S + S ≤ h * S := by
    have := Nat.mul_le_mul_right S (show r + 1 ≤ h from hr)
    rwa [Nat.succ_mul] at this
  have hmod : (r * S + cb) % S = cb := row_mod r S cb (by omega)
  have hpush := pushPixel_eq hdr data (r * (S + 1) + 1 + cb) bpp fp1 img hct (by omega) hlt
  have hcond : ((r * (S + 1) + 1 + cb : Nat) : Int) < toInt32 data.length := by
    rw [toInt32_small _ hlt]
    have : r * (S + 1) + 1 + cb < data.length := by omega
    exact_mod_cast this
  have hS0 : ¬ S = 0 := by omega
  have hu : u32 (S + 1) = S + 1 := u32_small _ (by omega)
  have hi : (r * (S + 1) + 1 + cb) % (S + 1) = 1 + cb := by
    rw [Nat.add_assoc, row_mod r (S + 1) (1 + cb) (by omega)]
  have hu2 : u32 (r * S + cb + bpp) = r * S + (cb + bpp) := by
    rw [u32_small _ (by omega)]; omega
  rw [rgbLoop]
  simp only [hcond, if_true, hS0, if_false, hu, hi, hmod, hsw, hpush,
    Nat.succ_ne_zero, hu2]
  rw [if_neg (by omega), if_pos (by omega)]
  rw [show r * (S + 1) + 1 + cb + bpp = r * (S + 1) + 1 + (cb + bpp) by omega]

/-- Byte `t` of the pixel that the `push_back` statements append. -/
theorem pushed_getD (ct i t : Nat) (data : List Nat) (fp : RGB)
    (ht : t < (if ct = 6 then 4 else 3)) :
    ([(data.getD i 0 + fp.Red) % 256, (data.getD (i + 1) 0 + fp.Green) % 256,
        (data.getD (i + 2) 0 + fp.Blue) % 256] ++
       (if ct = 6 then [(data.getD (i + 3) 0 + fp.Alpha) % 256] else [])).getD t 0 =
      (data.getD (i + t) 0 + fp.channel t) % 256 := by
  by_cases hc : ct = 6
  · rw [if_pos hc] at ht ⊢
    interval_cases t <;> simp [RGB.channel]
  · rw [if_neg hc] at ht ⊢
    interval_cases t <;> simp [RGB.channel]

theorem filterTypeOf_row (data : List Nat) (S r x : Nat) (hx : x < S) :
    filterTypeOf data S (r * S + x) = data.getD (r * (S + 1)) 0 := by
  unfold filterTypeOf
  rw [row_div r S x hx]

theorem filteredByte_row (data : List Nat) (S r x : Nat) (hx : x < S) :
    filteredByte data S (r * S + x) = data.getD (r * (S + 1) + 1 + x) 0 := by
  unfold filteredByte
  rw [row_div r S x hx, row_mod r S x hx]

/-- One iteration of the loop on pixel `c` of scanline `r`, for an arbitrary filter-type byte:
the pixel appended obeys the extended rule, and `filterPix` holds the predictor of this pixel
(filter types 0..4) or still what was left over (any other byte). -/
theorem rgbLoop_pixel_gen (hdr : IHDR) (data : List Nat) (bpp S h r c fuel fv : Nat) (fp : RGB)
    (img : List Nat)
    (hct : (hdr.colorType = 2 ∧ bpp = 3) ∨ (hdr.colorType = 6 ∧ bpp = 4))
    (hn : data.length = h * (S + 1)) (hlt : data.length < 2147483648) (hr : r < h)
    (hcS : c * bpp + bpp ≤ S)
    (hlen : img.length = r * S + c * bpp) (hB : ∀ x ∈ img, x < 256)
    (hQ : ∀ j, j < img.length → ReconstructedAnyAt data img bpp S j)
    (hfv : fv = data.getD (r * (S + 1)) 0)
    (hF : ∀ k, k < bpp → fp.channel k =
      if fv ≤ 4 ∧ 0 < c then predictorOf fv img bpp S (r * S + c * bpp - bpp + k)
      else leftoverOf data img bpp S r k) :
    ∃ fp1 img1,
      rgbLoop hdr data bpp S (fuel + 1) (r * (S + 1) + 1 + c * bpp) (r * S + c * bpp) fv fp img =
        rgbLoop hdr data bpp S fuel (r * (S + 1) + 1 + (c + 1) * bpp) (r * S + (c + 1) * bpp) fv
          fp1 img1 ∧
      img1.length = r * S + (c + 1) * bpp ∧ (∀ x ∈ img1, x < 256) ∧
      (∀ j, j < img1.length → ReconstructedAnyAt data img1 bpp S j) ∧
      (∀ k, k < bpp → fp1.channel k =
        if fv ≤ 4 ∧ 0 < c + 1 then predictorOf fv img1 bpp S (r * S + (c + 1) * bpp - bpp + k)
        else leftoverOf data img1 bpp S r k) := by
  have hb3 : 3 ≤ bpp := by rcases hct with ⟨_, hb⟩ | ⟨_, hb⟩ <;> omega
  have hb4 : bpp ≤ 4 := by rcases hct with ⟨_, hb⟩ | ⟨_, hb⟩ <;> omega
  have hbct : bpp = if hdr.colorType = 6 then 4 else 3 := by
    rcases hct with ⟨h2, hb⟩ | ⟨h6, hb⟩
    · rw [h2, hb]; rfl
    · rw [h6, hb]; rfl
  have hsucc : (c + 1) * bpp = c * bpp + bpp := Nat.succ_mul c bpp
  have e1 : r * (S + 1) = r * S + r := Nat.mul_succ r S
  have e2 : h * (S + 1) = h * S + h := Nat.mul_succ h S
  have e3 : r * S + S ≤ h * S := by
    have := Nat.mul_le_mul_right S (show r + 1 ≤ h from hr)
    rwa [Nat.succ_mul] at this
  have hedge : c * bpp = 0 ∨ bpp ≤ c * bpp := by
    rcases Nat.eq_zero_or_pos c with h0 | h0
    · left; rw [h0, Nat.zero_mul]
    · right; exact Nat.le_mul_of_pos_left bpp h0
  have hrow : r * S + c * bpp = c * bpp ∨ c * bpp + S ≤ r * S + c * bpp := by
    rcases Nat.eq_zero_or_pos r with h0 | h0
    · left; rw [h0]; simp
    · right
      have := Nat.le_mul_of_pos_left S h0
      omega
  have hmod : (r * S + c * bpp) % S = c * bpp := row_mod r S (c * bpp) (by omega)
  have P : AtPixel img bpp S (r * S + c * bpp) (c * bpp) :=
    ⟨hlen, by omega, by omega, hb3, hb4, hcS, hedge, hmod, hrow, hB⟩
  have hbytes : ∀ (q : RGB) (x : Nat), x ∈ img ++ ([(data.getD (r * (S + 1) + 1 + c * bpp) 0 + q.Red) % 256,
          (data.getD (r * (S + 1) + 1 + c * bpp + 1) 0 + q.Green) % 256,
          (data.getD (r * (S + 1) + 1 + c * bpp + 2) 0 + q.Blue) % 256] ++
         (if hdr.colorType = 6 then [(data.getD (r * (S + 1) + 1 + c * bpp + 3) 0 + q.Alpha) % 256]
          else [])) → x < 256 := by
    intro q x hx
    rw [List.mem_append] at hx
    rcases hx with hx | hx
    · exact hB x hx
    · have h256 : ∀ y : Nat, y % 256 < 256 := fun y => Nat.mod_lt _ (by decide)
      simp only [List.mem_append, List.mem_cons, List.mem_singleton, List.not_mem_nil,
        or_false] at hx
      rcases hx with (hx | hx | hx) | hx
      · rw [hx]; exact h256 _
      · rw [hx]; exact h256 _
      · rw [hx]; exact h256 _
      · split_ifs at hx
        · simp only [List.mem_singleton] at hx
          rw [hx]; exact h256 _
        · simp at hx
  have hlen1 : ∀ (q : RGB), (img ++ ([(data.getD (r * (S + 1) + 1 + c * bpp) 0 + q.Red) % 256,
          (data.getD (r * (S + 1) + 1 + c * bpp + 1) 0 + q.Green) % 256,
          (data.getD (r * (S + 1) + 1 + c * bpp + 2) 0 + q.Blue) % 256] ++
         (if hdr.colorType = 6 then [(data.getD (r * (S + 1) + 1 + c * bpp + 3) 0 + q.Alpha) % 256]
          else []))).length = r * S + (c + 1) * bpp := by
    intro q
    rcases hct with ⟨h2, hb⟩ | ⟨h6, hb⟩
    · simp [h2, hlen, hb]
      omega
    · simp [h6, hlen, hb]
      omega
  -- the byte at index `img.length + t` of the new buffer
  have hnew : ∀ (q : RGB) (t : Nat), t < bpp →
      (img ++ ([(data.getD (r * (S + 1) + 1 + c * bpp) 0 + q.Red) % 256,
          (data.getD (r * (S + 1) + 1 + c * bpp + 1) 0 + q.Green) % 256,
          (data.getD (r * (S + 1) + 1 + c * bpp + 2) 0 + q.Blue) % 256] ++
         (if hdr.colorType = 6 then [(data.getD (r * (S + 1) + 1 + c * bpp + 3) 0 + q.Alpha) % 256]
          else []))).getD (r * S + c * bpp + t) 0 =
        (data.getD (r * (S + 1) + 1 + c * bpp + t) 0 + q.channel t) % 256 := by
    intro q t ht
    rw [← hlen, getD_append_right_nat]
    exact pushed_getD hdr.colorType _ t data q (by rw [← hbct]; exact ht)
  by_cases hfv4 : fv ≤ 4
  · obtain ⟨a, hsw, ha⟩ := filterSwitch_eq hdr img bpp S (r * S + c * bpp) (c * bpp) fv fp P hct hfv4
    obtain ⟨fp1, hfp1⟩ : ∃ fp1 : RGB, fp1 =
        { Red := predictorOf fv img bpp S (r * S + c * bpp)
          Green := predictorOf fv img bpp S (r * S + c * bpp + 1)
          Blue := predictorOf fv img bpp S (r * S + c * bpp + 2)
          Alpha := a } := ⟨_, rfl⟩
    rw [← hfp1] at hsw
    have hstep := rgbLoop_pixel_step hdr data bpp S h r (c * bpp) fuel fv fp fp1 img hct hn hlt hr
      hcS hsw
    have hch : ∀ t, t < bpp →
        fp1.channel t = predictorOf fv img bpp S (r * S + c * bpp + t) := by
      intro t ht
      have ht4 : t < 4 := by omega
      rw [hfp1]
      interval_cases t
      · simp [RGB.channel]
      · simp [RGB.channel]
      · simp [RGB.channel]
      · have h6 : hdr.colorType = 6 := by
          rcases hct with ⟨_, hb⟩ | ⟨h6, _⟩
          · omega
          · exact h6
        simp [RGB.channel, ha h6]
    refine ⟨fp1, (img ++ ([(data.getD (r * (S + 1) + 1 + c * bpp) 0 + fp1.Red) % 256,
        (data.getD (r * (S + 1) + 1 + c * bpp + 1) 0 + fp1.Green) % 256,
        (data.getD (r * (S + 1) + 1 + c * bpp + 2) 0 + fp1.Blue) % 256] ++
       (if hdr.colorType = 6 then [(data.getD (r * (S + 1) + 1 + c * bpp + 3) 0 + fp1.Alpha) % 256]
        else []))), ?_, hlen1 fp1, hbytes fp1, ?_, ?_⟩
    · rw [hsucc]; exact hstep
    · intro j hj
      rw [hlen1] at hj
      by_cases hjl : j < img.length
      · exact ReconstructedAnyAt_append data img _ bpp S j (by omega) (by omega) hjl (hQ j hjl)
      · obtain ⟨t, ht, rfl⟩ : ∃ t, t < bpp ∧ j = r * S + c * bpp + t :=
          ⟨j - (r * S + c * bpp), by omega, by omega⟩
        have hval := pushed_getD hdr.colorType (r * (S + 1) + 1 + c * bpp) t data fp1
          (by rw [← hbct]; exact ht)
        rw [hch t ht] at hval
        have hR := ReconstructedAt_new data img _ bpp S r (c * bpp) t fv hlen ht hcS hfv hval
        unfold ReconstructedAnyAt
        unfold ReconstructedAt at hR
        have hft : filterTypeOf data S (r * S + c * bpp + t) = fv := by
          rw [Nat.add_assoc, filterTypeOf_row data S r (c * bpp + t) (by omega), hfv]
        rw [hft, if_pos hfv4]
        rw [hft] at hR
        exact hR
    · intro k hk
      rw [if_pos ⟨hfv4, Nat.succ_pos c⟩, hch k hk,
        show r * S + (c + 1) * bpp - bpp + k = r * S + c * bpp + k by omega,
        predictorOf_append _ img _ bpp S _ (by omega) (by omega)]
  · obtain ⟨fp1, hsw, hkeep⟩ := filterSwitch_ok hdr img bpp S (r * S + c * bpp) (c * bpp) fv fp P hct
    have hfp : fp1 = fp := hkeep (by omega)
    subst hfp
    have hstep := rgbLoop_pixel_step hdr data bpp S h r (c * bpp) fuel fv fp1 fp1 img hct hn hlt hr
      hcS hsw
    have hleft : ∀ k, k < bpp → fp1.channel k = leftoverOf data img bpp S r k := by
      intro k hk
      rw [hF k hk, if_neg (fun hc => hfv4 hc.1)]
    refine ⟨fp1, (img ++ ([(data.getD (r * (S + 1) + 1 + c * bpp) 0 + fp1.Red) % 256,
        (data.getD (r * (S + 1) + 1 + c * bpp + 1) 0 + fp1.Green) % 256,
        (data.getD (r * (S + 1) + 1 + c * bpp + 2) 0 + fp1.Blue) % 256] ++
       (if hdr.colorType = 6 then [(data.getD (r * (S + 1) + 1 + c * bpp + 3) 0 + fp1.Alpha) % 256]
        else []))), ?_, hlen1 fp1, hbytes fp1, ?_, ?_⟩
    · rw [hsucc]; exact hstep
    · intro j hj
      rw [hlen1] at hj
      by_cases hjl : j < img.length
      · exact ReconstructedAnyAt_append data img _ bpp S j (by omega) (by omega) hjl (hQ j hjl)
      · obtain ⟨t, ht, rfl⟩ : ∃ t, t < bpp ∧ j = r * S + c * bpp + t :=
          ⟨j - (r * S + c * bpp), by omega, by omega⟩
        unfold ReconstructedAnyAt
        have hft : filterTypeOf data S (r * S + c * bpp + t) = fv := by
          rw [Nat.add_assoc, filterTypeOf_row data S r (c * bpp + t) (by omega), hfv]
        have hfb : filteredByte data S (r * S + c * bpp + t)
            = data.getD (r * (S + 1) + 1 + c * bpp + t) 0 := by
          rw [Nat.add_assoc, filteredByte_row data S r (c * bpp + t) (by omega), ← Nat.add_assoc]
        have hd : (r * S + c * bpp + t) / S = r := by
          rw [Nat.add_assoc]; exact row_div r S (c * bpp + t) (by omega)
        have hm : (r * S + c * bpp + t) % S % bpp = t := by
          rw [Nat.add_assoc, row_mod r S (c * bpp + t) (by omega), Nat.add_comm,
            Nat.add_mul_mod_self_right, Nat.mod_eq_of_lt ht]
        rw [hft, if_neg hfv4, hfb, hd, hm, hnew fp1 t ht, hleft t ht,
          leftoverOf_append data img _ bpp S t (by omega) (by omega) ht r (by omega)]
    · intro k hk
      rw [if_neg (fun hc => hfv4 hc.1), hleft k hk,
        leftoverOf_append data img _ bpp S k (by omega) (by omega) hk r (by omega)]

/-- The rest of a scanline, from pixel `c` on, for an arbitrary filter-type byte. -/
theorem rgbLoop_row_rest_gen (hdr : IHDR) (data : List Nat) (bpp S w h r fv : Nat)
    (hct : (hdr.colorType = 2 ∧ bpp = 3) ∨ (hdr.colorType = 6 ∧ bpp = 4))
    (hS : S = w * bpp)
    (hn : data.length = h * (S + 1)) (hlt : data.length < 2147483648) (hr : r < h)
    (hfv : fv = data.getD (r * (S + 1)) 0) :
    ∀ (d c : Nat), c + d = w → ∀ (fuel : Nat) (fp : RGB) (img : List Nat),
      img.length = r * S + c * bpp → (∀ x ∈ img, x < 256) →
      (∀ j, j < img.length → ReconstructedAnyAt data img bpp S j) →
      (∀ k, k < bpp → fp.channel k =
        if fv ≤ 4 ∧ 0 < c then predictorOf fv img bpp S (r * S + c * bpp - bpp + k)
        else leftoverOf data img bpp S r k) →
      ∃ fp' img',
        rgbLoop hdr data bpp S (fuel + d) (r * (S + 1) + 1 + c * bpp) (r * S + c * bpp) fv fp img
          = rgbLoop hdr data bpp S fuel ((r + 1) * (S + 1)) ((r + 1) * S) fv fp' img' ∧
        img'.length = (r + 1) * S ∧ (∀ x ∈ img', x < 256) ∧
        (∀ j, j < img'.length → ReconstructedAnyAt data img' bpp S j) ∧
        (∀ k, k < bpp → fp'.channel k =
          if fv ≤ 4 ∧ 0 < w then predictorOf fv img' bpp S (r * S + w * bpp - bpp + k)
          else leftoverOf data img' bpp S r k) := by
  intro d
  induction d with
  | zero =>
    intro c hc fuel fp img hlen hB hQ hF
    have hcw : c = w := by omega
    subst hcw
    refine ⟨fp, img, ?_, ?_, hB, hQ, hF⟩
    · rw [Nat.succ_mul r (S + 1), Nat.succ_mul r S, ← hS]
      rw [show r * (S + 1) + 1 + S = r * (S + 1) + (S + 1) by omega]
      rfl
    · rw [hlen, Nat.succ_mul r S, ← hS]
  | succ d ih =>
    intro c hc fuel fp img hlen hB hQ hF
    have hcS : c * bpp + bpp ≤ S := by
      rw [hS, ← Nat.succ_mul]
      exact Nat.mul_le_mul_right bpp (by omega)
    obtain ⟨fp1, img1, hstep, hlen1, hB1, hQ1, hF1⟩ := rgbLoop_pixel_gen hdr data bpp S h r c
      (fuel + d) fv fp img hct hn hlt hr hcS hlen hB hQ hfv hF
    obtain ⟨fp', img', hrest, hlen', hB', hQ', hF'⟩ := ih (c + 1) (by omega) fuel fp1 img1
      hlen1 hB1 hQ1 hF1
    refine ⟨fp', img', ?_, hlen', hB', hQ', hF'⟩
    rw [show fuel + (d + 1) = fuel + d + 1 from rfl, hstep, hrest]

/-- The scanlines from `r` on, for arbitrary filter-type bytes: when the loop enters a
scanline, `filterPix` holds what is left over. -/
theorem rgbLoop_rows_gen (hdr : IHDR) (data : List Nat) (bpp S w h : Nat)
    (hct : (hdr.colorType = 2 ∧ bpp = 3) ∨ (hdr.colorType = 6 ∧ bpp = 4))
    (hS : S = w * bpp) (hw : 0 < w)
    (hn : data.length = h * (S + 1)) (hlt : data.length < 2147483648) :
    ∀ (e r : Nat), r + e = h → ∀ (fuel fv : Nat) (fp : RGB) (img : List Nat),
      img.length = r * S → (∀ x ∈ img, x < 256) →
      (∀ j, j < img.length → ReconstructedAnyAt data img bpp S j) →
      (∀ k, k < bpp → fp.channel k = leftoverOf data img bpp S r k) →
      ∃ out, rgbLoop hdr data bpp S (fuel + e * (w + 1)) (r * (S + 1)) (r * S) fv fp img
          = .ok out ∧
        out.length = h * S ∧ (∀ x ∈ out, x < 256) ∧
        (∀ j, j < out.length → ReconstructedAnyAt data out bpp S j) := by
  have hbpos : 0 < bpp := by rcases hct with ⟨_, hb⟩ | ⟨_, hb⟩ <;> omega
  have hS0 : 0 < S := by rw [hS]; exact Nat.mul_pos hw hbpos
  intro e
  induction e with
  | zero =>
    intro r hr fuel fv fp img hlen hB hQ _
    have hrh : r = h := by omega
    subst hrh
    refine ⟨img, ?_, hlen, hB, hQ⟩
    apply rgbLoop_done
    rw [toInt32_small _ hlt, hn]
    exact lt_irrefl _
  | succ e ih =>
    intro r hr fuel fv fp img hlen hB hQ hF
    have hrh : r < h := by omega
    have hf := rgbLoop_filter_byte hdr data bpp S h r (fuel + e * (w + 1) + w) fv fp img hS0 hn
      hlt hrh
    obtain ⟨fp', img', hrow, hlen', hB', hQ', hF'⟩ := rgbLoop_row_rest_gen hdr data bpp S w h r
      (data.getD (r * (S + 1)) 0) hct hS hn hlt hrh rfl w 0 (by omega)
      (fuel + e * (w + 1)) fp img (by rw [hlen]; simp) hB hQ
      (by
        intro k hk
        rw [if_neg (fun hc => absurd hc.2 (lt_irrefl 0))]
        exact hF k hk)
    obtain ⟨out, hout, hlo, hBo, hQo⟩ := ih (r + 1) (by omega) fuel
      (data.getD (r * (S + 1)) 0) fp' img' hlen' hB'  hQ'
      (by
        intro k hk
        rw [hF' k hk, leftoverOf]
        by_cases h4 : data.getD (r * (S + 1)) 0 ≤ 4
        · rw [if_pos ⟨h4, hw⟩, if_pos h4, Nat.succ_mul r S, hS]
        · rw [if_neg (fun hc => h4 hc.1), if_neg h4])
    refine ⟨out, ?_, hlo, hBo, hQo⟩
    rw [show fuel + (e + 1) * (w + 1) = fuel + e * (w + 1) + w + 1 by
      rw [Nat.succ_mul]; omega]
    rw [hf]
    simp only [Nat.zero_mul, Nat.add_zero] at hrow
    rw [hrow, hout]

/-- On a stream of `height` scanlines of `1 + width * bpp` bytes, shorter than `2^31` bytes and
with arbitrary filter-type bytes, `rgbBitDepth8` started on an empty buffer returns
`width * height * bpp` bytes, each obeying the extended reconstruction rule. -/
theorem rgbBitDepth8_reconstructs_any (hdr : IHDR) (data : List Nat)
    (hct : hdr.colorType = 2 ∨ hdr.colorType = 6) (hw : 0 < hdr.width) (hh : 0 < hdr.height)
    (hn : data.length = hdr.height * (1 + hdr.width * bytesPerPixel hdr))
    (hlt : data.length < 2147483648) :
    ∃ out, rgbBitDepth8 hdr [] data = .ok out ∧
      out.length = hdr.width * hdr.height * bytesPerPixel hdr ∧ (∀ x ∈ out, x < 256) ∧
      ∀ j, j < out.length →
        ReconstructedAnyAt data out (bytesPerPixel hdr) (hdr.width * bytesPerPixel hdr) j := by
  have hcases := bytesPerPixel_cases hdr hct
  have hn' : data.length = hdr.height * (hdr.width * bytesPerPixel hdr + 1) := by
    rw [hn, Nat.add_comm]
  have hS1 : hdr.width * bytesPerPixel hdr + 1 ≤ data.length := by
    rw [hn']
    exact Nat.le_mul_of_pos_left _ hh
  have hbpp : (if hdr.colorType = RGBTRIP then RGBSIZE else RGBASIZE) = bytesPerPixel hdr := rfl
  have hwS : hdr.width ≤ hdr.width * bytesPerPixel hdr :=
    Nat.le_mul_of_pos_right _ (by rcases hcases with ⟨_, hb⟩ | ⟨_, hb⟩ <;> omega)
  have hfuel : hdr.height * (hdr.width + 1) ≤ data.length := by
    rw [hn']
    exact Nat.mul_le_mul_left _ (by omega)
  obtain ⟨out, hout, hlen, hB, hQ⟩ := rgbLoop_rows_gen hdr data (bytesPerPixel hdr)
    (hdr.width * bytesPerPixel hdr) hdr.width hdr.height hcases rfl hw hn' hlt
    hdr.height 0 (by omega) (data.length - hdr.height * (hdr.width + 1)) 0
    { Red := 0, Green := 0, Blue := 0, Alpha := 0 } [] (by simp) (by simp)
    (by intro j hj; simp at hj)
    (by
      intro k _
      rw [leftoverOf]
      unfold RGB.channel
      split_ifs <;> rfl)
  refine ⟨out, ?_, ?_, hB, hQ⟩
  · unfold rgbBitDepth8
    simp only [hbpp]
    rw [u32_small _ (by omega)]
    rw [show data.length - hdr.height * (hdr.width + 1) + hdr.height * (hdr.width + 1)
      = data.length by omega] at hout
    simpa using hout
  · rw [hlen, Nat.mul_comm hdr.height, Nat.mul_assoc, Nat.mul_assoc,
      Nat.mul_comm hdr.height]

/-! ### The reconstruction engine: edges, for arbitrary filter-type bytes -/

/-- The predictor of output index `j` depends on the bytes before `j` only. -/
theorem predictorOf_congr (ft : Nat) (o1 o2 : List Nat) (bpp S j : Nat) (hbpp : 0 < bpp)
    (hS : 0 < S) (h : ∀ x, x < j → o1.getD x 0 = o2.getD x 0) :
    predictorOf ft o1 bpp S j = predictorOf ft o2 bpp S j := by
  have hl : leftOf o1 bpp S j = leftOf o2 bpp S j := by
    unfold leftOf
    split_ifs
    · rfl
    · have := Nat.mod_le j S
      exact h (j - bpp) (by omega)
  have hu : upOf o1 S j = upOf o2 S j := by
    unfold upOf
    split_ifs
    · rfl
    · exact h (j - S) (by omega)
  have hul : upLeftOf o1 bpp S j = upLeftOf o2 bpp S j := by
    unfold upLeftOf
    split_ifs
    · rfl
    · exact h (j - S - bpp) (by omega)
  unfold predictorOf
  rw [hl, hu, hul]

/-- The predictor left over when scanline `r` is entered depends on the first `r` scanlines
of the stream and the first `r` rows of the buffer only. -/
theorem leftoverOf_congr (d1 d2 o1 o2 : List Nat) (bpp S : Nat) (hbpp : 0 < bpp)
    (hbS : bpp ≤ S) (r k : Nat) (hk : k < bpp)
    (hd : ∀ x, x < r * (S + 1) → d1.getD x 0 = d2.getD x 0)
    (ho : ∀ x, x < r * S → o1.getD x 0 = o2.getD x 0) :
    leftoverOf d1 o1 bpp S r k = leftoverOf d2 o2 bpp S r k := by
  induction r with
  | zero => rfl
  | succ r ih =>
    have e1 : (r + 1) * (S + 1) = r * (S + 1) + (S + 1) := Nat.succ_mul _ _
    have e2 : (r + 1) * S = r * S + S := Nat.succ_mul _ _
    unfold leftoverOf
    rw [hd (r * (S + 1)) (by omega)]
    split_ifs
    · exact predictorOf_congr _ o1 o2 bpp S _ hbpp (by omega)
        (fun x hx => ho x (by omega))
    · exact ih (fun x hx => hd x (by omega)) (fun x hx => ho x (by omega))

/-- Two streams that agree on their first `R` scanlines are reconstructed to buffers that agree
on their first `R` rows, whatever their filter-type bytes are. -/
theorem ReconstructedAny_agree (d1 d2 o1 o2 : List Nat) (bpp S R : Nat) (hbpp : 0 < bpp)
    (hbS : bpp ≤ S)
    (h1 : ∀ j, j < R * S → ReconstructedAnyAt d1 o1 bpp S j)
    (h2 : ∀ j, j < R * S → ReconstructedAnyAt d2 o2 bpp S j)
    (hd : ∀ x, x < R * (S + 1) → d1.getD x 0 = d2.getD x 0) :
    ∀ j, j < R * S → o1.getD j 0 = o2.getD j 0 := by
  intro j
  induction j using Nat.strong_induction_on with
  | _ j ih =>
    intro hj
    have hS : 0 < S := by omega
    have e1 := h1 j hj
    have e2 := h2 j hj
    unfold ReconstructedAnyAt filteredByte filterTypeOf at e1 e2
    have hidx := filteredByte_index_lt S R j hS hj
    have hrow : j / S * S ≤ j := Nat.div_mul_le_self j S
    have hdiv : j / S < R := (Nat.div_lt_iff_lt_mul hS).2 hj
    have hrow2 : (j / S + 1) * (S + 1) ≤ R * (S + 1) := Nat.mul_le_mul_right _ hdiv
    rw [Nat.succ_mul] at hrow2
    rw [e1, e2, hd _ hidx, hd (j / S * (S + 1)) (by omega)]
    rw [predictorOf_congr _ o1 o2 bpp S j hbpp hS (fun x hx => ih x hx (by omega)),
      leftoverOf_congr d1 d2 o1 o2 bpp S hbpp hbS (j / S) (j % S % bpp)
        (Nat.mod_lt _ hbpp) (fun x hx => hd x (by omega))
        (fun x hx => ih x (by omega) (by omega))]

/-- A first row filtered with Paeth is reconstructed like the same row filtered with Sub. -/
theorem paeth_first_row_agree (d1 d2 o1 o2 : List Nat) (bpp S : Nat) (hbpp : 0 < bpp)
    (hB1 : ∀ x ∈ o1, x < 256)
    (h1 : ∀ j, j < S → ReconstructedAnyAt d1 o1 bpp S j)
    (h2 : ∀ j, j < S → ReconstructedAnyAt d2 o2 bpp S j)
    (hf1 : d1.getD 0 0 = 4) (hf2 : d2.getD 0 0 = 1)
    (hd : ∀ x, 0 < x → d1.getD x 0 = d2.getD x 0) :
    ∀ j, j < S → o1.getD j 0 = o2.getD j 0 := by
  intro j
  induction j using Nat.strong_induction_on with
  | _ j ih =>
    intro hj
    have e1 := h1 j hj
    have e2 := h2 j hj
    unfold ReconstructedAnyAt filteredByte filterTypeOf at e1 e2
    rw [Nat.div_eq_of_lt hj, Nat.mod_eq_of_lt hj, Nat.zero_mul] at e1 e2
    rw [hf1, if_pos (by decide)] at e1
    rw [hf2, if_pos (by decide)] at e2
    rw [e1, e2, hd _ (by omega)]
    have hl : leftOf o1 bpp S j = leftOf o2 bpp S j := by
      unfold leftOf
      split_ifs
      · rfl
      · have := Nat.mod_le j S
        exact ih (j - bpp) (by omega) (by omega)
    have hu : upOf o1 S j = 0 := by
      unfold upOf
      rw [if_pos hj]
    have hul : upLeftOf o1 bpp S j = 0 := by
      unfold upLeftOf
      rw [if_pos (Or.inr hj)]
    unfold predictorOf
    simp only [if_neg (show ¬ (4 = 0) by decide), if_neg (show ¬ (4 = 1) by decide),
      if_neg (show ¬ (4 = 2) by decide), if_neg (show ¬ (4 = 3) by decide),
      if_neg (show ¬ (1 = 0) by decide), if_true]
    rw [hu, hul, calcPaethByte_left _ (leftOf_lt o1 bpp S j hB1), hl]

/-- The first pixel of a scanline filtered with Paeth is reconstructed like the first pixel of
that scanline filtered with Up. -/
theorem paeth_first_pixel_agree (d1 d2 o1 o2 : List Nat) (bpp S r : Nat)
    (hbpp : 0 < bpp) (hbS : bpp ≤ S)
    (hB1 : ∀ x ∈ o1, x < 256)
    (h1 : ∀ j, j < (r + 1) * S → ReconstructedAnyAt d1 o1 bpp S j)
    (h2 : ∀ j, j < (r + 1) * S → ReconstructedAnyAt d2 o2 bpp S j)
    (hf1 : d1.getD (r * (S + 1)) 0 = 4) (hf2 : d2.getD (r * (S + 1)) 0 = 2)
    (hd : ∀ x, x ≠ r * (S + 1) → d1.getD x 0 = d2.getD x 0) :
    ∀ k, k < bpp → o1.getD (r * S + k) 0 = o2.getD (r * S + k) 0 := by
  intro k hk
  have e3 : (r + 1) * S = r * S + S := Nat.succ_mul _ _
  have hagree := ReconstructedAny_agree d1 d2 o1 o2 bpp S r hbpp hbS
    (fun j hj => h1 j (by omega)) (fun j hj => h2 j (by omega)) (fun x hx => hd x (by omega))
  have e1 := h1 (r * S + k) (by omega)
  have e2 := h2 (r * S + k) (by omega)
  unfold ReconstructedAnyAt filteredByte filterTypeOf at e1 e2
  rw [row_div r S k (by omega), row_mod r S k (by omega)] at e1 e2
  rw [hf1, if_pos (by decide)] at e1
  rw [hf2, if_pos (by decide)] at e2
  rw [e1, e2, hd _ (by omega)]
  have hl : leftOf o1 bpp S (r * S + k) = 0 := by
    unfold leftOf
    rw [row_mod r S k (by omega), if_pos hk]
  have hul : upLeftOf o1 bpp S (r * S + k) = 0 := by
    unfold upLeftOf
    rw [row_mod r S k (by omega), if_pos (Or.inl hk)]
  have hu : upOf o1 S (r * S + k) = upOf o2 S (r * S + k) := by
    unfold upOf
    split_ifs
    · rfl
    · exact hagree _ (by omega)
  unfold predictorOf
  simp only [if_neg (show ¬ (4 = 0) by decide), if_neg (show ¬ (4 = 1) by decide),
    if_neg (show ¬ (4 = 2) by decide), if_neg (show ¬ (4 = 3) by decide),
    if_neg (show ¬ (2 = 0) by decide), if_neg (show ¬ (2 = 1) by decide), if_true]
  rw [hl, hul, calcPaethByte_up _ (upOf_lt o1 S _ hB1), hu]

theorem take_eq_of_getD (a b : List Nat) (n : Nat) (hl : a.length = b.length)
    (h : ∀ x, x < n → a.getD x 0 = b.getD x 0) : a.take n = b.take n := by
  apply list_eq_of_getD
  · rw [List.length_take, List.length_take, hl]
  · intro x hx
    rw [List.length_take] at hx
    have hx1 : x < n := by omega
    have := h x hx1
    simp only [List.getD_eq_getElem?_getD, List.getElem?_take, if_pos hx1] at this ⊢
    exact this

theorem drop_take_eq_of_getD (a b : List Nat) (m n : Nat) (hl : a.length = b.length)
    (h : ∀ x, x < n → a.getD (m + x) 0 = b.getD (m + x) 0) :
    (a.drop m).take n = (b.drop m).take n := by
  apply take_eq_of_getD
  · rw [List.length_drop, List.length_drop, hl]
  · intro x hx
    have := h x hx
    simp only [List.getD_eq_getElem?_getD, List.getElem?_drop] at this ⊢
    exact this

/-- Below `2^31` bytes, whatever the filter-type bytes of the other scanlines are: a Paeth
first scanline gives the first row of the same stream with Sub, and the first pixel of a Paeth
scanline is that of the same stream with Up. -/
theorem rgbBitDepth8_paeth_edges_any (hdr : IHDR) (data : List Nat)
    (hct : hdr.colorType = 2 ∨ hdr.colorType = 6) (hw : 0 < hdr.width) (hh : 0 < hdr.height)
    (hn : data.length = hdr.height * (1 + hdr.width * bytesPerPixel hdr))
    (hlt : data.length < 2147483648) :
    ∃ out, rgbBitDepth8 hdr [] data = .ok out ∧
      out.length = hdr.width * hdr.height * bytesPerPixel hdr ∧
      (data.getD 0 0 = 4 →
        ∃ outSub, rgbBitDepth8 hdr [] (data.set 0 1) = .ok outSub ∧
          outSub.length = out.length ∧
          out.take (hdr.width * bytesPerPixel hdr) =
            outSub.take (hdr.width * bytesPerPixel hdr)) ∧
      (∀ r, r < hdr.height → data.getD (r * (1 + hdr.width * bytesPerPixel hdr)) 0 = 4 →
        ∃ outUp, rgbBitDepth8 hdr [] (data.set (r * (1 + hdr.width * bytesPerPixel hdr)) 2)
            = .ok outUp ∧
          outUp.length = out.length ∧
          (out.drop (r * (hdr.width * bytesPerPixel hdr))).take (bytesPerPixel hdr) =
            (outUp.drop (r * (hdr.width * bytesPerPixel hdr))).take (bytesPerPixel hdr)) := by
  obtain ⟨out, hout, hlen, hB, hQ⟩ := rgbBitDepth8_reconstructs_any hdr data hct hw hh hn hlt
  have hbpos : 0 < bytesPerPixel hdr := by
    rcases bytesPerPixel_cases hdr hct with ⟨_, hb⟩ | ⟨_, hb⟩ <;> omega
  have hbS : bytesPerPixel hdr ≤ hdr.width * bytesPerPixel hdr := Nat.le_mul_of_pos_left _ hw
  have hlen' : ∀ o : List Nat, o.length = hdr.width * hdr.height * bytesPerPixel hdr →
      o.length = hdr.height * (hdr.width * bytesPerPixel hdr) := by
    intro o ho
    rw [ho, Nat.mul_comm hdr.width hdr.height, Nat.mul_assoc]
  have hrows : ∀ r, r < hdr.height → (r + 1) * (hdr.width * bytesPerPixel hdr) ≤
      hdr.height * (hdr.width * bytesPerPixel hdr) :=
    fun r hr => Nat.mul_le_mul_right _ hr
  have hset : ∀ i v,
      ∃ o, rgbBitDepth8 hdr [] (data.set i v) = .ok o ∧
        o.length = hdr.width * hdr.height * bytesPerPixel hdr ∧
        ∀ j, j < o.length → ReconstructedAnyAt (data.set i v) o (bytesPerPixel hdr)
          (hdr.width * bytesPerPixel hdr) j := by
    intro i v
    obtain ⟨o, ho, hol, _, hoQ⟩ := rgbBitDepth8_reconstructs_any hdr (data.set i v) hct hw hh
      (by rw [List.length_set]; exact hn) (by rw [List.length_set]; exact hlt)
    exact ⟨o, ho, hol, hoQ⟩
  refine ⟨out, hout, hlen, ?_, ?_⟩
  · intro hf
    obtain ⟨o, ho, hol, hoQ⟩ := hset 0 1
    refine ⟨o, ho, by rw [hol, hlen], ?_⟩
    have hdl : 0 < data.length := by
      rw [hn]; exact Nat.mul_pos hh (by omega)
    have h0 := hrows 0 hh
    rw [Nat.zero_add, Nat.one_mul] at h0
    apply take_eq_of_getD _ _ _ (by rw [hol, hlen])
    exact paeth_first_row_agree data (data.set 0 1) out o (bytesPerPixel hdr)
      (hdr.width * bytesPerPixel hdr) hbpos hB
      (fun j hj => hQ j (by rw [hlen' out hlen]; omega))
      (fun j hj => hoQ j (by rw [hlen' o hol]; omega)) hf
      (getD_set_eq data 0 1 hdl) (fun x hx => (getD_set_ne data 0 x 1 (by omega)).symm)
  · intro r hr hf
    obtain ⟨o, ho, hol, hoQ⟩ := hset (r * (1 + hdr.width * bytesPerPixel hdr)) 2
    refine ⟨o, ho, by rw [hol, hlen], ?_⟩
    have hr1 := hrows r hr
    have hdl : r * (hdr.width * bytesPerPixel hdr + 1) < data.length := by
      rw [hn, Nat.add_comm 1]
      have := Nat.mul_le_mul_right (hdr.width * bytesPerPixel hdr + 1) (show r + 1 ≤ hdr.height from hr)
      rw [Nat.succ_mul] at this
      omega
    rw [Nat.add_comm 1] at hf ho hoQ
    apply drop_take_eq_of_getD _ _ _ _ (by rw [hol, hlen])
    exact paeth_first_pixel_agree data (data.set (r * (hdr.width * bytesPerPixel hdr + 1)) 2)
      out o (bytesPerPixel hdr) (hdr.width * bytesPerPixel hdr) r hbpos hbS hB
      (fun j hj => hQ j (by rw [hlen' out hlen]; omega))
      (fun j hj => hoQ j (by rw [hlen' o hol]; omega)) hf
      (getD_set_eq data _ 2 hdl) (fun x hx => (getD_set_ne data _ x 2 (Ne.symm hx)).symm)

/-! ### The reconstruction engine: a stream of `2^32 + 10` bytes -/

theorem toInt32_4294967306 : toInt32 4294967306 = 10 := by
  unfold toInt32 u32
  norm_num

theorem wide_paeth_loop (data : List Nat) (hlen : data.length = 4294967306)
    (h0 : data.getD 0 0 = 4) (fuel : Nat) :
    rgbLoop ⟨536870913, 2, 8, 6, 0, 0, 0⟩ data 4 2147483652 (fuel + 1 + 1) 0 0 0
      ⟨0, 0, 0, 0⟩ [] = .error .undefinedBehaviour := by
  have hS1 : u32 (2147483652 + 1) = 2147483653 := by unfold u32; norm_num
  have hub : toInt32 (u32sub 0 2147483652) = 2147483644 := by
    unfold toInt32 u32sub u32
    norm_num
  have a0 : atIdx data 0 = .ok 4 := by
    rw [atIdx_lt data 0 (by rw [hlen]; norm_num), h0]
  have hfs : filterSwitch ⟨536870913, 2, 8, 6, 0, 0, 0⟩ [] 2147483652 4 0 (0 % 2147483652)
      2147483644 4 ⟨0, 0, 0, 0⟩ = .error .undefinedBehaviour := rfl
  rw [rgbLoop, hlen, toInt32_4294967306]
  simp only [hS1, a0]
  norm_num
  rw [rgbLoop, hlen, toInt32_4294967306]
  simp only [hS1, hub, hfs]
  norm_num

theorem pushPixel_rgba (hdr : IHDR) (data : List Nat) (i : Nat) (fp : RGB) (img : List Nat)
    (h6 : hdr.colorType = 6) (hi : i + 3 < data.length) (h31 : i + 3 < 2147483648) :
    pushPixel hdr data i fp img = .ok (img ++
      [(data.getD i 0 + fp.Red) % 256, (data.getD (i + 1) 0 + fp.Green) % 256,
        (data.getD (i + 2) 0 + fp.Blue) % 256, (data.getD (i + 3) 0 + fp.Alpha) % 256]) := by
  simp [pushPixel, atInt_lt data i (by omega) (by omega),
    atInt_lt data (i + 1) (by omega) (by omega), atInt_lt data (i + 2) (by omega) (by omega),
    atInt_lt data (i + 3) (by omega) (by omega),
    h6, RGBTRIPA, bind, Except.bind, pure, Except.pure]

theorem wide_sub_loop (data : List Nat) (hlen : data.length = 4294967306)
    (h0 : data.getD 0 0 = 1) (hd : ∀ k, 1 ≤ k → k ≤ 12 → data.getD k 0 = 7) (fuel : Nat) :
    rgbLoop ⟨536870913, 2, 8, 6, 0, 0, 0⟩ data 4 2147483652 (fuel + 1 + 1 + 1 + 1) 0 0 0
      ⟨0, 0, 0, 0⟩ [] = .ok [7, 7, 7, 7, 14, 14, 14, 14, 21, 21, 21, 21] := by
  have hS1 : u32 (2147483652 + 1) = 2147483653 := by unfold u32; norm_num
  have a0 : atIdx data 0 = .ok 1 := by
    rw [atIdx_lt data 0 (by rw [hlen]; norm_num), h0]
  have hl : (12 : Nat) < data.length := by rw [hlen]; norm_num
  have hfs1 : filterSwitch ⟨536870913, 2, 8, 6, 0, 0, 0⟩ [] 2147483652 4 0 (0 % 2147483652)
      (toInt32 (u32sub 0 2147483652)) 1 ⟨0, 0, 0, 0⟩ = .ok ⟨0, 0, 0, 0⟩ := rfl
  have hfs2 : filterSwitch ⟨536870913, 2, 8, 6, 0, 0, 0⟩ [7, 7, 7, 7] 2147483652 4 4
      (4 % 2147483652) (toInt32 (u32sub 4 2147483652)) 1 ⟨0, 0, 0, 0⟩ = .ok ⟨7, 7, 7, 7⟩ := rfl
  have hfs3 : filterSwitch ⟨536870913, 2, 8, 6, 0, 0, 0⟩ [7, 7, 7, 7, 14, 14, 14, 14] 2147483652
      4 8 (8 % 2147483652) (toInt32 (u32sub 8 2147483652)) 1 ⟨7, 7, 7, 7⟩ =
      .ok ⟨14, 14, 14, 14⟩ := rfl
  have hp1 := pushPixel_rgba ⟨536870913, 2, 8, 6, 0, 0, 0⟩ data 1 ⟨0, 0, 0, 0⟩ [] rfl
    (by omega) (by norm_num)
  have hp2 := pushPixel_rgba ⟨536870913, 2, 8, 6, 0, 0, 0⟩ data 5 ⟨7, 7, 7, 7⟩ [7, 7, 7, 7] rfl
    (by omega) (by norm_num)
  have hp3 := pushPixel_rgba ⟨536870913, 2, 8, 6, 0, 0, 0⟩ data 9 ⟨14, 14, 14, 14⟩
    [7, 7, 7, 7, 14, 14, 14, 14] rfl (by omega) (by norm_num)
  simp only [hd 1 (by omega) (by omega), hd 2 (by omega) (by omega), hd 3 (by omega) (by omega),
    hd 4 (by omega) (by omega), hd 5 (by omega) (by omega), hd 6 (by omega) (by omega),
    hd 7 (by omega) (by omega), hd 8 (by omega) (by omega), hd 9 (by omega) (by omega),
    hd 10 (by omega) (by omega), hd 11 (by omega) (by omega), hd 12 (by omega) (by omega)]
    at hp1 hp2 hp3
  norm_num at hp1 hp2 hp3
  rw [rgbLoop, hlen, toInt32_4294967306]
  simp only [hS1, a0]
  norm_num
  rw [rgbLoop, hlen, toInt32_4294967306]
  simp only [hS1, hfs1, hp1]
  norm_num
  have hu4 : u32 4 = 4 := rfl
  have hu8 : u32 (4 + 4) = 8 := rfl
  have hu12 : u32 (8 + 4) = 12 := rfl
  rw [rgbLoop, hlen, toInt32_4294967306]
  simp only [hS1, hu4, hfs2, hp2]
  norm_num
  rw [rgbLoop, hlen, toInt32_4294967306]
  simp only [hS1, hu8, hfs3, hp3]
  norm_num
  rw [rgbLoop_done]
  rw [hlen, toInt32_4294967306]
  norm_num

/-- The stream of a 536870913 x 2 TrueColorAlpha image (`2^32 + 10` bytes) whose first
filter-type byte is Paeth: `(int) crRgbData.size()` is 10, `upperBound` is 2147483644 for the
first pixel, and the Paeth case reads `mImgData[2147483644]` from the empty buffer. -/
theorem wide_paeth_run (data : List Nat) (hlen : data.length = 4294967306)
    (h0 : data.getD 0 0 = 4) :
    rgbBitDepth8 ⟨536870913, 2, 8, 6, 0, 0, 0⟩ [] data = .error .undefinedBehaviour := by
  have hS : u32 (536870913 * 4) = 2147483652 := by unfold u32; norm_num
  obtain ⟨fuel, hf⟩ : ∃ fuel, data.length = fuel + 1 + 1 :=
    ⟨4294967304, by rw [hlen]⟩
  unfold rgbBitDepth8
  simp only [show (6 : Nat) = RGBTRIP ↔ False from by decide, if_false, RGBASIZE, hS]
  rw [hf]
  exact wide_paeth_loop data hlen h0 fuel

/-- The same stream with the first filter-type byte Sub: three pixels are reconstructed from
the first 13 bytes, and the loop ends. -/
theorem wide_sub_run (data : List Nat) (hlen : data.length = 4294967306)
    (h0 : data.getD 0 0 = 1) (hd : ∀ k, 1 ≤ k → k ≤ 12 → data.getD k 0 = 7) :
    rgbBitDepth8 ⟨536870913, 2, 8, 6, 0, 0, 0⟩ [] data =
      .ok [7, 7, 7, 7, 14, 14, 14, 14, 21, 21, 21, 21] := by
  have hS : u32 (536870913 * 4) = 2147483652 := by unfold u32; norm_num
  obtain ⟨fuel, hf⟩ : ∃ fuel, data.length = fuel + 1 + 1 + 1 + 1 :=
    ⟨4294967302, by rw [hlen]⟩
  unfold rgbBitDepth8
  simp only [show (6 : Nat) = RGBTRIP ↔ False from by decide, if_false, RGBASIZE, hS]
  rw [hf]
  exact wide_sub_loop data hlen h0 hd fuel

theorem getD_cons_replicate (a b n k : Nat) (h1 : 1 ≤ k) (h2 : k ≤ n) :
    (a :: List.replicate n b).getD k 0 = b := by
  obtain ⟨q, rfl⟩ : ∃ q, k = q + 1 := ⟨k - 1, by omega⟩
  have hq : q < n := by omega
  simp [List.getD_eq_getElem?_getD, List.getElem?_replicate, hq]


/-! ### The reconstruction engine: what every run stores -/

theorem calcPaethByte_mem (a b c : Nat) :
    calcPaethByte a b c = a ∨ calcPaethByte a b c = b ∨ calcPaethByte a b c = c := by
  simp only [calcPaethByte]
  split_ifs <;> simp

/-- C3: for all bytes `a`, `b`, `c`, `calcPaethByte a b c` is the reference predictor of the
specification: with `p = a + b - c` over the integers and `pa = |p - a|`, `pb = |p - b|`,
`pc = |p - c|`, it is `a` if `pa ≤ pb` and `pa ≤ pc`, otherwise `b` if `pb ≤ pc`, otherwise `c`
(ties go to `a`, then `b`, then `c`), and it is always one of `a`, `b`, `c`. -/
theorem calcPaethByte_reference (a b c : Nat) (ha : a < 256) (hb : b < 256) (hc : c < 256) :
    calcPaethByte a b c = paethReference a b c ∧
    ((|((a : Int) + b - c) - a| ≤ |((a : Int) + b - c) - b| ∧
        |((a : Int) + b - c) - a| ≤ |((a : Int) + b - c) - c|) →
      calcPaethByte a b c = a) ∧
    (¬ (|((a : Int) + b - c) - a| ≤ |((a : Int) + b - c) - b| ∧
        |((a : Int) + b - c) - a| ≤ |((a : Int) + b - c) - c|) →
      |((a : Int) + b - c) - b| ≤ |((a : Int) + b - c) - c| → calcPaethByte a b c = b) ∧
    (¬ (|((a : Int) + b - c) - a| ≤ |((a : Int) + b - c) - b| ∧
        |((a : Int) + b - c) - a| ≤ |((a : Int) + b - c) - c|) →
      ¬ |((a : Int) + b - c) - b| ≤ |((a : Int) + b - c) - c| → calcPaethByte a b c = c) ∧
    (calcPaethByte a b c = a ∨ calcPaethByte a b c = b ∨ calcPaethByte a b c = c) := by
  have href := calcPaethByte_eq_reference a b c ha hb hc
  refine ⟨href, ?_, ?_, ?_, calcPaethByte_mem a b c⟩
  · intro h
    rw [href]
    simp only [paethReference]
    rw [if_pos]
    simp only [← Int.natCast_natAbs, Nat.cast_le] at h
    exact h
  · intro h1 h2
    rw [href]
    simp only [paethReference]
    simp only [← Int.natCast_natAbs, Nat.cast_le] at h1 h2
    rw [if_neg h1, if_pos h2]
  · intro h1 h2
    rw [href]
    simp only [paethReference]
    simp only [← Int.natCast_natAbs, Nat.cast_le] at h1 h2
    rw [if_neg h1, if_neg h2]

/-- At `a = 3`, `b = 200`, `c = 100`: `p = 103`, `pa = 100`, `pb = 97`, `pc = 3`, so `c`. -/
theorem calcPaethByte_reference_witness :
    calcPaethByte 3 200 100 = paethReference 3 200 100 ∧ calcPaethByte 3 200 100 = 100 :=
  ⟨(calcPaethByte_reference 3 200 100 (by decide) (by decide) (by decide)).1, by decide⟩

/-- C10: `compareSize w h` returns `SUCCESS` exactly when `w` is the header's width and `h` the
header's height, returns `FAIL` on a mismatch in either dimension, and leaves the object (header
and pixel buffer) as it was. -/
theorem compareSize_spec (self : Png) (w h : Nat) :
    ((compareSize self w h).1 = Status.SUCCESS ↔
      (w = self.mIhdr.width ∧ h = self.mIhdr.height)) ∧
    ((w ≠ self.mIhdr.width ∨ h ≠ self.mIhdr.height) → (compareSize self w h).1 = Status.FAIL) ∧
    (compareSize self w h).2 = self := by
  unfold compareSize
  by_cases hc : self.mIhdr.width ≠ w ∨ self.mIhdr.height ≠ h
  · rw [if_pos hc]
    refine ⟨⟨fun h1 => by simp at h1, fun h1 => ?_⟩, fun _ => rfl, rfl⟩
    rcases hc with hc | hc
    · exact absurd h1.1.symm hc
    · exact absurd h1.2.symm hc
  · rw [if_neg hc]
    have hw : self.mIhdr.width = w := by
      by_contra h1
      exact hc (Or.inl h1)
    have hh : self.mIhdr.height = h := by
      by_contra h1
      exact hc (Or.inr h1)
    refine ⟨⟨fun _ => ⟨hw.symm, hh.symm⟩, fun _ => rfl⟩, fun h1 => ?_, rfl⟩
    rcases h1 with h1 | h1
    · exact absurd hw.symm h1
    · exact absurd hh.symm h1

/-- A 2x2 header compared with `(2, 3)`: the height differs, so `FAIL`. -/
theorem compareSize_spec_witness :
    (compareSize ⟨⟨2, 2, 8, 2, 0, 0, 0⟩, [], ⟨[], true⟩⟩ 2 3).1 = Status.FAIL :=
  (compareSize_spec ⟨⟨2, 2, 8, 2, 0, 0, 0⟩, [], ⟨[], true⟩⟩ 2 3).2.1 (Or.inr (by decide))

/-- C8: when the signature is valid and the type tag of the first chunk (bytes 4..8 after the
signature, as far as the stream holds them) is not `IHDR`, the decode exits with
`MissingHeader`; at the exit the header is still the initial one, the IDAT buffer is empty,
the adapter was never called and the pixel buffer is empty. -/
theorem readPng_missing_header (inflate : Inflate) (chunkLength0 : Nat) (ihdr0 : IHDR)
    (rest : List Nat) (htag : (rest.drop 4).take 4 ≠ tagIHDR) :
    ∃ s, Png.construct inflate chunkLength0 ihdr0 (pngMagic ++ rest)
        = .exited .MissingHeader s ∧
      s.self.mIhdr = ihdr0 ∧ s.idatBuffer = [] ∧ s.inflateCalls = [] ∧
      s.decompressedData = [] ∧ s.self.mImgData = [] := by
  have hsig : strcmp (((IStream.read ⟨pngMagic ++ rest, true⟩
      (List.replicate pngSignature.length 0) 8).1).set 8 0) pngSignature = 0 :=
    (signature_check _).2 (by simp [pngMagic])
  have hread : (IStream.read ⟨pngMagic ++ rest, true⟩
      (List.replicate pngSignature.length 0) 8).2 = ⟨rest, true⟩ := by
    simp [IStream.read, pngMagic]
  simp only [Png.construct, readPng, hsig, hread]
  simp only [ne_eq, not_true_eq_false, if_false, Bool.true_eq_false]
  rw [show (pngMagic ++ rest).length + 1 = ((pngMagic ++ rest).length) + 1 from rfl, readLoop]
  have hcond : strcmp [0, 0, 0, 0, 0] strIEND ≠ 0 := by decide
  simp only [hcond, ne_eq, not_false_eq_true, true_and, if_true]
  rw [readChunk_missing_header inflate _ rest rfl rfl rfl htag]
  refine ⟨_, rfl, ?_, ?_, ?_, ?_, ?_⟩ <;> simp [readChunkHeader]

/-- A stream that ends right after the signature. -/
theorem readPng_missing_header_witness :
    ∃ s, Png.construct (fun _ => none) 0 ⟨0, 0, 0, 0, 0, 0, 0⟩ (pngMagic ++ [])
        = .exited .MissingHeader s ∧
      s.self.mIhdr = ⟨0, 0, 0, 0, 0, 0, 0⟩ ∧ s.idatBuffer = [] ∧ s.inflateCalls = [] ∧
      s.decompressedData = [] ∧ s.self.mImgData = [] :=
  readPng_missing_header (fun _ => none) 0 ⟨0, 0, 0, 0, 0, 0, 0⟩ [] (by decide)

/-- C4: the decode of an opened file passes the signature check exactly when the first 8 bytes
are `89 50 4E 47 0D 0A 1A 0A`. Every other input, shorter ones and ones with a zero byte among
the first 8 included, exits with `InvalidSignature` with only the signature bytes consumed, no
header parsed, no IDAT byte accumulated, no call of the adapter and an empty pixel buffer. The
`strcmp` of the source agrees with the comparison of the 8 bytes. -/
theorem readPng_signature (inflate : Inflate) (chunkLength0 : Nat) (ihdr0 : IHDR)
    (file : List Nat) :
    (file.take 8 ≠ pngMagic →
      ∃ s, Png.construct inflate chunkLength0 ihdr0 file = .exited .InvalidSignature s ∧
        s.self.mImgData = [] ∧ s.self.mIhdr = ihdr0 ∧ s.self.mPngFile.bytes = file.drop 8 ∧
        s.validPngMask = 0 ∧ s.chunkType = [0, 0, 0, 0, 0] ∧ s.idatBuffer = [] ∧
        s.inflateCalls = []) ∧
    (file.take 8 = pngMagic →
      ∀ s, Png.construct inflate chunkLength0 ihdr0 file ≠ .exited .InvalidSignature s) ∧
    (strcmp (((IStream.read ⟨file, true⟩ (List.replicate pngSignature.length 0) 8).1).set 8 0)
      pngSignature = 0 ↔ file.take 8 = pngMagic) := by
  refine ⟨fun hne => ?_, fun heq s hs => ?_, signature_check file⟩
  · have hsig : strcmp (((IStream.read ⟨file, true⟩
        (List.replicate pngSignature.length 0) 8).1).set 8 0) pngSignature ≠ 0 :=
      fun h0 => hne ((signature_check file).1 h0)
    simp only [Png.construct, readPng, Bool.true_eq_false, if_false, hsig, ne_eq,
      not_false_eq_true, if_true]
    refine ⟨_, rfl, rfl, rfl, ?_, rfl, rfl, rfl, rfl⟩
    simp only [IStream.read, if_true]
    split_ifs with h8
    · rfl
    · simp only
      rw [List.drop_of_length_le (by omega)]
  · have hsig : strcmp (((IStream.read ⟨file, true⟩
        (List.replicate pngSignature.length 0) 8).1).set 8 0) pngSignature = 0 :=
      (signature_check file).2 heq
    simp only [Png.construct, readPng, Bool.true_eq_false, if_false, hsig, ne_eq,
      not_true_eq_false] at hs
    cases hl : readLoop inflate (file.length + 1)
        { self := { mIhdr := ihdr0, mImgData := [],
                    mPngFile := (IStream.read ⟨file, true⟩
                      (List.replicate pngSignature.length 0) 8).2 },
          decompressedData := [], validPngMask := 0, chunkLength := chunkLength0,
          chunkType := [0, 0, 0, 0, 0], idatBuffer := [], inflateCalls := [] } with
    | returned s1 =>
      rw [hl] at hs
      simp only [Outcome.andThen, markIEND] at hs
      split_ifs at hs
    | exited e s1 =>
      rw [hl] at hs
      simp only [Outcome.andThen, Outcome.exited.injEq] at hs
      exact (readLoop_exit _ _ _ _ _ hl).1 hs.1
    | undefinedBehaviour =>
      rw [hl] at hs
      simp [Outcome.andThen] at hs
    | outOfFuel =>
      rw [hl] at hs
      simp [Outcome.andThen] at hs

/-- A file whose fifth byte is NUL: the string comparison stops there and the decode exits. -/
theorem readPng_signature_witness :
    ∃ s, Png.construct (fun _ => none) 0 ⟨0, 0, 0, 0, 0, 0, 0⟩
        [0x89, 0x50, 0x4E, 0x47, 0, 0x0A, 0x1A, 0x0A, 3] = .exited .InvalidSignature s ∧
      s.self.mImgData = [] ∧ s.self.mIhdr = ⟨0, 0, 0, 0, 0, 0, 0⟩ ∧
      s.self.mPngFile.bytes = [3] ∧ s.validPngMask = 0 ∧ s.chunkType = [0, 0, 0, 0, 0] ∧
      s.idatBuffer = [] ∧ s.inflateCalls = [] :=
  (readPng_signature (fun _ => none) 0 ⟨0, 0, 0, 0, 0, 0, 0⟩
    [0x89, 0x50, 0x4E, 0x47, 0, 0x0A, 0x1A, 0x0A, 3]).1 (by decide)

/-- C6: `handlePngColorType` exits with `UnsupportedFormat` exactly when it is not the case that
the colour type is 2 or 6 and the bit depth is 8; at that exit the object, pixel buffer
included, is as on entry; otherwise it never exits, and its result is that of `rgbBitDepth8`
on the data. -/
theorem handlePngColorType_spec (self : Png) (crRgbData : List Nat) :
    ((∃ p, handlePngColorType self crRgbData = .exited .UnsupportedFormat p) ↔
      ¬ ((self.mIhdr.colorType = 2 ∨ self.mIhdr.colorType = 6) ∧ self.mIhdr.bitDepth = 8)) ∧
    (¬ ((self.mIhdr.colorType = 2 ∨ self.mIhdr.colorType = 6) ∧ self.mIhdr.bitDepth = 8) →
      handlePngColorType self crRgbData = .exited .UnsupportedFormat self) ∧
    (((self.mIhdr.colorType = 2 ∨ self.mIhdr.colorType = 6) ∧ self.mIhdr.bitDepth = 8) →
      handlePngColorType self crRgbData =
        match rgbBitDepth8 self.mIhdr self.mImgData crRgbData with
        | .ok img => .returned { self with mImgData := img }
        | .error .undefinedBehaviour => .undefinedBehaviour
        | .error .outOfFuel => .outOfFuel) := by
  have hun : ¬ ((self.mIhdr.colorType = 2 ∨ self.mIhdr.colorType = 6) ∧ self.mIhdr.bitDepth = 8)
      → handlePngColorType self crRgbData = .exited .UnsupportedFormat self := by
    intro h
    unfold handlePngColorType
    by_cases hc : self.mIhdr.colorType = 2 ∨ self.mIhdr.colorType = 6
    · have hb : ¬ self.mIhdr.bitDepth = 8 := fun hb => h ⟨hc, hb⟩
      rw [if_pos hc, if_neg hb]
    · rw [if_neg hc]
  have hsup : ((self.mIhdr.colorType = 2 ∨ self.mIhdr.colorType = 6) ∧ self.mIhdr.bitDepth = 8)
      → handlePngColorType self crRgbData =
        match rgbBitDepth8 self.mIhdr self.mImgData crRgbData with
        | .ok img => .returned { self with mImgData := img }
        | .error .undefinedBehaviour => .undefinedBehaviour
        | .error .outOfFuel => .outOfFuel := by
    intro h
    unfold handlePngColorType
    rw [if_pos h.1, if_pos h.2]
  refine ⟨⟨fun hex hs => ?_, fun h => ⟨self, hun h⟩⟩, hun, hsup⟩
  obtain ⟨p, hp⟩ := hex
  rw [hsup hs] at hp
  split at hp <;> simp at hp

/-- A grayscale header (colour type 0, bit depth 8) is rejected with the object untouched. -/
theorem handlePngColorType_spec_witness :
    handlePngColorType ⟨⟨2, 2, 8, 0, 0, 0, 0⟩, [], ⟨[], true⟩⟩ [0, 1, 2, 0, 3, 4]
      = .exited .UnsupportedFormat ⟨⟨2, 2, 8, 0, 0, 0, 0⟩, [], ⟨[], true⟩⟩ :=
  (handlePngColorType_spec ⟨⟨2, 2, 8, 0, 0, 0, 0⟩, [], ⟨[], true⟩⟩ [0, 1, 2, 0, 3, 4]).2.1
    (by decide)

/-- C7: on a 13-byte payload `b0 .. b12`, `parseIHDR` stores the big-endian width
`b0*2^24 + b1*2^16 + b2*2^8 + b3` and height `b4*2^24 + b5*2^16 + b6*2^8 + b7`, copies
`b8 .. b12` into bitDepth, colorType, compressionMethod, filterMethod and interlaceMethod, and
exits with `InvalidDimensions` exactly when that width or that height is 0. -/
theorem parseIHDR_spec (self : Png) (b0 b1 b2 b3 b4 b5 b6 b7 b8 b9 b10 b11 b12 : Nat)
    (rest : List Nat)
    (hb : Bytes [b0, b1, b2, b3, b4, b5, b6, b7, b8, b9, b10, b11, b12])
    (hf : self.mPngFile =
      ⟨[b0, b1, b2, b3, b4, b5, b6, b7, b8, b9, b10, b11, b12] ++ rest, true⟩) :
    parseIHDR self 13 =
      (if b0 * 2 ^ 24 + b1 * 2 ^ 16 + b2 * 2 ^ 8 + b3 = 0 ∨
          b4 * 2 ^ 24 + b5 * 2 ^ 16 + b6 * 2 ^ 8 + b7 = 0
       then Outcome.exited Fatal.InvalidDimensions
         { mIhdr := ⟨b0 * 2 ^ 24 + b1 * 2 ^ 16 + b2 * 2 ^ 8 + b3,
                     b4 * 2 ^ 24 + b5 * 2 ^ 16 + b6 * 2 ^ 8 + b7, b8, b9, b10, b11, b12⟩,
           mImgData := self.mImgData, mPngFile := ⟨rest, true⟩ }
       else Outcome.returned
         { mIhdr := ⟨b0 * 2 ^ 24 + b1 * 2 ^ 16 + b2 * 2 ^ 8 + b3,
                     b4 * 2 ^ 24 + b5 * 2 ^ 16 + b6 * 2 ^ 8 + b7, b8, b9, b10, b11, b12⟩,
           mImgData := self.mImgData, mPngFile := ⟨rest, true⟩ }) := by
  have h0 : b0 < 256 := hb b0 (by simp)
  have h1 : b1 < 256 := hb b1 (by simp)
  have h2 : b2 < 256 := hb b2 (by simp)
  have h3 : b3 < 256 := hb b3 (by simp)
  have h4 : b4 < 256 := hb b4 (by simp)
  have h5 : b5 < 256 := hb b5 (by simp)
  have h6 : b6 < 256 := hb b6 (by simp)
  have h7 : b7 < 256 := hb b7 (by simp)
  have h := parseIHDR_payload13 self b0 b1 b2 b3 b4 b5 b6 b7 b8 b9 b10 b11 b12 rest
    h0 h1 h2 h3 h4 h5 h6 h7 hf
  norm_num
  norm_num at h
  exact h

/-- The payload of a 2x0 image: the height decodes to 0 and the call exits. -/
theorem parseIHDR_spec_witness :
    parseIHDR ⟨⟨7, 7, 7, 7, 7, 7, 7⟩, [], ⟨[0, 0, 0, 2, 0, 0, 0, 0, 8, 2, 0, 0, 0, 9], true⟩⟩ 13
      = Outcome.exited Fatal.InvalidDimensions ⟨⟨2, 0, 8, 2, 0, 0, 0⟩, [], ⟨[9], true⟩⟩ :=
  parseIHDR_spec ⟨⟨7, 7, 7, 7, 7, 7, 7⟩, [], ⟨[0, 0, 0, 2, 0, 0, 0, 0, 8, 2, 0, 0, 0, 9], true⟩⟩
    0 0 0 2 0 0 0 0 8 2 0 0 0 [9] (by decide) rfl


/-! ### Claims on the reconstruction engine -/

/-- C1, as stated, fails: a 1 x 536870912 TrueColor image has a stream of exactly `2^31` bytes
(here all zero, so every filter type is None); `(int) crRgbData.size()` is then negative, the
loop body never runs, and the buffer stays empty instead of holding `3 * 536870912` bytes. -/
theorem rgbBitDepth8_rule_counterexample :
    (List.replicate 2147483648 0).length = 536870912 * (1 + 1 * 3) ∧
    (∀ r, r < 536870912 → (List.replicate 2147483648 0).getD (r * (1 + 1 * 3)) 0 ≤ 4) ∧
    rgbBitDepth8 ⟨1, 536870912, 8, 2, 0, 0, 0⟩ [] (List.replicate 2147483648 0) = .ok [] ∧
    ([] : List Nat).length ≠ 1 * 536870912 * 3 := by
  refine ⟨?_, ?_, ?_, ?_⟩
  · rw [List.length_replicate]
  · intro r _
    rw [List.getD_eq_getElem?_getD, List.getElem?_replicate]
    split_ifs <;> decide
  · apply rgbBitDepth8_int_size
    rw [List.length_replicate, toInt32_2147483648]
    decide
  · rw [List.length_nil]
    decide

/-- C1, amended: for a TrueColor (`bpp = 3`) or TrueColorAlpha (`bpp = 4`) header with width
`w > 0`, height `h > 0` and a stream of exactly `h * (1 + w * bpp)` bytes that is shorter than
`2^31` bytes and whose filter-type bytes are in 0..4, `rgbBitDepth8` started on an empty buffer
returns exactly `w * h * bpp` bytes, and byte `i` is `(filteredByte + predictor) mod 256` with
the predictor 0 for None, `left` for Sub, `up` for Up, `(left + up) / 2` for Average and
`calcPaethByte left up upLeft` for Paeth, the neighbours being the output bytes `bpp`, one
stride, and one stride plus `bpp` back, or 0 at the left edge or in the first row. -/
theorem rgbBitDepth8_rule (hdr : IHDR) (data : List Nat)
    (hct : hdr.colorType = 2 ∨ hdr.colorType = 6) (hw : 0 < hdr.width) (hh : 0 < hdr.height)
    (hn : data.length = hdr.height * (1 + hdr.width * bytesPerPixel hdr))
    (hlt : data.length < 2147483648)
    (hft : ∀ r, r < hdr.height →
      data.getD (r * (1 + hdr.width * bytesPerPixel hdr)) 0 ≤ 4) :
    ∃ out, rgbBitDepth8 hdr [] data = .ok out ∧
      out.length = hdr.width * hdr.height * bytesPerPixel hdr ∧
      ∀ i, i < hdr.width * hdr.height * bytesPerPixel hdr →
        out.getD i 0 =
          (filteredByte data (hdr.width * bytesPerPixel hdr) i +
            predictorOf (filterTypeOf data (hdr.width * bytesPerPixel hdr) i) out
              (bytesPerPixel hdr) (hdr.width * bytesPerPixel hdr) i) % 256 := by
  obtain ⟨out, hout, hlen, _, hQ⟩ := rgbBitDepth8_reconstructs hdr data hct hw hh hn hlt hft
  exact ⟨out, hout, hlen, fun i hi => hQ i (by rw [hlen]; exact hi)⟩

/-- A 2x2 TrueColorAlpha stream with a Sub scanline and a Paeth scanline. -/
theorem rgbBitDepth8_rule_witness :
    ∃ out, rgbBitDepth8 ⟨2, 2, 8, 6, 0, 0, 0⟩ []
        [1, 10, 20, 30, 40, 50, 60, 70, 80, 4, 70, 80, 90, 100, 110, 120, 130, 250] = .ok out ∧
      out.length = 2 * 2 * bytesPerPixel ⟨2, 2, 8, 6, 0, 0, 0⟩ ∧
      ∀ i, i < 2 * 2 * bytesPerPixel ⟨2, 2, 8, 6, 0, 0, 0⟩ →
        out.getD i 0 =
          (filteredByte [1, 10, 20, 30, 40, 50, 60, 70, 80, 4, 70, 80, 90, 100, 110, 120, 130, 250]
              (2 * bytesPerPixel ⟨2, 2, 8, 6, 0, 0, 0⟩) i +
            predictorOf (filterTypeOf
                [1, 10, 20, 30, 40, 50, 60, 70, 80, 4, 70, 80, 90, 100, 110, 120, 130, 250]
                (2 * bytesPerPixel ⟨2, 2, 8, 6, 0, 0, 0⟩) i) out
              (bytesPerPixel ⟨2, 2, 8, 6, 0, 0, 0⟩) (2 * bytesPerPixel ⟨2, 2, 8, 6, 0, 0, 0⟩) i)
            % 256 :=
  rgbBitDepth8_rule ⟨2, 2, 8, 6, 0, 0, 0⟩
    [1, 10, 20, 30, 40, 50, 60, 70, 80, 4, 70, 80, 90, 100, 110, 120, 130, 250]
    (by decide) (by decide) (by decide) (by decide) (by decide) (by decide)

/-- C2, as stated, fails: a 1 x 429496730 TrueColorAlpha image with filter type None on
every scanline has a stream of `2147483650` bytes; `(int) crRgbData.size()` is negative, the loop
body never runs and the buffer stays empty, while the stream without its filter-type bytes is
not empty. -/
theorem rgbBitDepth8_none_counterexample :
    (List.replicate 2147483650 0).length = 429496730 * (1 + 1 * 4) ∧
    (∀ r, r < 429496730 → (List.replicate 2147483650 0).getD (r * (1 + 1 * 4)) 0 = 0) ∧
    rgbBitDepth8 ⟨1, 429496730, 8, 6, 0, 0, 0⟩ [] (List.replicate 2147483650 0) = .ok [] ∧
    stripFilterBytes (1 * 4) 429496730 (List.replicate 2147483650 0) ≠ [] := by
  refine ⟨?_, ?_, ?_, ?_⟩
  · rw [List.length_replicate]
  · intro r _
    rw [List.getD_eq_getElem?_getD, List.getElem?_replicate]
    split_ifs <;> rfl
  · apply rgbBitDepth8_int_size
    rw [List.length_replicate, toInt32_2147483650]
    decide
  · rw [show (429496730 : Nat) = 429496729 + 1 from rfl, stripFilterBytes]
    intro h
    have := congrArg List.length h
    simp only [List.length_append, List.length_take, List.length_drop, List.length_replicate,
      List.length_nil] at this
    omega

/-- C2, amended: for a TrueColor or TrueColorAlpha header and a stream of `height` scanlines of
`1 + width * bpp` bytes, shorter than `2^31` bytes, in which every filter-type byte is None,
the buffer produced by `rgbBitDepth8` from an empty buffer is the stream with the leading
filter-type byte of each scanline removed and every other byte unchanged and in order. -/
theorem rgbBitDepth8_none_strips (hdr : IHDR) (data : List Nat)
    (hct : hdr.colorType = 2 ∨ hdr.colorType = 6) (hw : 0 < hdr.width) (hh : 0 < hdr.height)
    (hn : data.length = hdr.height * (1 + hdr.width * bytesPerPixel hdr))
    (hlt : data.length < 2147483648) (hb : Bytes data)
    (hft : ∀ r, r < hdr.height →
      data.getD (r * (1 + hdr.width * bytesPerPixel hdr)) 0 = 0) :
    rgbBitDepth8 hdr [] data =
      .ok (stripFilterBytes (hdr.width * bytesPerPixel hdr) hdr.height data) :=
  rgbBitDepth8_none hdr data hct hw hh hn hlt hb hft

/-- The end-to-end scenario of the specification: the 2x2 TrueColor payload
`[0,10,20,30,40,50,60,0,70,80,90,100,110,120]` yields `[10,20,...,120]`. -/
theorem rgbBitDepth8_none_strips_witness :
    rgbBitDepth8 ⟨2, 2, 8, 2, 0, 0, 0⟩ [] [0, 10, 20, 30, 40, 50, 60, 0, 70, 80, 90, 100, 110, 120]
      = .ok [10, 20, 30, 40, 50, 60, 70, 80, 90, 100, 110, 120] :=
  rgbBitDepth8_none_strips ⟨2, 2, 8, 2, 0, 0, 0⟩
    [0, 10, 20, 30, 40, 50, 60, 0, 70, 80, 90, 100, 110, 120]
    (by decide) (by decide) (by decide) (by decide) (by decide) (by decide) (by decide)

/-- C19: for a TrueColor or TrueColorAlpha header with `w > 0`, `h > 0` and
`w * h * bpp < 2^31`, and a stream of exactly `h * (1 + w * bpp)` bytes with arbitrary
filter-type bytes, `rgbBitDepth8` started on an empty buffer terminates with a result: no read
of the stream or of the buffer is out of bounds (such a read, a division by zero or a signed
overflow would end the evaluation in `Stuck.undefinedBehaviour`) and the fuel of the loop
suffices. -/
theorem rgbBitDepth8_in_bounds (hdr : IHDR) (data : List Nat)
    (hct : hdr.colorType = 2 ∨ hdr.colorType = 6) (hw : 0 < hdr.width) (hh : 0 < hdr.height)
    (hsz : hdr.width * hdr.height * bytesPerPixel hdr < 2147483648)
    (hn : data.length = hdr.height * (1 + hdr.width * bytesPerPixel hdr)) :
    ∃ out, rgbBitDepth8 hdr [] data = .ok out ∧ Bytes out ∧
      (data.length < 2147483648 → out.length = hdr.width * hdr.height * bytesPerPixel hdr) := by
  by_cases hlt : data.length < 2147483648
  · obtain ⟨out, hout, hlen, hB⟩ := rgbBitDepth8_total hdr data hct hw hh hn hlt
    exact ⟨out, hout, hB, fun _ => hlen⟩
  · refine ⟨[], ?_, (by intro b hb; cases hb), fun h => absurd h hlt⟩
    apply rgbBitDepth8_int_size
    have hbpos : 0 < bytesPerPixel hdr := by
      rcases bytesPerPixel_cases hdr hct with ⟨_, hb⟩ | ⟨_, hb⟩ <;> omega
    have h1 : hdr.height ≤ hdr.width * hdr.height * bytesPerPixel hdr := by
      calc hdr.height = 1 * hdr.height * 1 := by simp
        _ ≤ hdr.width * hdr.height * bytesPerPixel hdr :=
          Nat.mul_le_mul (Nat.mul_le_mul hw (le_refl _)) hbpos
    have h2 : data.length = hdr.height + hdr.width * hdr.height * bytesPerPixel hdr := by
      rw [hn, Nat.mul_add, Nat.mul_one, Nat.mul_comm hdr.width hdr.height, Nat.mul_assoc]
    unfold toInt32 u32
    have h3 : data.length % 4294967296 = data.length := Nat.mod_eq_of_lt (by omega)
    rw [h3]
    split_ifs
    omega

/-- A 1x2 TrueColor stream with the filter-type bytes 7 and 200. -/
theorem rgbBitDepth8_in_bounds_witness :
    ∃ out, rgbBitDepth8 ⟨1, 2, 8, 2, 0, 0, 0⟩ [] [7, 1, 2, 3, 200, 4, 5, 6] = .ok out ∧
      Bytes out ∧
      (([7, 1, 2, 3, 200, 4, 5, 6] : List Nat).length < 2147483648 →
        out.length = 1 * 2 * bytesPerPixel ⟨1, 2, 8, 2, 0, 0, 0⟩) :=
  rgbBitDepth8_in_bounds ⟨1, 2, 8, 2, 0, 0, 0⟩ [7, 1, 2, 3, 200, 4, 5, 6]
    (by decide) (by decide) (by decide) (by decide) (by decide)

/-- C13, amended: for a TrueColor or TrueColorAlpha header with `w > 0`, `h > 0` and a stream of
bytes of exactly `h * (1 + w * bpp)` bytes that is shorter than `2^31` bytes and whose
filter-type bytes are in 0..4, `rgbBitDepth8` started on an empty buffer returns a buffer in
which, in every Sub scanline, each channel byte of the first pixel equals its filtered byte,
and in which, when the first scanline is Up, every byte of the first row equals its filtered
byte. -/
theorem rgbBitDepth8_edges (hdr : IHDR) (data : List Nat)
    (hct : hdr.colorType = 2 ∨ hdr.colorType = 6) (hw : 0 < hdr.width) (hh : 0 < hdr.height)
    (hn : data.length = hdr.height * (1 + hdr.width * bytesPerPixel hdr))
    (hlt : data.length < 2147483648) (hb : Bytes data)
    (hft : ∀ r, r < hdr.height →
      data.getD (r * (1 + hdr.width * bytesPerPixel hdr)) 0 ≤ 4) :
    ∃ out, rgbBitDepth8 hdr [] data = .ok out ∧
      (∀ r, r < hdr.height → data.getD (r * (1 + hdr.width * bytesPerPixel hdr)) 0 = 1 →
        ∀ k, k < bytesPerPixel hdr →
          out.getD (r * (hdr.width * bytesPerPixel hdr) + k) 0 =
            data.getD (r * (1 + hdr.width * bytesPerPixel hdr) + 1 + k) 0) ∧
      (data.getD 0 0 = 2 → ∀ j, j < hdr.width * bytesPerPixel hdr →
        out.getD j 0 = data.getD (1 + j) 0) := by
  obtain ⟨out, hout, hlen, _, hQ⟩ := rgbBitDepth8_reconstructs hdr data hct hw hh hn hlt hft
  have hbS : bytesPerPixel hdr ≤ hdr.width * bytesPerPixel hdr := Nat.le_mul_of_pos_left _ hw
  have hlen' : out.length = hdr.height * (hdr.width * bytesPerPixel hdr) := by
    rw [hlen, Nat.mul_comm hdr.width hdr.height, Nat.mul_assoc]
  have := Reconstructed_edges data out (bytesPerPixel hdr) (hdr.width * bytesPerPixel hdr)
    hdr.height hbS hh hlen' hb hQ
  refine ⟨out, hout, ?_, this.2⟩
  intro r hr hf k hk
  rw [Nat.add_comm 1] at hf ⊢
  exact this.1 r hr hf k hk

/-- A 2x2 TrueColor stream with an Up scanline followed by a Sub scanline. -/
theorem rgbBitDepth8_edges_witness :
    ∃ out, rgbBitDepth8 ⟨2, 2, 8, 2, 0, 0, 0⟩ []
        [2, 10, 20, 30, 40, 50, 60, 1, 70, 80, 90, 100, 110, 120] = .ok out ∧
      (∀ r, r < 2 → ([2, 10, 20, 30, 40, 50, 60, 1, 70, 80, 90, 100, 110, 120] : List Nat).getD
          (r * (1 + 2 * bytesPerPixel ⟨2, 2, 8, 2, 0, 0, 0⟩)) 0 = 1 →
        ∀ k, k < bytesPerPixel ⟨2, 2, 8, 2, 0, 0, 0⟩ →
          out.getD (r * (2 * bytesPerPixel ⟨2, 2, 8, 2, 0, 0, 0⟩) + k) 0 =
            ([2, 10, 20, 30, 40, 50, 60, 1, 70, 80, 90, 100, 110, 120] : List Nat).getD
              (r * (1 + 2 * bytesPerPixel ⟨2, 2, 8, 2, 0, 0, 0⟩) + 1 + k) 0) ∧
      (([2, 10, 20, 30, 40, 50, 60, 1, 70, 80, 90, 100, 110, 120] : List Nat).getD 0 0 = 2 →
        ∀ j, j < 2 * bytesPerPixel ⟨2, 2, 8, 2, 0, 0, 0⟩ →
          out.getD j 0 =
            ([2, 10, 20, 30, 40, 50, 60, 1, 70, 80, 90, 100, 110, 120] : List Nat).getD
              (1 + j) 0) :=
  rgbBitDepth8_edges ⟨2, 2, 8, 2, 0, 0, 0⟩
    [2, 10, 20, 30, 40, 50, 60, 1, 70, 80, 90, 100, 110, 120]
    (by decide) (by decide) (by decide) (by decide) (by decide) (by decide) (by decide)

/-- C13, as stated, fails: a 1 x 536870912 TrueColor image whose stream of exactly `2^31` bytes
holds the byte 1 everywhere has filter type Sub on every scanline; `(int) crRgbData.size()` is
negative, the loop body never runs and the buffer stays empty, so no byte of the first pixel of
the first scanline equals its filtered byte 1. -/
theorem rgbBitDepth8_edges_counterexample :
    (List.replicate 2147483648 1).length = 536870912 * (1 + 1 * 3) ∧
    Bytes (List.replicate 2147483648 1) ∧
    (∀ r, r < 536870912 → (List.replicate 2147483648 1).getD (r * (1 + 1 * 3)) 0 = 1) ∧
    rgbBitDepth8 ⟨1, 536870912, 8, 2, 0, 0, 0⟩ [] (List.replicate 2147483648 1) = .ok [] ∧
    ([] : List Nat).getD (0 * (1 * 3) + 0) 0 ≠
      (List.replicate 2147483648 1).getD (0 * (1 + 1 * 3) + 1 + 0) 0 := by
  have hg : ∀ n, n < 2147483648 → (List.replicate 2147483648 1).getD n 0 = 1 := by
    intro n hn
    rw [List.getD_eq_getElem?_getD, List.getElem?_replicate, if_pos hn]
    rfl
  refine ⟨?_, ?_, ?_, ?_, ?_⟩
  · rw [List.length_replicate]
  · intro b hb
    rw [List.eq_of_mem_replicate hb]
    decide
  · intro r hr
    exact hg _ (by omega)
  · apply rgbBitDepth8_int_size
    rw [List.length_replicate, toInt32_2147483648]
    decide
  · rw [hg _ (by decide)]
    decide

/-- C20: `calcPaethByte a 0 0 = a` and `calcPaethByte 0 b 0 = b` for all bytes `a` and `b`;
consequently, on a stream of fewer than `2^32` bytes for a TrueColor or TrueColorAlpha header
(`h` scanlines of `1 + w * bpp` bytes, any filter-type bytes in the other scanlines), a first
scanline filtered with Paeth yields a buffer of the same length and with the same first row as
the same stream with the first filter-type byte replaced by Sub, and a Paeth scanline `r` yields
a buffer of the same length and with the same first pixel in row `r` as the stream with that
filter-type byte replaced by Up. Below `2^31` bytes the buffer has `w * h * bpp` bytes; from
`2^31` bytes on `rgbBitDepth8` reconstructs nothing, for either stream. -/
theorem paeth_edges (hdr : IHDR) (data : List Nat)
    (hct : hdr.colorType = 2 ∨ hdr.colorType = 6) (hw : 0 < hdr.width) (hh : 0 < hdr.height)
    (hn : data.length = hdr.height * (1 + hdr.width * bytesPerPixel hdr))
    (hlt : data.length < 4294967296) :
    (∀ a b, a < 256 → b < 256 → calcPaethByte a 0 0 = a ∧ calcPaethByte 0 b 0 = b) ∧
    ∃ out, rgbBitDepth8 hdr [] data = .ok out ∧
      (data.length < 2147483648 → out.length = hdr.width * hdr.height * bytesPerPixel hdr) ∧
      (data.getD 0 0 = 4 →
        ∃ outSub, rgbBitDepth8 hdr [] (data.set 0 1) = .ok outSub ∧
          outSub.length = out.length ∧
          out.take (hdr.width * bytesPerPixel hdr) =
            outSub.take (hdr.width * bytesPerPixel hdr)) ∧
      (∀ r, r < hdr.height → data.getD (r * (1 + hdr.width * bytesPerPixel hdr)) 0 = 4 →
        ∃ outUp, rgbBitDepth8 hdr [] (data.set (r * (1 + hdr.width * bytesPerPixel hdr)) 2)
            = .ok outUp ∧
          outUp.length = out.length ∧
          (out.drop (r * (hdr.width * bytesPerPixel hdr))).take (bytesPerPixel hdr) =
            (outUp.drop (r * (hdr.width * bytesPerPixel hdr))).take (bytesPerPixel hdr)) := by
  refine ⟨fun a b ha hb => ⟨calcPaethByte_left a ha, calcPaethByte_up b hb⟩, ?_⟩
  by_cases h31 : data.length < 2147483648
  · obtain ⟨out, hout, hlen, hsub, hup⟩ :=
      rgbBitDepth8_paeth_edges_any hdr data hct hw hh hn h31
    exact ⟨out, hout, fun _ => hlen, hsub, hup⟩
  · have hnone : ∀ i v, rgbBitDepth8 hdr [] (data.set i v) = .ok [] := by
      intro i v
      apply rgbBitDepth8_int_size
      rw [List.length_set]
      exact toInt32_not_pos _ (by omega) hlt
    refine ⟨[], ?_, fun h => absurd h h31, fun _ => ⟨[], hnone 0 1, rfl, rfl⟩,
      fun r _ _ => ⟨[], hnone _ 2, rfl, rfl⟩⟩
    apply rgbBitDepth8_int_size
    exact toInt32_not_pos _ (by omega) hlt

/-- A 2x3 TrueColor stream whose first and last scanlines are filtered with Paeth and whose
middle scanline has the filter-type byte 9. -/
theorem paeth_edges_witness :
    (∀ a b, a < 256 → b < 256 → calcPaethByte a 0 0 = a ∧ calcPaethByte 0 b 0 = b) ∧
    ∃ out, rgbBitDepth8 ⟨2, 3, 8, 2, 0, 0, 0⟩ []
        [4, 10, 20, 30, 40, 50, 60, 9, 1, 2, 3, 4, 5, 6, 4, 70, 80, 90, 100, 110, 120]
          = .ok out ∧
      (([4, 10, 20, 30, 40, 50, 60, 9, 1, 2, 3, 4, 5, 6, 4, 70, 80, 90, 100, 110, 120] :
          List Nat).length < 2147483648 →
        out.length = 2 * 3 * bytesPerPixel ⟨2, 3, 8, 2, 0, 0, 0⟩) ∧
      (([4, 10, 20, 30, 40, 50, 60, 9, 1, 2, 3, 4, 5, 6, 4, 70, 80, 90, 100, 110, 120] :
          List Nat).getD 0 0 = 4 →
        ∃ outSub, rgbBitDepth8 ⟨2, 3, 8, 2, 0, 0, 0⟩ []
            (([4, 10, 20, 30, 40, 50, 60, 9, 1, 2, 3, 4, 5, 6, 4, 70, 80, 90, 100, 110, 120] :
              List Nat).set 0 1) = .ok outSub ∧
          outSub.length = out.length ∧
          out.take (2 * bytesPerPixel ⟨2, 3, 8, 2, 0, 0, 0⟩) =
            outSub.take (2 * bytesPerPixel ⟨2, 3, 8, 2, 0, 0, 0⟩)) ∧
      (∀ r, r < 3 →
        ([4, 10, 20, 30, 40, 50, 60, 9, 1, 2, 3, 4, 5, 6, 4, 70, 80, 90, 100, 110, 120] :
          List Nat).getD (r * (1 + 2 * bytesPerPixel ⟨2, 3, 8, 2, 0, 0, 0⟩)) 0 = 4 →
        ∃ outUp, rgbBitDepth8 ⟨2, 3, 8, 2, 0, 0, 0⟩ []
            (([4, 10, 20, 30, 40, 50, 60, 9, 1, 2, 3, 4, 5, 6, 4, 70, 80, 90, 100, 110, 120] :
              List Nat).set (r * (1 + 2 * bytesPerPixel ⟨2, 3, 8, 2, 0, 0, 0⟩)) 2)
              = .ok outUp ∧
          outUp.length = out.length ∧
          (out.drop (r * (2 * bytesPerPixel ⟨2, 3, 8, 2, 0, 0, 0⟩))).take
              (bytesPerPixel ⟨2, 3, 8, 2, 0, 0, 0⟩) =
            (outUp.drop (r * (2 * bytesPerPixel ⟨2, 3, 8, 2, 0, 0, 0⟩))).take
              (bytesPerPixel ⟨2, 3, 8, 2, 0, 0, 0⟩)) :=
  paeth_edges ⟨2, 3, 8, 2, 0, 0, 0⟩
    [4, 10, 20, 30, 40, 50, 60, 9, 1, 2, 3, 4, 5, 6, 4, 70, 80, 90, 100, 110, 120]
    (by decide) (by decide) (by decide) (by decide) (by decide)

/-- C20, as stated, fails: in the stream of `2^32 + 10` bytes of a 536870913 x 2
TrueColorAlpha image (two scanlines of `1 + 2147483652` bytes, first filter-type byte Paeth,
every other byte 7) `(int) crRgbData.size()` is 10 and `upperBound` is 2147483644 for the
first pixel, so the Paeth case reads `mImgData[2147483644]` from the empty buffer (undefined
behaviour), whereas the same stream with the first filter-type byte replaced by Sub is
reconstructed to 12 bytes. -/
theorem paeth_edges_counterexample :
    (4 :: List.replicate 4294967305 7).length =
      2 * (1 + 536870913 * bytesPerPixel ⟨536870913, 2, 8, 6, 0, 0, 0⟩) ∧
    (4 :: List.replicate 4294967305 7).getD 0 0 = 4 ∧
    rgbBitDepth8 ⟨536870913, 2, 8, 6, 0, 0, 0⟩ [] (4 :: List.replicate 4294967305 7) =
      .error .undefinedBehaviour ∧
    rgbBitDepth8 ⟨536870913, 2, 8, 6, 0, 0, 0⟩ [] ((4 :: List.replicate 4294967305 7).set 0 1) =
      .ok [7, 7, 7, 7, 14, 14, 14, 14, 21, 21, 21, 21] := by
  have hlen : (4 :: List.replicate 4294967305 7).length = 4294967306 := by
    rw [List.length_cons, List.length_replicate]
  refine ⟨?_, rfl, wide_paeth_run _ hlen rfl, ?_⟩
  · rw [hlen]
    decide
  · rw [List.set_cons_zero]
    exact wide_sub_run _ (by rw [List.length_cons, List.length_replicate]) rfl
      (fun k h1 h2 => getD_cons_replicate 1 7 4294967305 k h1 (by omega))

/-- C21, as stated, fails: in the stream of exactly `2^31` bytes of a 1 x 536870912 TrueColor
image that holds the byte 5 everywhere, every scanline has the filter-type byte 5;
`(int) crRgbData.size()` is negative, the loop body never runs and `rgbBitDepth8` returns the
empty buffer: the first pixel of scanline 0 is not reconstructed as `(5 + 0) mod 256`, and
nothing is appended. -/
theorem rgbBitDepth8_invalid_filter_counterexample :
    (List.replicate 2147483648 5).length = 536870912 * (1 + 1 * 3) ∧
    4 < (List.replicate 2147483648 5).getD (0 * (1 + 1 * 3)) 0 ∧
    rgbBitDepth8 ⟨1, 536870912, 8, 2, 0, 0, 0⟩ [] (List.replicate 2147483648 5) = .ok [] ∧
    ([] : List Nat).getD (0 * (1 * 3) + 0) 0 ≠
      ((List.replicate 2147483648 5).getD (0 * (1 + 1 * 3) + 1 + 0) 0 +
        leftoverOf (List.replicate 2147483648 5) [] 3 (1 * 3) 0 (0 % 3)) % 256 ∧
    ([] : List Nat).length ≠ 1 * 536870912 * 3 := by
  have hg : ∀ n, n < 2147483648 → (List.replicate 2147483648 5).getD n 0 = 5 := by
    intro n hn
    rw [List.getD_eq_getElem?_getD, List.getElem?_replicate, if_pos hn]
    rfl
  refine ⟨?_, ?_, ?_, ?_, ?_⟩
  · rw [List.length_replicate]
  · rw [hg _ (by decide)]
    decide
  · apply rgbBitDepth8_int_size
    rw [List.length_replicate, toInt32_2147483648]
    decide
  · rw [hg _ (by decide), leftoverOf]
    decide
  · rw [List.length_nil]
    decide

/-- C21, amended: for a TrueColor or TrueColorAlpha header with `w > 0`, `h > 0` and a stream
of exactly `h * (1 + w * bpp)` bytes that is shorter than `2^31` bytes, with arbitrary
filter-type bytes, `rgbBitDepth8` started on an empty buffer does not fail and returns
`w * h * bpp` bytes; in a scanline `r` whose filter-type byte is greater than 4 every byte is
`(filteredByte + q) mod 256`, where `q` is what is left over for its channel (`leftoverOf`: the
predictor of the last pixel of the nearest earlier scanline with a filter type in 0..4, or 0
if there is none), and the buffer has the same length whatever byte stands in place of that
filter-type byte. The `default` branch of the `switch` reads nothing and returns `filterPix`
as it is, for every state of the loop. -/
theorem rgbBitDepth8_invalid_filter (hdr : IHDR) (data : List Nat)
    (hct : hdr.colorType = 2 ∨ hdr.colorType = 6) (hw : 0 < hdr.width) (hh : 0 < hdr.height)
    (hn : data.length = hdr.height * (1 + hdr.width * bytesPerPixel hdr))
    (hlt : data.length < 2147483648) :
    (∀ (img : List Nat) (S bpp cur lb : Nat) (ub : Int) (fv : Nat) (fp : RGB), 4 < fv →
      filterSwitch hdr img S bpp cur lb ub fv fp = .ok fp) ∧
    ∃ out, rgbBitDepth8 hdr [] data = .ok out ∧
      out.length = hdr.width * hdr.height * bytesPerPixel hdr ∧
      ∀ r, r < hdr.height → 4 < data.getD (r * (1 + hdr.width * bytesPerPixel hdr)) 0 →
        (∀ x, x < hdr.width * bytesPerPixel hdr →
          out.getD (r * (hdr.width * bytesPerPixel hdr) + x) 0 =
            (data.getD (r * (1 + hdr.width * bytesPerPixel hdr) + 1 + x) 0 +
              leftoverOf data out (bytesPerPixel hdr) (hdr.width * bytesPerPixel hdr) r
                (x % bytesPerPixel hdr)) % 256) ∧
        (∀ v, ∃ out', rgbBitDepth8 hdr []
            (data.set (r * (1 + hdr.width * bytesPerPixel hdr)) v) = .ok out' ∧
          out'.length = out.length) := by
  constructor
  · intro img S bpp cur lb ub fv fp hfv
    unfold filterSwitch
    rw [if_neg (by unfold NONE; omega), if_neg (by unfold SUB; omega),
      if_neg (by unfold UP; omega), if_neg (by unfold AVERAGE; omega),
      if_neg (by unfold PAETH; omega)]
    rfl
  · obtain ⟨out, hout, hlen, _, hQ⟩ := rgbBitDepth8_reconstructs_any hdr data hct hw hh hn hlt
    refine ⟨out, hout, hlen, fun r hr hf => ⟨?_, ?_⟩⟩
    · intro x hx
      have e3 : r * (hdr.width * bytesPerPixel hdr) + hdr.width * bytesPerPixel hdr
          ≤ hdr.height * (hdr.width * bytesPerPixel hdr) := by
        have := Nat.mul_le_mul_right (hdr.width * bytesPerPixel hdr) (show r + 1 ≤ hdr.height from hr)
        rwa [Nat.succ_mul] at this
      have hj : r * (hdr.width * bytesPerPixel hdr) + x < out.length := by
        rw [hlen, Nat.mul_comm hdr.width hdr.height, Nat.mul_assoc]
        omega
      have h := hQ _ hj
      unfold ReconstructedAnyAt at h
      rw [Nat.add_comm 1] at hf ⊢
      rw [filterTypeOf_row data _ r x hx, filteredByte_row data _ r x hx, if_neg (by omega),
        row_div r _ x hx, row_mod r _ x hx] at h
      exact h
    · intro v
      obtain ⟨out', hout', hlen', _⟩ := rgbBitDepth8_total hdr
        (data.set (r * (1 + hdr.width * bytesPerPixel hdr)) v) hct hw hh
        (by rw [List.length_set]; exact hn) (by rw [List.length_set]; exact hlt)
      exact ⟨out', hout', by rw [hlen', hlen]⟩

/-- A 2x2 TrueColor stream: a Sub scanline followed by a scanline with the filter-type byte 9,
which is reconstructed with the predictor `(10, 20, 30)` left over from the last pixel of the
Sub scanline. -/
theorem rgbBitDepth8_invalid_filter_witness :
    (∀ (img : List Nat) (S bpp cur lb : Nat) (ub : Int) (fv : Nat) (fp : RGB), 4 < fv →
      filterSwitch ⟨2, 2, 8, 2, 0, 0, 0⟩ img S bpp cur lb ub fv fp = .ok fp) ∧
    ∃ out, rgbBitDepth8 ⟨2, 2, 8, 2, 0, 0, 0⟩ []
        [1, 10, 20, 30, 40, 50, 60, 9, 1, 2, 3, 4, 5, 6] = .ok out ∧
      out.length = 2 * 2 * bytesPerPixel ⟨2, 2, 8, 2, 0, 0, 0⟩ ∧
      ∀ r, r < 2 →
        4 < ([1, 10, 20, 30, 40, 50, 60, 9, 1, 2, 3, 4, 5, 6] : List Nat).getD
          (r * (1 + 2 * bytesPerPixel ⟨2, 2, 8, 2, 0, 0, 0⟩)) 0 →
        (∀ x, x < 2 * bytesPerPixel ⟨2, 2, 8, 2, 0, 0, 0⟩ →
          out.getD (r * (2 * bytesPerPixel ⟨2, 2, 8, 2, 0, 0, 0⟩) + x) 0 =
            (([1, 10, 20, 30, 40, 50, 60, 9, 1, 2, 3, 4, 5, 6] : List Nat).getD
                (r * (1 + 2 * bytesPerPixel ⟨2, 2, 8, 2, 0, 0, 0⟩) + 1 + x) 0 +
              leftoverOf [1, 10, 20, 30, 40, 50, 60, 9, 1, 2, 3, 4, 5, 6] out
                (bytesPerPixel ⟨2, 2, 8, 2, 0, 0, 0⟩) (2 * bytesPerPixel ⟨2, 2, 8, 2, 0, 0, 0⟩) r
                (x % bytesPerPixel ⟨2, 2, 8, 2, 0, 0, 0⟩)) % 256) ∧
        (∀ v, ∃ out', rgbBitDepth8 ⟨2, 2, 8, 2, 0, 0, 0⟩ []
            (([1, 10, 20, 30, 40, 50, 60, 9, 1, 2, 3, 4, 5, 6] : List Nat).set
              (r * (1 + 2 * bytesPerPixel ⟨2, 2, 8, 2, 0, 0, 0⟩)) v) = .ok out' ∧
          out'.length = out.length) :=
  rgbBitDepth8_invalid_filter ⟨2, 2, 8, 2, 0, 0, 0⟩
    [1, 10, 20, 30, 40, 50, 60, 9, 1, 2, 3, 4, 5, 6]
    (by decide) (by decide) (by decide) (by decide) (by decide)

/-! ### Claims on the chunk loop -/

/-- C5, as stated, fails: with a grayscale header the sequence `IHDR`, `IDAT`, `iCCP`, `IEND`
ends in `UnsupportedFormat`, raised by the flush of the IDAT run before the `iCCP` test is
reached; whatever the adapter returns, the exit is never `ChunkOrderingViolation`. -/
theorem iccp_after_idat_counterexample :
    Png.construct grayInflate 0 ⟨0, 0, 0, 0, 0, 0, 0⟩ grayIccpFile =
      .exited .UnsupportedFormat
        { self := { mIhdr := ⟨1, 1, 8, 0, 0, 0, 0⟩, mImgData := [],
                    mPngFile := ⟨[165, 137, 25, 62] ++ chunk tagIEND [] [174, 66, 96, 130], true⟩ }
          decompressedData := [0, 0], validPngMask := 3, chunkLength := 0
          chunkType := tagiCCP ++ [0], idatBuffer := [120, 156, 99, 96, 0, 0, 0, 2, 0, 1]
          inflateCalls := [[120, 156, 99, 96, 0, 0, 0, 2, 0, 1]] } ∧
    ¬ ∃ (inflate : Inflate) (s : ReadState),
      Png.construct inflate 0 ⟨0, 0, 0, 0, 0, 0, 0⟩ grayIccpFile =
        .exited .ChunkOrderingViolation s := by
  constructor
  · decide
  · rintro ⟨inflate, s, hs⟩
    have key := construct_iccp_after_idat inflate 0 ⟨0, 0, 0, 0, 0, 0, 0⟩ ⟨1, 1, 8, 0, 0, 0, 0⟩
      [58, 126, 155, 85] [120, 156, 99, 96, 0, 0, 0, 2, 0, 1] [72, 175, 164, 113] 0
      ([165, 137, 25, 62] ++ chunk tagIEND [] [174, 66, 96, 130])
      (by decide) (by decide) (by decide) (by decide) rfl (by decide) rfl (by decide)
    have hfile : grayIccpFile = pngMagic ++
        chunk tagIHDR (ihdrPayload ⟨1, 1, 8, 0, 0, 0, 0⟩) [58, 126, 155, 85] ++
        chunk tagIDAT [120, 156, 99, 96, 0, 0, 0, 2, 0, 1] [72, 175, 164, 113] ++ be32 0 ++
        tagiCCP ++ ([165, 137, 25, 62] ++ chunk tagIEND [] [174, 66, 96, 130]) := by decide
    rw [hfile, key] at hs
    cases hi : inflate [120, 156, 99, 96, 0, 0, 0, 2, 0, 1] with
    | none => simp [hi] at hs
    | some out =>
      have hc : handlePngColorType
          ⟨⟨1, 1, 8, 0, 0, 0, 0⟩, [],
            ⟨[165, 137, 25, 62] ++ chunk tagIEND [] [174, 66, 96, 130], true⟩⟩ out =
          .exited .UnsupportedFormat
          ⟨⟨1, 1, 8, 0, 0, 0, 0⟩, [],
            ⟨[165, 137, 25, 62] ++ chunk tagIEND [] [174, 66, 96, 130], true⟩⟩ := by
        unfold handlePngColorType
        rw [if_neg (by decide)]
      simp only [hi, hc] at hs
      simp at hs

/-- C5, amended: for a valid signature and the chunk sequence `IHDR` (non-zero width and
height), `IDAT`, `iCCP`, `IEND`, the decode never returns normally. It exits with
`DecompressionError` when the adapter rejects the `IDAT` payload, with `UnsupportedFormat` when
the colour type is not 2 or 6 or the bit depth is not 8, and with `ChunkOrderingViolation`
when decompression and reconstruction of the IDAT run complete. -/
theorem iccp_after_idat (inflate : Inflate) (chunkLength0 : Nat) (ihdr0 h : IHDR)
    (crc0 p crc1 q crc2 r crc3 : List Nat)
    (hw0 : h.width ≠ 0) (hh0 : h.height ≠ 0)
    (hw : h.width < 4294967296) (hh : h.height < 4294967296) (hcrc0 : crc0.length = 4)
    (hp : p.length < 4294967296) (hcrc1 : crc1.length = 4) (hq : q.length < 4294967296) :
    (∀ s, Png.construct inflate chunkLength0 ihdr0
        (pngMagic ++ chunk tagIHDR (ihdrPayload h) crc0 ++ chunk tagIDAT p crc1 ++
          chunk tagiCCP q crc2 ++ chunk tagIEND r crc3) ≠ .returned s) ∧
    (inflate p = none →
      ∃ s, Png.construct inflate chunkLength0 ihdr0
        (pngMagic ++ chunk tagIHDR (ihdrPayload h) crc0 ++ chunk tagIDAT p crc1 ++
          chunk tagiCCP q crc2 ++ chunk tagIEND r crc3) = .exited .DecompressionError s) ∧
    (∀ out, inflate p = some out →
      ¬ ((h.colorType = 2 ∨ h.colorType = 6) ∧ h.bitDepth = 8) →
      ∃ s, Png.construct inflate chunkLength0 ihdr0
        (pngMagic ++ chunk tagIHDR (ihdrPayload h) crc0 ++ chunk tagIDAT p crc1 ++
          chunk tagiCCP q crc2 ++ chunk tagIEND r crc3) = .exited .UnsupportedFormat s) ∧
    (∀ out img, inflate p = some out →
      ((h.colorType = 2 ∨ h.colorType = 6) ∧ h.bitDepth = 8) →
      rgbBitDepth8 h [] out = .ok img →
      ∃ s, Png.construct inflate chunkLength0 ihdr0
        (pngMagic ++ chunk tagIHDR (ihdrPayload h) crc0 ++ chunk tagIDAT p crc1 ++
          chunk tagiCCP q crc2 ++ chunk tagIEND r crc3) = .exited .ChunkOrderingViolation s ∧
        s.self.mImgData = img) := by
  have key := construct_iccp_after_idat inflate chunkLength0 ihdr0 h crc0 p crc1 q.length
    (q ++ crc2 ++ chunk tagIEND r crc3) hw0 hh0 hw hh hcrc0 hp hcrc1 hq
  have hfile : pngMagic ++ chunk tagIHDR (ihdrPayload h) crc0 ++ chunk tagIDAT p crc1 ++
      chunk tagiCCP q crc2 ++ chunk tagIEND r crc3 =
      pngMagic ++ chunk tagIHDR (ihdrPayload h) crc0 ++ chunk tagIDAT p crc1 ++
        be32 q.length ++ tagiCCP ++ (q ++ crc2 ++ chunk tagIEND r crc3) := by
    simp only [chunk, List.append_assoc]
  rw [hfile, key]
  refine ⟨fun s hs => ?_, fun hi => ?_, fun out hi hun => ?_, fun out img hi hsup hrgb => ?_⟩
  · cases hi : inflate p with
    | none => simp [hi] at hs
    | some out =>
      simp only [hi] at hs
      split at hs <;> simp at hs
  · simp [hi]
  · have hc : handlePngColorType
        { mIhdr := h, mImgData := [],
          mPngFile := ⟨q ++ crc2 ++ chunk tagIEND r crc3, true⟩ } out =
        .exited .UnsupportedFormat
        { mIhdr := h, mImgData := [],
          mPngFile := ⟨q ++ crc2 ++ chunk tagIEND r crc3, true⟩ } := by
      unfold handlePngColorType
      by_cases hct : h.colorType = 2 ∨ h.colorType = 6
      · have hb : ¬ h.bitDepth = 8 := fun hb => hun ⟨hct, hb⟩
        simp only [hct, hb, if_true, if_false]
      · simp only [hct, if_false]
    simp only [hi, hc]
    exact ⟨_, rfl⟩
  · have hc : handlePngColorType
        { mIhdr := h, mImgData := [],
          mPngFile := ⟨q ++ crc2 ++ chunk tagIEND r crc3, true⟩ } out =
        .returned
        { mIhdr := h, mImgData := img,
          mPngFile := ⟨q ++ crc2 ++ chunk tagIEND r crc3, true⟩ } := by
      unfold handlePngColorType
      simp only [hsup.1, hsup.2, if_true, hrgb]
    simp only [hi, hc]
    exact ⟨_, rfl, rfl⟩

/-- A 1x1 TrueColor file with the sequence `IHDR`, `IDAT`, `iCCP`, `IEND`: the run is
reconstructed to `[10, 20, 30]` and the decode exits with `ChunkOrderingViolation`. -/
theorem iccp_after_idat_witness :
    ∃ s, Png.construct rgbInflate 0 ⟨0, 0, 0, 0, 0, 0, 0⟩
        (pngMagic ++ chunk tagIHDR (ihdrPayload ⟨1, 1, 8, 2, 0, 0, 0⟩) [144, 119, 83, 222] ++
          chunk tagIDAT [120, 156, 99, 224, 18, 145, 3, 0, 0, 104, 0, 61] [84, 8, 163, 247] ++
          chunk tagiCCP [] [165, 137, 25, 62] ++ chunk tagIEND [] [174, 66, 96, 130])
        = .exited .ChunkOrderingViolation s ∧ s.self.mImgData = [10, 20, 30] :=
  (iccp_after_idat rgbInflate 0 ⟨0, 0, 0, 0, 0, 0, 0⟩ ⟨1, 1, 8, 2, 0, 0, 0⟩ [144, 119, 83, 222]
    [120, 156, 99, 224, 18, 145, 3, 0, 0, 104, 0, 61] [84, 8, 163, 247] [] [165, 137, 25, 62] []
    [174, 66, 96, 130] (by decide) (by decide) (by decide) (by decide) rfl (by decide) rfl
    (by decide)).2.2.2 [0, 10, 20, 30] [10, 20, 30] (by decide) (by decide) (by decide)

/-- C9: when an `IHDR` that declares a width and a height other than 0 is followed by `n ≥ 1`
consecutive `IDAT` chunks and then the header of a chunk with another type, the decode arrives,
without a call of the adapter, at the flush of that run with the IDAT buffer holding
`P1 ++ ... ++ Pn`; the flush calls the adapter once, on that buffer, and when it returns the
IDAT buffer and the decompressed data are empty and the in-run flag is clear. -/
theorem idat_run_flushed_once (inflate : Inflate) (chunkLength0 : Nat) (ihdr0 h : IHDR)
    (crc0 : List Nat) (ps : List (List Nat × List Nat)) (lenX : Nat) (tagX rest : List Nat)
    (hw0 : h.width ≠ 0) (hh0 : h.height ≠ 0)
    (hw : h.width < 4294967296) (hh : h.height < 4294967296) (hcrc0 : crc0.length = 4)
    (hps : ∀ q ∈ ps, q.1.length < 4294967296 ∧ q.2.length = 4) (hne : ps ≠ [])
    (hlenX : lenX < 4294967296) (htagX : tagX.length = 4) (hX : tagX ≠ tagIDAT) :
    (∃ fuel, Png.construct inflate chunkLength0 ihdr0
        (pngMagic ++ chunk tagIHDR (ihdrPayload h) crc0 ++ idatChunks ps ++ be32 lenX ++ tagX
          ++ rest) =
      ((processChunk inflate (stateAtRunEnd h ps lenX tagX rest)).andThen
        (readLoop inflate fuel)).andThen markIEND) ∧
    (stateAtRunEnd h ps lenX tagX rest).inflateCalls = [] ∧
    (stateAtRunEnd h ps lenX tagX rest).idatBuffer = idatPayload ps ∧
    (∀ s', (flushIdat inflate (stateAtRunEnd h ps lenX tagX rest)).state = some s' →
      s'.inflateCalls = [idatPayload ps] ∧ s'.validPngMask &&& IDAT_CHAIN = 0) ∧
    (∀ s', flushIdat inflate (stateAtRunEnd h ps lenX tagX rest) = .returned s' →
      s'.idatBuffer = [] ∧ s'.decompressedData = [] ∧ s'.validPngMask &&& IDAT_CHAIN = 0 ∧
      s'.inflateCalls = [idatPayload ps]) := by
  have hfl := flushIdat_stateAtRunEnd inflate h ps lenX tagX rest htagX hX
  have e3 : (3 &&& IDAT_CHAIN : Nat) = 0 := by decide
  refine ⟨construct_reaches_run_end inflate chunkLength0 ihdr0 h crc0 ps lenX tagX rest hw0 hh0
    hw hh hcrc0 hps hne hlenX htagX, rfl, rfl, fun s' hs' => ?_, fun s' hs' => ?_⟩
  · rw [hfl] at hs'
    cases hi : inflate (idatPayload ps) with
    | none =>
      simp only [hi, Outcome.state, Option.some.injEq] at hs'
      subst hs'
      exact ⟨rfl, e3⟩
    | some out =>
      simp only [hi] at hs'
      cases hc : handlePngColorType (stateAtRunEnd h ps lenX tagX rest).self out with
      | returned q =>
        simp only [hc, liftSelf, Outcome.andThen, Outcome.state, Option.some.injEq] at hs'
        subst hs'
        exact ⟨rfl, e3⟩
      | exited e q =>
        simp only [hc, liftSelf, Outcome.andThen, Outcome.state, Option.some.injEq] at hs'
        subst hs'
        exact ⟨rfl, e3⟩
      | undefinedBehaviour => simp [hc, liftSelf, Outcome.andThen, Outcome.state] at hs'
      | outOfFuel => simp [hc, liftSelf, Outcome.andThen, Outcome.state] at hs'
  · rw [hfl] at hs'
    cases hi : inflate (idatPayload ps) with
    | none => simp [hi] at hs'
    | some out =>
      simp only [hi] at hs'
      cases hc : handlePngColorType (stateAtRunEnd h ps lenX tagX rest).self out with
      | returned q =>
        simp only [hc, liftSelf, Outcome.andThen, Outcome.returned.injEq] at hs'
        subst hs'
        exact ⟨rfl, rfl, e3, rfl⟩
      | exited e q => simp [hc, liftSelf, Outcome.andThen] at hs'
      | undefinedBehaviour => simp [hc, liftSelf, Outcome.andThen] at hs'
      | outOfFuel => simp [hc, liftSelf, Outcome.andThen] at hs'

/-- A 1x1 TrueColor file whose zlib stream is split over two `IDAT` chunks, followed by
`IEND`: the flush returns with the pixel `[10, 20, 30]`, one adapter call on the 12 bytes of the
two payloads in file order, an empty IDAT buffer and the in-run flag clear. -/
theorem idat_run_flushed_once_witness :
    flushIdat rgbInflate (stateAtRunEnd ⟨1, 1, 8, 2, 0, 0, 0⟩
        [([120, 156, 99, 224, 18], [149, 238, 91, 6]),
         ([145, 3, 0, 0, 104, 0, 61], [152, 209, 2, 139])] 0 tagIEND [174, 66, 96, 130]) =
      .returned ⟨⟨⟨1, 1, 8, 2, 0, 0, 0⟩, [10, 20, 30], ⟨[174, 66, 96, 130], true⟩⟩, [], 3, 0,
        tagIEND ++ [0], [], [[120, 156, 99, 224, 18, 145, 3, 0, 0, 104, 0, 61]]⟩ ∧
    ((⟨⟨⟨1, 1, 8, 2, 0, 0, 0⟩, [10, 20, 30], ⟨[174, 66, 96, 130], true⟩⟩, [], 3, 0,
        tagIEND ++ [0], [], [[120, 156, 99, 224, 18, 145, 3, 0, 0, 104, 0, 61]]⟩ :
          ReadState).idatBuffer = [] ∧
      (⟨⟨⟨1, 1, 8, 2, 0, 0, 0⟩, [10, 20, 30], ⟨[174, 66, 96, 130], true⟩⟩, [], 3, 0,
        tagIEND ++ [0], [], [[120, 156, 99, 224, 18, 145, 3, 0, 0, 104, 0, 61]]⟩ :
          ReadState).decompressedData = [] ∧
      (⟨⟨⟨1, 1, 8, 2, 0, 0, 0⟩, [10, 20, 30], ⟨[174, 66, 96, 130], true⟩⟩, [], 3, 0,
        tagIEND ++ [0], [], [[120, 156, 99, 224, 18, 145, 3, 0, 0, 104, 0, 61]]⟩ :
          ReadState).validPngMask &&& IDAT_CHAIN = 0 ∧
      (⟨⟨⟨1, 1, 8, 2, 0, 0, 0⟩, [10, 20, 30], ⟨[174, 66, 96, 130], true⟩⟩, [], 3, 0,
        tagIEND ++ [0], [], [[120, 156, 99, 224, 18, 145, 3, 0, 0, 104, 0, 61]]⟩ :
          ReadState).inflateCalls =
        [idatPayload [([120, 156, 99, 224, 18], [149, 238, 91, 6]),
         ([145, 3, 0, 0, 104, 0, 61], [152, 209, 2, 139])]]) :=
  ⟨by decide,
   (idat_run_flushed_once rgbInflate 0 ⟨0, 0, 0, 0, 0, 0, 0⟩ ⟨1, 1, 8, 2, 0, 0, 0⟩
    [144, 119, 83, 222]
    [([120, 156, 99, 224, 18], [149, 238, 91, 6]),
     ([145, 3, 0, 0, 104, 0, 61], [152, 209, 2, 139])] 0 tagIEND [174, 66, 96, 130]
    (by decide) (by decide) (by decide) (by decide) rfl (by decide) (by decide) (by decide)
    rfl (by decide)).2.2.2.2 _ (by decide)⟩

/-- C9, as stated, fails: in this file an `IHDR` that declares width 0 is followed by one
`IDAT` chunk and then by `IEND`, and the adapter inflates the payload of that chunk, yet the
decode exits with `InvalidDimensions` inside `parseIHDR`, with the trailer of `IHDR` and the
whole `IDAT` chunk still unread, nothing in the IDAT buffer and no call of the adapter. -/
theorem idat_run_flushed_once_counterexample :
    zeroWidthFile =
      pngMagic ++ chunk tagIHDR (ihdrPayload ⟨0, 1, 8, 2, 0, 0, 0⟩) [127, 181, 56, 224] ++
        idatChunks [([120, 156, 99, 224, 18, 145, 3, 0, 0, 104, 0, 61], [84, 8, 163, 247])] ++
        be32 0 ++ tagIEND ++ [174, 66, 96, 130] ∧
    rgbInflate (idatPayload [([120, 156, 99, 224, 18, 145, 3, 0, 0, 104, 0, 61],
      [84, 8, 163, 247])]) = some [0, 10, 20, 30] ∧
    Png.construct rgbInflate 0 ⟨0, 0, 0, 0, 0, 0, 0⟩ zeroWidthFile =
      .exited .InvalidDimensions
        ⟨⟨⟨0, 1, 8, 2, 0, 0, 0⟩, [],
          ⟨[127, 181, 56, 224] ++
            chunk tagIDAT [120, 156, 99, 224, 18, 145, 3, 0, 0, 104, 0, 61] [84, 8, 163, 247] ++
            chunk tagIEND [] [174, 66, 96, 130], true⟩⟩,
         [], 1, 13, tagIHDR ++ [0], [], []⟩ ∧
    (⟨⟨⟨0, 1, 8, 2, 0, 0, 0⟩, [],
          ⟨[127, 181, 56, 224] ++
            chunk tagIDAT [120, 156, 99, 224, 18, 145, 3, 0, 0, 104, 0, 61] [84, 8, 163, 247] ++
            chunk tagIEND [] [174, 66, 96, 130], true⟩⟩,
         [], 1, 13, tagIHDR ++ [0], [], []⟩ : ReadState).inflateCalls = [] := by
  refine ⟨by decide, by decide, by decide, rfl⟩


/-! ### Claims on `reverseImg` -/

/-- C11, as stated, fails: for a 1073741824 x 2 TrueColorAlpha header and a buffer of
`1073741824 * 2 * 4 = 2^33` bytes (the first scanline all 0, the second all 1) the `uint32_t`
`scanlineSize` is `2^32 mod 2^32 = 0`, the inner loop never runs, and `reverseImg` returns the
buffer as it was: the byte at row 0, offset 0 is still 0, not the 1 of row 1. -/
theorem reverseImg_flips_counterexample :
    (List.replicate 4294967296 0 ++ List.replicate 4294967296 1).length = 1073741824 * 2 * 4 ∧
    reverseImg ⟨⟨1073741824, 2, 8, 6, 0, 0, 0⟩,
        List.replicate 4294967296 0 ++ List.replicate 4294967296 1, ⟨[], true⟩⟩ =
      .returned ⟨⟨1073741824, 2, 8, 6, 0, 0, 0⟩,
        List.replicate 4294967296 0 ++ List.replicate 4294967296 1, ⟨[], true⟩⟩ ∧
    (List.replicate 4294967296 0 ++ List.replicate 4294967296 1).getD
        (0 * (4 * 1073741824) + 0) 0 ≠
      (List.replicate 4294967296 0 ++ List.replicate 4294967296 1).getD
        ((2 - 1 - 0) * (4 * 1073741824) + 0) 0 := by
  refine ⟨?_, ?_, ?_⟩
  · rw [List.length_append, List.length_replicate, List.length_replicate]
  · exact reverseImg_wide_two_rows 1073741824 8 6 0 0 0 _ _ (by decide)
  · rw [show (0 * (4 * 1073741824) + 0 : Nat) = 0 from rfl,
      show ((2 - 1 - 0) * (4 * 1073741824) + 0 : Nat)
        = (List.replicate 4294967296 0).length + 0 by rw [List.length_replicate],
      getD_append_lt _ _ 0 (by rw [List.length_replicate]; decide), getD_append_right_nat,
      List.getD_eq_getElem?_getD, List.getD_eq_getElem?_getD, List.getElem?_replicate,
      List.getElem?_replicate, if_pos (by decide)]
    decide

/-- C11, amended: for every TrueColorAlpha header with width `w` and height `h` and every pixel
buffer of `w * h * 4` bytes, fewer than `2^32`, `reverseImg` returns, leaves header and stream
alone and leaves a buffer of the same length in which, for every row `k < h` and every offset
`j < 4 * w`, the byte at row `k`, offset `j` is the original byte at row `h - 1 - k`, offset
`j`. -/
theorem reverseImg_flips (self : Png) (hct : self.mIhdr.colorType = 6)
    (hlen : self.mImgData.length = self.mIhdr.width * self.mIhdr.height * 4)
    (hlt : self.mIhdr.width * self.mIhdr.height * 4 < 4294967296) :
    ∃ out, reverseImg self = .returned { self with mImgData := out } ∧
      out.length = self.mImgData.length ∧
      ∀ k j, k < self.mIhdr.height → j < 4 * self.mIhdr.width →
        out.getD (k * (4 * self.mIhdr.width) + j) 0 =
          self.mImgData.getD ((self.mIhdr.height - 1 - k) * (4 * self.mIhdr.width) + j) 0 := by
  apply reverseImg_multiple_of_4 self self.mIhdr.width
  · rw [hct, if_neg (by decide)]
    exact Nat.mul_comm _ _
  · rw [hlen, Nat.mul_comm self.mIhdr.width, Nat.mul_assoc, Nat.mul_comm self.mIhdr.width]
  · rw [hlen]; exact hlt

/-- A 2x3 TrueColorAlpha buffer. -/
theorem reverseImg_flips_witness :
    ∃ out, reverseImg ⟨⟨2, 3, 8, 6, 0, 0, 0⟩, List.range 24, ⟨[], true⟩⟩ =
        .returned ⟨⟨2, 3, 8, 6, 0, 0, 0⟩, out, ⟨[], true⟩⟩ ∧
      out.length = (List.range 24).length ∧
      ∀ k j, k < 3 → j < 4 * 2 →
        out.getD (k * (4 * 2) + j) 0 = (List.range 24).getD ((3 - 1 - k) * (4 * 2) + j) 0 :=
  reverseImg_flips ⟨⟨2, 3, 8, 6, 0, 0, 0⟩, List.range 24, ⟨[], true⟩⟩ (by decide) (by decide)
    (by decide)

/-- C12 fails on the 2x2 TrueColor buffer of the end-to-end scenario (even height, 12 bytes):
the first of the two calls of `reverseImg` already runs into undefined behaviour, the 4-byte
swap unit at offset 4 of the 6-byte scanlines reaching past the end of the buffer, so the two
calls do not return the buffer they started from. -/
theorem reverseImg_twice_truecolor :
    (⟨2, 2, 8, 2, 0, 0, 0⟩ : IHDR).height % 2 = 0 ∧
    ([10, 20, 30, 40, 50, 60, 70, 80, 90, 100, 110, 120] : List Nat).length
      = 2 * 2 * bytesPerPixel ⟨2, 2, 8, 2, 0, 0, 0⟩ ∧
    (reverseImg ⟨⟨2, 2, 8, 2, 0, 0, 0⟩, [10, 20, 30, 40, 50, 60, 70, 80, 90, 100, 110, 120],
        ⟨[], true⟩⟩).andThen reverseImg = .undefinedBehaviour := by
  decide

/-- C17 fails on the 2x2 TrueColor buffer of the end-to-end scenario (12 bytes, 6-byte
scanlines): the unit at `j = 0` exchanges bytes 0..3 and 6..9; the unit at `j = 4` then copies
bytes 10 and 11 to 4 and 5 and reads `mImgData[lateIndex + j + 2]` at index `6 + 4 + 2 = 12`,
one past the last element. -/
theorem reverseImg_out_of_bounds :
    ([10, 20, 30, 40, 50, 60, 70, 80, 90, 100, 110, 120] : List Nat).length = 12 ∧
    swapUnit ⟨2, 2, 8, 2, 0, 0, 0⟩ 6 2 0 [10, 20, 30, 40, 50, 60, 70, 80, 90, 100, 110, 120]
      = .ok [70, 80, 90, 100, 50, 60, 10, 20, 30, 40, 110, 120] ∧
    atIdx [70, 80, 90, 100, 110, 120, 10, 20, 30, 40, 110, 120] (6 + 4 + 2)
      = .error .undefinedBehaviour ∧
    swapUnit ⟨2, 2, 8, 2, 0, 0, 0⟩ 6 2 4 [70, 80, 90, 100, 50, 60, 10, 20, 30, 40, 110, 120]
      = .error .undefinedBehaviour ∧
    reverseImg ⟨⟨2, 2, 8, 2, 0, 0, 0⟩, [10, 20, 30, 40, 50, 60, 70, 80, 90, 100, 110, 120],
        ⟨[], true⟩⟩ = .undefinedBehaviour := by
  decide

/-! ### Claims on the whole decode -/

/-- C16, as stated, fails: each of these three decodes finishes without a fatal error; the 1x1
TrueColor file without an `IDAT` chunk leaves an empty buffer instead of 3 bytes, the 2x1
TrueColor file with two IDAT runs leaves 12 bytes instead of 6, and the 2x2 TrueColor file
whose stream holds one pixel leaves 3 bytes instead of 12. -/
theorem readPng_buffer_length_counterexample :
    (Png.construct rgbInflate 0 ⟨0, 0, 0, 0, 0, 0, 0⟩ noIdatFile =
      .returned ⟨⟨⟨1, 1, 8, 2, 0, 0, 0⟩, [], ⟨[], true⟩⟩, [], 5, 0, [73, 69, 78, 68, 0], [], []⟩ ∧
     ([] : List Nat).length ≠ 1 * 1 * bytesPerPixel ⟨1, 1, 8, 2, 0, 0, 0⟩) ∧
    (Png.construct twoRunInflate 0 ⟨0, 0, 0, 0, 0, 0, 0⟩ twoRunFile =
      .returned ⟨⟨⟨2, 1, 8, 2, 0, 0, 0⟩, [1, 2, 3, 4, 5, 6, 10, 20, 30, 41, 52, 63], ⟨[], true⟩⟩,
        [], 7, 0, [73, 69, 78, 68, 0], [],
        [[120, 156, 99, 96, 100, 98, 102, 97, 101, 3, 0, 0, 63, 0, 22],
         [120, 156, 99, 228, 18, 145, 211, 48, 178, 1, 0, 2, 62, 0, 212]]⟩ ∧
     ([1, 2, 3, 4, 5, 6, 10, 20, 30, 41, 52, 63] : List Nat).length ≠
       2 * 1 * bytesPerPixel ⟨2, 1, 8, 2, 0, 0, 0⟩) ∧
    (Png.construct rgbInflate 0 ⟨0, 0, 0, 0, 0, 0, 0⟩ shortStreamFile =
      .returned ⟨⟨⟨2, 2, 8, 2, 0, 0, 0⟩, [10, 20, 30], ⟨[], true⟩⟩, [], 7, 0,
        [73, 69, 78, 68, 0], [], [[120, 156, 99, 224, 18, 145, 3, 0, 0, 104, 0, 61]]⟩ ∧
     ([10, 20, 30] : List Nat).length ≠ 2 * 2 * bytesPerPixel ⟨2, 2, 8, 2, 0, 0, 0⟩) := by
  decide

/-- C16, amended: for every input on which the decode finishes without a fatal error and on
which the decompression adapter was called exactly once (one IDAT run was flushed), on `c`,
delivering a stream of exactly `height * (1 + width * bpp)` bytes, fewer than `2^31`, the
colour type is TrueColor or TrueColorAlpha and the final pixel buffer has exactly
`width * height * bpp` bytes. -/
theorem readPng_buffer_length (inflate : Inflate) (chunkLength0 : Nat) (ihdr0 : IHDR)
    (file : List Nat) (s : ReadState) (c d : List Nat)
    (hret : Png.construct inflate chunkLength0 ihdr0 file = .returned s)
    (hcalls : s.inflateCalls = [c]) (hinf : inflate c = some d)
    (hn : d.length = s.self.mIhdr.height * (1 + s.self.mIhdr.width * bytesPerPixel s.self.mIhdr))
    (hlt : d.length < 2147483648) :
    (s.self.mIhdr.colorType = 2 ∨ s.self.mIhdr.colorType = 6) ∧
    s.self.mImgData.length =
      s.self.mIhdr.width * s.self.mIhdr.height * bytesPerPixel s.self.mIhdr := by
  obtain ⟨s', hinv, hself, hc⟩ := construct_returned inflate chunkLength0 ihdr0 file s hret
  rw [hc] at hcalls
  obtain ⟨d', hd', hct, hrgb⟩ := hinv.oneRun c hcalls
  rw [hinf] at hd'
  cases hd'
  have hm : s'.validPngMask &&& IHDR_MASK ≠ 0 := by
    intro h0
    have := (hinv.noHeader h0).2
    rw [this] at hcalls
    cases hcalls
  obtain ⟨hw, hh⟩ := hinv.dims hm
  rw [hself] at hn ⊢
  obtain ⟨out, hout, hlen, _⟩ := rgbBitDepth8_total s'.self.mIhdr d hct (by omega) (by omega)
    hn hlt
  rw [hrgb] at hout
  cases hout
  exact ⟨hct, hlen⟩

/-- The 1x1 TrueColor file `rgbFile`: one IDAT run, a stream of 4 bytes, a buffer of 3. -/
theorem readPng_buffer_length_witness :
    Png.construct rgbInflate 0 ⟨0, 0, 0, 0, 0, 0, 0⟩ rgbFile =
      .returned ⟨⟨⟨1, 1, 8, 2, 0, 0, 0⟩, [10, 20, 30], ⟨[], true⟩⟩, [], 7, 0,
        [73, 69, 78, 68, 0], [], [[120, 156, 99, 224, 18, 145, 3, 0, 0, 104, 0, 61]]⟩ ∧
    (((⟨1, 1, 8, 2, 0, 0, 0⟩ : IHDR).colorType = 2 ∨ (⟨1, 1, 8, 2, 0, 0, 0⟩ : IHDR).colorType = 6) ∧
      ([10, 20, 30] : List Nat).length = 1 * 1 * bytesPerPixel ⟨1, 1, 8, 2, 0, 0, 0⟩) :=
  ⟨by decide, readPng_buffer_length rgbInflate 0 ⟨0, 0, 0, 0, 0, 0, 0⟩ rgbFile
    ⟨⟨⟨1, 1, 8, 2, 0, 0, 0⟩, [10, 20, 30], ⟨[], true⟩⟩, [], 7, 0,
        [73, 69, 78, 68, 0], [], [[120, 156, 99, 224, 18, 145, 3, 0, 0, 104, 0, 61]]⟩
    [120, 156, 99, 224, 18, 145, 3, 0, 0, 104, 0, 61] [0, 10, 20, 30]
    (by decide) (by decide) (by decide) (by decide) (by decide)⟩

/-- C18 fails on the second IDAT run of `twoRunFile` (2x1 TrueColor): the decode finishes with
two adapter calls; the second call of `rgbBitDepth8` starts on the buffer `[1,2,3,4,5,6]` with
the Sub scanline `[1,10,20,30,40,50,60]`, and the byte it appends at absolute index 9
(filtered byte 40) is `41 = (40 + out[0]) mod 256`: the left neighbour is taken at index
`3 - 3 = 0`, counted from the start of the run, not at the absolute index `9 - 3 = 6`, which
would give `(40 + 10) mod 256 = 50`. -/
theorem second_run_neighbours :
    Png.construct twoRunInflate 0 ⟨0, 0, 0, 0, 0, 0, 0⟩ twoRunFile =
      .returned ⟨⟨⟨2, 1, 8, 2, 0, 0, 0⟩, [1, 2, 3, 4, 5, 6, 10, 20, 30, 41, 52, 63], ⟨[], true⟩⟩,
        [], 7, 0, [73, 69, 78, 68, 0], [],
        [[120, 156, 99, 96, 100, 98, 102, 97, 101, 3, 0, 0, 63, 0, 22],
         [120, 156, 99, 228, 18, 145, 211, 48, 178, 1, 0, 2, 62, 0, 212]]⟩ ∧
    rgbBitDepth8 ⟨2, 1, 8, 2, 0, 0, 0⟩ [1, 2, 3, 4, 5, 6] [1, 10, 20, 30, 40, 50, 60] =
      .ok [1, 2, 3, 4, 5, 6, 10, 20, 30, 41, 52, 63] ∧
    ([1, 2, 3, 4, 5, 6, 10, 20, 30, 41, 52, 63] : List Nat).getD 9 0 =
      (40 + ([1, 2, 3, 4, 5, 6, 10, 20, 30, 41, 52, 63] : List Nat).getD 0 0) % 256 ∧
    ([1, 2, 3, 4, 5, 6, 10, 20, 30, 41, 52, 63] : List Nat).getD 9 0 ≠
      (40 + ([1, 2, 3, 4, 5, 6, 10, 20, 30, 41, 52, 63] : List Nat).getD (9 - 3) 0) % 256 := by
  decide

/-- C15, as stated, fails: the 1x1 TrueColor file `interlacedFile` declares interlace method 1
and is decoded without a fatal error, to the pixel buffer `[10,20,30]`, the header keeping the
interlace method 1. -/
theorem interlace_ignored_counterexample :
    Png.construct rgbInflate 0 ⟨0, 0, 0, 0, 0, 0, 0⟩ interlacedFile =
      .returned ⟨⟨⟨1, 1, 8, 2, 0, 0, 1⟩, [10, 20, 30], ⟨[], true⟩⟩, [], 7, 0,
        [73, 69, 78, 68, 0], [], [[120, 156, 99, 224, 18, 145, 3, 0, 0, 104, 0, 61]]⟩ ∧
    (⟨1, 1, 8, 2, 0, 0, 1⟩ : IHDR).interfaceMethod ≠ 0 := by
  decide

/-- C15, amended: the decode never looks at the interlace method. For every input that starts
with the signature and a well-formed `IHDR` chunk (13-byte payload, width and height not 0),
the outcome of the decode with interlace method `x` is the outcome of the decode of the same
input with interlace method 0, the stored header field apart: the same fatal error if there is
one, and the same pixel buffer otherwise. -/
theorem interlace_ignored (inflate : Inflate) (chunkLength0 : Nat) (ihdr0 h : IHDR) (x : Nat)
    (crc rest : List Nat) (hw0 : h.width ≠ 0) (hh0 : h.height ≠ 0)
    (hw : h.width < 4294967296) (hh : h.height < 4294967296) (hcrc : crc.length = 4) :
    Png.construct inflate chunkLength0 ihdr0
        (pngMagic ++ chunk tagIHDR (ihdrPayload { h with interfaceMethod := x }) crc ++ rest) =
      (Png.construct inflate chunkLength0 ihdr0
        (pngMagic ++ chunk tagIHDR (ihdrPayload { h with interfaceMethod := 0 }) crc ++ rest)).map
        (ReadState.setInterlace x) := by
  rw [construct_after_IHDR inflate chunkLength0 ihdr0 { h with interfaceMethod := x } crc rest
      hw0 hh0 hw hh hcrc,
    construct_after_IHDR inflate chunkLength0 ihdr0 { h with interfaceMethod := 0 } crc rest
      hw0 hh0 hw hh hcrc]
  have hl := readLoop_interlace inflate x (33 + rest.length)
    { self := { mIhdr := { h with interfaceMethod := 0 }, mImgData := [],
                mPngFile := ⟨rest, true⟩ },
      decompressedData := [], validPngMask := 1, chunkLength := 13,
      chunkType := tagIHDR ++ [0], idatBuffer := [], inflateCalls := [] }
    (show (1 &&& IHDR_MASK : Nat) ≠ 0 by decide)
  have hs : ReadState.setInterlace x
      { self := { mIhdr := { h with interfaceMethod := 0 }, mImgData := [],
                  mPngFile := ⟨rest, true⟩ },
        decompressedData := [], validPngMask := 1, chunkLength := 13,
        chunkType := tagIHDR ++ [0], idatBuffer := [], inflateCalls := [] } =
      { self := { mIhdr := { h with interfaceMethod := x }, mImgData := [],
                  mPngFile := ⟨rest, true⟩ },
        decompressedData := [], validPngMask := 1, chunkLength := 13,
        chunkType := tagIHDR ++ [0], idatBuffer := [], inflateCalls := [] } := rfl
  rw [hs] at hl
  rw [hl]
  exact map_andThen _ _ _ _ (markIEND_interlace x)

/-- The file `interlacedFile` (interlace method 1) against the same file with interlace
method 0. -/
theorem interlace_ignored_witness :
    Png.construct rgbInflate 0 ⟨0, 0, 0, 0, 0, 0, 0⟩
        (pngMagic ++ chunk tagIHDR (ihdrPayload ⟨1, 1, 8, 2, 0, 0, 1⟩) [231, 112, 99, 72] ++
          (chunk tagIDAT [120, 156, 99, 224, 18, 145, 3, 0, 0, 104, 0, 61] [84, 8, 163, 247] ++
            chunk tagIEND [] [174, 66, 96, 130])) =
      (Png.construct rgbInflate 0 ⟨0, 0, 0, 0, 0, 0, 0⟩
        (pngMagic ++ chunk tagIHDR (ihdrPayload ⟨1, 1, 8, 2, 0, 0, 0⟩) [231, 112, 99, 72] ++
          (chunk tagIDAT [120, 156, 99, 224, 18, 145, 3, 0, 0, 104, 0, 61] [84, 8, 163, 247] ++
            chunk tagIEND [] [174, 66, 96, 130]))).map (ReadState.setInterlace 1) :=
  interlace_ignored rgbInflate 0 ⟨0, 0, 0, 0, 0, 0, 0⟩ ⟨1, 1, 8, 2, 0, 0, 0⟩ 1 [231, 112, 99, 72]
    (chunk tagIDAT [120, 156, 99, 224, 18, 145, 3, 0, 0, 104, 0, 61] [84, 8, 163, 247] ++
      chunk tagIEND [] [174, 66, 96, 130])
    (by decide) (by decide) (by decide) (by decide) (by decide)

end Lestpng
